import Mathlib

/-!
# Elasticsearch indexer: transaction grouping, bulk serialization, NFT event processing

A shallow embedding of the transaction grouper (`process/transactions/txGrouper.go`),
the transaction document builder (`process/transactions/transactionDBBuilder.go`),
the bulk serializer (`process/transactions/serialize.go`) and the two NFT event
processors (`process/elasticproc/logsevents/nftsProcessor.go` and
`process/logsevents/nftsProcessor.go`).

Conventions of the embedding:
* `[]byte` is `Bytes`; a Go `string` is a Lean `String` whose characters are the bytes
  (`goString`), so `string(b)` is `goString b`;
* `uint32` / `uint64` values are natural numbers; a conversion that can wrap is written
  with an explicit `% 2 ^ 64`;
* a Go `map[string]V` is an association list read with `mapGet` and written with `mapSet`;
* collaborators consumed through interfaces (pubkey converter, fee calculator, hasher,
  marshalizer, shard computation) are fields of a record of functions;
* a run-time panic (index out of range) is the `none` result.
-/

namespace EsIndexer

/-! ## Bytes, strings, numbers -/

/-- Byte slices. -/
abbrev Bytes := List (Fin 256)

/-- The Go conversion `string(b)`: the string whose characters are the bytes of `b`. -/
def goString (b : Bytes) : String :=
  String.mk (b.map fun x => Char.ofNat x.val)

/-- The bytes of a string literal whose characters are all below 256. -/
def toBytes (s : String) : Bytes :=
  s.data.map fun c => Fin.ofNat c.toNat

/-- One lowercase hexadecimal digit. -/
def hexDigit (n : Nat) : Char :=
  if n < 10 then Char.ofNat (48 + n) else Char.ofNat (87 + n)

/-- The characters of `hex.EncodeToString`. -/
def hexChars : Bytes → List Char
  | [] => []
  | b :: rest => hexDigit (b.val / 16) :: hexDigit (b.val % 16) :: hexChars rest

/-- The function `hex.EncodeToString`. -/
def hexEncode (b : Bytes) : String :=
  String.mk (hexChars b)

/-- The value of `big.NewInt(0).SetBytes(b)`: `b` read as a big-endian unsigned integer. -/
def bigFromBytes (b : Bytes) : Nat :=
  b.foldl (fun acc x => acc * 256 + x.val) 0

/-- The method `(*big.Int).Uint64` on a non-negative value: the low 64 bits. -/
def bigUint64 (n : Nat) : Nat :=
  n % 2 ^ 64

/-- The method `(*big.Int).String`: the decimal rendering. -/
def bigIntString : Int → String
  | Int.ofNat n => Nat.repr n
  | Int.negSucc n => "-" ++ Nat.repr (n + 1)

/-- The conversion `time.Duration(x)` of a `uint64` to the signed 64-bit `Duration`. -/
def toDuration (x : Nat) : Int :=
  if x % 2 ^ 64 < 2 ^ 63 then ((x % 2 ^ 64 : Nat) : Int) else ((x % 2 ^ 64 : Nat) : Int) - 2 ^ 64

/-! ## Go maps -/

/-- A Go `map[string]V`. -/
abbrev GoMap (α : Type) := List (String × α)

/-- The read `m[k]` with its presence flag. -/
def mapGet {α : Type} : GoMap α → String → Option α
  | [], _ => none
  | (k', v) :: rest, k => if k' = k then some v else mapGet rest k

/-- The write `m[k] = v`. -/
def mapSet {α : Type} : GoMap α → String → α → GoMap α
  | [], k, v => [(k, v)]
  | (k', v') :: rest, k, v => if k' = k then (k, v) :: rest else (k', v') :: mapSet rest k v

/-! ## Node-side data (inputs) -/

/-- The node's `transaction.Transaction` (fields read by the builder). -/
structure Transaction where
  Nonce : Nat
  Value : Int
  RcvAddr : Bytes
  RcvUserName : Bytes
  SndAddr : Bytes
  SndUserName : Bytes
  GasPrice : Nat
  GasLimit : Nat
  Data : Bytes
  Signature : Bytes
  deriving DecidableEq, Repr

/-- The node's `rewardTx.RewardTx`. -/
structure RewardTx where
  Round : Nat
  Value : Int
  RcvAddr : Bytes
  deriving DecidableEq, Repr

/-- The node's `smartContractResult.SmartContractResult`. -/
structure SmartContractResult where
  Nonce : Nat
  Value : Int
  RcvAddr : Bytes
  SndAddr : Bytes
  RelayerAddr : Bytes
  RelayedValue : Int
  Code : Bytes
  Data : Bytes
  PrevTxHash : Bytes
  OriginalTxHash : Bytes
  GasLimit : Nat
  GasPrice : Nat
  CallType : Nat
  CodeMetadata : Bytes
  ReturnMessage : Bytes
  deriving DecidableEq, Repr

/-- The node's `receipt.Receipt`. -/
structure Receipt where
  Value : Int
  SndAddr : Bytes
  Data : Bytes
  TxHash : Bytes
  deriving DecidableEq, Repr

/-- The interface `data.TransactionHandler` with its concrete shapes; the run-time cast
`txHandler.(*transaction.Transaction)` is a match on the constructor. -/
inductive TransactionHandler where
  | tx (t : Transaction)
  | reward (r : RewardTx)
  | scr (s : SmartContractResult)
  | receipt (r : Receipt)
  deriving DecidableEq, Repr

/-- The node's `block.MiniBlock`. -/
structure MiniBlock where
  TxHashes : List Bytes
  ReceiverShardID : Nat
  SenderShardID : Nat
  deriving DecidableEq, Repr

/-- The part of `data.HeaderHandler` the builder reads. -/
structure Header where
  round : Nat
  timeStamp : Nat
  deriving DecidableEq, Repr

/-! ## Indexer-side data (documents) -/

/-- The document `data.ScResult`. -/
structure ScResult where
  Hash : String := ""
  Nonce : Nat := 0
  GasLimit : Nat := 0
  GasPrice : Nat := 0
  Value : String := ""
  Sender : String := ""
  Receiver : String := ""
  RelayerAddr : String := ""
  RelayedValue : String := ""
  Code : String := ""
  Data : Bytes := []
  PrevTxHash : String := ""
  OriginalTxHash : String := ""
  CallType : String := ""
  CodeMetadata : Bytes := []
  ReturnMessage : String := ""
  EsdtTokenIdentifier : String := ""
  EsdtValue : String := ""
  Timestamp : Int := 0
  deriving DecidableEq, Repr

/-- The document `data.Transaction` (`types.Transaction` in the grouper). -/
structure DbTransaction where
  Hash : String := ""
  MBHash : String := ""
  Nonce : Nat := 0
  Round : Nat := 0
  Value : String := ""
  Receiver : String := ""
  Sender : String := ""
  ReceiverShard : Nat := 0
  SenderShard : Nat := 0
  GasPrice : Nat := 0
  GasLimit : Nat := 0
  Data : Bytes := []
  Signature : String := ""
  Timestamp : Int := 0
  Status : String := ""
  EsdtTokenIdentifier : String := ""
  EsdtValue : String := ""
  GasUsed : Nat := 0
  Fee : String := ""
  ReceiverUserName : Bytes := []
  SenderUserName : Bytes := []
  ReceiverAddressBytes : Bytes := []
  SmartContractResults : List ScResult := []
  deriving DecidableEq, Repr

/-- The record `data.AlteredAccount`; absent fields of a Go literal are zero values. -/
structure AlteredAccount where
  IsSender : Bool := false
  IsESDTOperation : Bool := false
  IsNFTOperation : Bool := false
  TokenIdentifier : String := ""
  NFTNonce : Nat := 0
  IsNFTCreate : Bool := false
  deriving DecidableEq, Repr

/-! ## Library constants -/

/-- The constant `transaction.TxStatusSuccess.String()`. -/
def TxStatusSuccess : String := "success"

/-- The constant `transaction.TxStatusPending.String()`. -/
def TxStatusPending : String := "pending"

/-- The constant `transaction.TxStatusInvalid.String()`. -/
def TxStatusInvalid : String := "invalid"

/-- The constant `core.AllShardId`. -/
def AllShardId : Nat := 0xFFFFFFF0

/-- The constant `core.MetachainShardId`. -/
def MetachainShardId : Nat := 0xFFFFFFFF

/-- The constant `core.BuiltInFunctionESDTNFTTransfer`. -/
def BuiltInFunctionESDTNFTTransfer : String := "ESDTNFTTransfer"

/-- The constant `core.BuiltInFunctionESDTNFTBurn`. -/
def BuiltInFunctionESDTNFTBurn : String := "ESDTNFTBurn"

/-- The constant `core.BuiltInFunctionESDTNFTAddQuantity`. -/
def BuiltInFunctionESDTNFTAddQuantity : String := "ESDTNFTAddQuantity"

/-- The constant `core.BuiltInFunctionESDTNFTCreate`. -/
def BuiltInFunctionESDTNFTCreate : String := "ESDTNFTCreate"

/-- The constant `core.BuiltInFunctionMultiESDTNFTTransfer`. -/
def BuiltInFunctionMultiESDTNFTTransfer : String := "MultiESDTNFTTransfer"

/-- The constant `core.BuiltInFunctionESDTWipe`. -/
def BuiltInFunctionESDTWipe : String := "ESDTWipe"

/-! ## `transactionDBBuilder.go` -/

/-- The collaborators of `dbTransactionBuilder`: the pubkey converter, the ESDT
transaction recogniser and the fee calculator. -/
structure TxBuilder where
  encode : Bytes → String
  isESDTTx : Transaction → Bool
  getTokenIdentifierAndValue : Transaction → String × String
  computeGasLimit : Transaction → Nat
  computeTxFeeBasedOnGasUsed : Transaction → Nat → Int

/-- The method `dbTransactionBuilder.prepareTransaction`. -/
def prepareTransaction (dtb : TxBuilder) (tx : Transaction) (txHash mbHash : Bytes)
    (mb : MiniBlock) (header : Header) (txStatus : String) : DbTransaction :=
  let tokenAndValue : String × String :=
    if dtb.isESDTTx tx then dtb.getTokenIdentifierAndValue tx else ("", "")
  let gasUsed := dtb.computeGasLimit tx
  let fee := dtb.computeTxFeeBasedOnGasUsed tx gasUsed
  { Hash := hexEncode txHash
    MBHash := hexEncode mbHash
    Nonce := tx.Nonce
    Round := header.round
    Value := bigIntString tx.Value
    Receiver := dtb.encode tx.RcvAddr
    Sender := dtb.encode tx.SndAddr
    ReceiverShard := mb.ReceiverShardID
    SenderShard := mb.SenderShardID
    GasPrice := tx.GasPrice
    GasLimit := tx.GasLimit
    Data := tx.Data
    Signature := hexEncode tx.Signature
    Timestamp := toDuration header.timeStamp
    Status := txStatus
    EsdtTokenIdentifier := tokenAndValue.1
    EsdtValue := tokenAndValue.2
    GasUsed := gasUsed
    Fee := bigIntString fee
    ReceiverUserName := tx.RcvUserName
    SenderUserName := tx.SndUserName
    ReceiverAddressBytes := tx.RcvAddr }

/-- The method `dbTransactionBuilder.prepareRewardTransaction`. -/
def prepareRewardTransaction (dtb : TxBuilder) (rTx : RewardTx) (txHash mbHash : Bytes)
    (mb : MiniBlock) (header : Header) (txStatus : String) : DbTransaction :=
  { Hash := hexEncode txHash
    MBHash := hexEncode mbHash
    Nonce := 0
    Round := rTx.Round
    Value := bigIntString rTx.Value
    Receiver := dtb.encode rTx.RcvAddr
    Sender := Nat.repr MetachainShardId
    ReceiverShard := mb.ReceiverShardID
    SenderShard := mb.SenderShardID
    GasPrice := 0
    GasLimit := 0
    Data := []
    Signature := ""
    Timestamp := toDuration header.timeStamp
    Status := txStatus }

/-! ## `txGrouper.go` -/

/-- The record `txGrouper`; `calculateHash` is `core.CalculateHash` with the grouper's
marshalizer and hasher, `none` when it returns an error. -/
structure TxGrouper where
  selfShardID : Nat
  txBuilder : TxBuilder
  isInImportMode : Bool
  calculateHash : MiniBlock → Option Bytes

/-- The grouper's call `tg.txBuilder.buildTransaction`: the builder method of
`transactionDBBuilder.go`, which carries the name `prepareTransaction` there. -/
def buildTransaction (dtb : TxBuilder) (tx : Transaction) (txHash mbHash : Bytes)
    (mb : MiniBlock) (header : Header) (txStatus : String) : DbTransaction :=
  prepareTransaction dtb tx txHash mbHash mb header txStatus

/-- The grouper's call `tg.txBuilder.buildRewardTransaction`: the builder method
`prepareRewardTransaction` of `transactionDBBuilder.go`. -/
def buildRewardTransaction (dtb : TxBuilder) (rTx : RewardTx) (txHash mbHash : Bytes)
    (mb : MiniBlock) (header : Header) (txStatus : String) : DbTransaction :=
  prepareRewardTransaction dtb rTx txHash mbHash mb header txStatus

/-- The function `computeStatus`. -/
def computeStatus (selfShardID receiverShardID : Nat) : String :=
  if selfShardID = receiverShardID then TxStatusSuccess else TxStatusPending

/-- The method `txGrouper.shouldIndex`. -/
def shouldIndex (tg : TxGrouper) (destinationShardID : Nat) : Bool :=
  if !tg.isInImportMode then true else decide (tg.selfShardID = destinationShardID)

/-- The function `addToAlteredAddresses`; the altered map is returned instead of mutated. -/
def addToAlteredAddresses (tx : DbTransaction) (alteredAddresses : GoMap AlteredAccount)
    (miniBlock : MiniBlock) (selfShardID : Nat) (isRewardTx : Bool) : GoMap AlteredAccount :=
  let isESDTTx := decide (tx.EsdtTokenIdentifier ≠ "") && decide (tx.EsdtValue ≠ "")
  let afterSender :=
    if selfShardID = miniBlock.SenderShardID ∧ isRewardTx = false then
      mapSet alteredAddresses tx.Sender
        { IsSender := true, IsESDTOperation := isESDTTx, TokenIdentifier := tx.EsdtTokenIdentifier }
    else alteredAddresses
  if tx.Status = TxStatusInvalid then
    afterSender
  else if selfShardID = miniBlock.ReceiverShardID ∨ miniBlock.ReceiverShardID = AllShardId then
    mapSet afterSender tx.Receiver
      { IsSender := false, IsESDTOperation := isESDTTx, TokenIdentifier := tx.EsdtTokenIdentifier }
  else afterSender

/-- The loop body of `groupInvalidTxs` run over the hashes of the miniblock; the state is
the result map and the altered-addresses map. -/
def groupInvalidTxsLoop (tg : TxGrouper) (mb : MiniBlock) (header : Header)
    (txs : GoMap TransactionHandler) (mbHash : Bytes) :
    List Bytes → GoMap DbTransaction × GoMap AlteredAccount →
      GoMap DbTransaction × GoMap AlteredAccount
  | [], acc => acc
  | txHash :: rest, (transactions, alteredAddresses) =>
    match mapGet txs (goString txHash) with
    | none => groupInvalidTxsLoop tg mb header txs mbHash rest (transactions, alteredAddresses)
    | some (TransactionHandler.tx tx) =>
      let dbTx := buildTransaction tg.txBuilder tx txHash mbHash mb header TxStatusInvalid
      let altered := addToAlteredAddresses dbTx alteredAddresses mb tg.selfShardID false
      let dbTx1 := { dbTx with GasUsed := dbTx.GasLimit }
      let fee := tg.txBuilder.computeTxFeeBasedOnGasUsed tx dbTx1.GasUsed
      let dbTx2 := { dbTx1 with Fee := bigIntString fee }
      groupInvalidTxsLoop tg mb header txs mbHash rest
        (mapSet transactions (goString txHash) dbTx2, altered)
    | some _ => groupInvalidTxsLoop tg mb header txs mbHash rest (transactions, alteredAddresses)

/-- The method `txGrouper.groupInvalidTxs`: the returned map (`none` is the `nil` map of
the hash-error path) and the altered-addresses map after the call. -/
def groupInvalidTxs (tg : TxGrouper) (mb : MiniBlock) (header : Header)
    (txs : GoMap TransactionHandler) (alteredAddresses : GoMap AlteredAccount) :
    Option (GoMap DbTransaction) × GoMap AlteredAccount :=
  match tg.calculateHash mb with
  | none => (none, alteredAddresses)
  | some mbHash =>
    let r := groupInvalidTxsLoop tg mb header txs mbHash mb.TxHashes ([], alteredAddresses)
    (some r.1, r.2)

/-- What the grouper guarantees of the document of an invalid transaction `tx`. -/
def InvalidDoc (tg : TxGrouper) (tx : Transaction) (doc : DbTransaction) : Prop :=
  doc.Status = "invalid" ∧ doc.GasUsed = tx.GasLimit ∧
    doc.Fee = bigIntString (tg.txBuilder.computeTxFeeBasedOnGasUsed tx tx.GasLimit)

/-! ## `serialize.go` -/

/-- The function `strings.Split` for a one-character separator, on characters; `cur` is
the piece being read, reversed. -/
def splitCharsAux (sep : Char) : List Char → List Char → List (List Char)
  | [], cur => [cur.reverse]
  | c :: rest, cur =>
    if c = sep then cur.reverse :: splitCharsAux sep rest [] else splitCharsAux sep rest (c :: cur)

/-- The function `strings.Split` for a one-character separator. -/
def stringsSplit (s : String) (sep : Char) : List String :=
  (splitCharsAux sep s.data []).map String.mk

/-- Modelled from the spec: the constant `atSeparator` is not among the sources; the
specification writes transaction data as `function@arg1@arg2…`. -/
def atSeparator : Char := '@'

/-- Modelled from the spec: the helper `isCrossShardOnSourceShard` is not among the
sources; the specification's rule for the cross-shard upsert is
"when `selfShard == senderShard ≠ receiverShard`". -/
def isCrossShardOnSourceShard (tx : DbTransaction) (selfShardID : Nat) : Bool :=
  decide (selfShardID = tx.SenderShard) && decide (tx.SenderShard ≠ tx.ReceiverShard)

/-- The function `isNFTTransferOrMultiTransfer`. -/
def isNFTTransferOrMultiTransfer (tx : DbTransaction) : Bool :=
  if tx.SmartContractResults.length < 0 ∨ tx.SenderShard ≠ tx.ReceiverShard then false
  else
    let splitData := stringsSplit (goString tx.Data) atSeparator
    if splitData.length < 4 then false
    else
      decide (splitData.head? = some BuiltInFunctionESDTNFTTransfer) ||
        decide (splitData.head? = some BuiltInFunctionMultiESDTNFTTransfer)

/-- The painless source of the cross-shard upsert written on the source shard. -/
def crossShardScript : String := "return"

/-- The painless source built by `prepareNFTESDTTransferOrMultiESDTTransfer`. -/
def nftTransferScript : String :=
  "def status = ctx._source.status;" ++ "ctx._source = params.tx;" ++
    "ctx._source.status = status;"

/-- The function `prepareNFTESDTTransferOrMultiESDTTransfer`. -/
def prepareNFTESDTTransferOrMultiESDTTransfer (marshaledTx : String) : String :=
  "\x7b\"script\":\x7b\"source\":\"" ++ nftTransferScript ++
    "\",\"lang\": \"painless\",\"params\":" ++ "\x7b\"tx\": " ++ marshaledTx ++
    "\x7d\x7d,\"upsert\":" ++ marshaledTx ++ "\x7d"

/-- The function `prepareSerializedDataForATransaction`: the action line and the payload,
or `none` when `json.Marshal` fails; `jsonMarshal` is `json.Marshal` on a transaction
document. -/
def prepareSerializedDataForATransaction (jsonMarshal : DbTransaction → Option String)
    (tx : DbTransaction) (selfShardID : Nat) : Option (String × String) :=
  let metaData := "\x7b\"update\":\x7b\"_id\":\"" ++ tx.Hash ++ "\", \"_type\": \"_doc\"\x7d\x7d" ++ "\n"
  match jsonMarshal tx with
  | none => none
  | some marshaledTx =>
    if isCrossShardOnSourceShard tx selfShardID then
      some (metaData,
        "\x7b\"script\":\x7b\"source\":\"" ++ crossShardScript ++ "\"\x7d,\"upsert\":" ++
          marshaledTx ++ "\x7d")
    else if isNFTTransferOrMultiTransfer tx then
      some (metaData, prepareNFTESDTTransferOrMultiESDTTransfer marshaledTx)
    else
      some ("\x7b \"index\" : \x7b \"_id\" : \"" ++ tx.Hash ++ "\", \"_type\" : \"" ++ "_doc" ++
          "\" \x7d \x7d" ++ "\n",
        marshaledTx)

/-! ## Elasticsearch update semantics

The bulk `update` action with a script and an `upsert` body: the script runs on the stored
document when there is one, the `upsert` body is stored when there is none. Scripts are
read from their painless source text; the fragment covers the statements the transaction
serializer emits. -/

/-- JSON values. -/
inductive Json where
  | null
  | bool (b : Bool)
  | num (n : Int)
  | str (s : String)
  | arr (items : List Json)
  | obj (fields : List (String × Json))

/-- A stored document (`_source`): a JSON object. -/
abbrev Doc := GoMap Json

/-- The painless read `m.f` of a map: the value, `null` when the key is absent. -/
def docGet (d : Doc) (f : String) : Json :=
  (mapGet d f).getD Json.null

/-- Painless expressions of the fragment. -/
inductive PExpr where
  | var (x : String)
  | param (p : String)
  | sourceField (f : String)
  deriving DecidableEq, Repr

/-- Painless statements of the fragment. -/
inductive PStmt where
  | ret
  | defVar (x : String) (e : PExpr)
  | setSource (e : PExpr)
  | setField (f : String) (e : PExpr)
  deriving DecidableEq, Repr

/-- Reads `x`, `params.p` or `ctx._source.f`. -/
def parseExpr (w : String) : Option PExpr :=
  match stringsSplit w '.' with
  | [x] => some (PExpr.var x)
  | [p, n] => if p = "params" then some (PExpr.param n) else none
  | [c, s, f] => if c = "ctx" ∧ s = "_source" then some (PExpr.sourceField f) else none
  | _ => none

/-- Reads one statement from its words; `some none` is the empty statement. -/
def parseStmt (ws : List String) : Option (Option PStmt) :=
  match ws with
  | [] => some none
  | [r] => if r = "return" then some (some PStmt.ret) else none
  | [lhs, eq, e] =>
    if eq = "=" then
      match stringsSplit lhs '.', parseExpr e with
      | [c, s], some v =>
        if c = "ctx" ∧ s = "_source" then some (some (PStmt.setSource v)) else none
      | [c, s, f], some v =>
        if c = "ctx" ∧ s = "_source" then some (some (PStmt.setField f v)) else none
      | _, _ => none
    else none
  | [d, x, eq, e] =>
    if d = "def" ∧ eq = "=" then (parseExpr e).map fun v => some (PStmt.defVar x v) else none
  | _ => none

/-- Reads the statements of a list of statement texts. -/
def parseStmts : List String → Option (List PStmt)
  | [] => some []
  | t :: rest =>
    match parseStmt ((stringsSplit t ' ').filter fun w => w ≠ ""), parseStmts rest with
    | some (some st), some sts => some (st :: sts)
    | some none, some sts => some sts
    | _, _ => none

/-- Reads a painless source: statements separated by `;`. -/
def parseScript (source : String) : Option (List PStmt) :=
  parseStmts (stringsSplit source ';')

/-- The state of a running script: local variables and `ctx._source`. -/
structure ScriptState where
  vars : GoMap Json
  source : Doc

/-- Evaluates an expression; `none` is a run-time error (unknown variable). -/
def evalExpr (params : GoMap Json) (st : ScriptState) : PExpr → Option Json
  | PExpr.var x => mapGet st.vars x
  | PExpr.param p => some ((mapGet params p).getD Json.null)
  | PExpr.sourceField f => some (docGet st.source f)

/-- Runs statements; `return` stops the script; `none` is a run-time error. -/
def execStmts (params : GoMap Json) : List PStmt → ScriptState → Option ScriptState
  | [], st => some st
  | PStmt.ret :: _, st => some st
  | PStmt.defVar x e :: rest, st =>
    match evalExpr params st e with
    | none => none
    | some v => execStmts params rest { st with vars := mapSet st.vars x v }
  | PStmt.setSource e :: rest, st =>
    match evalExpr params st e with
    | some (Json.obj fields) => execStmts params rest { st with source := fields }
    | _ => none
  | PStmt.setField f e :: rest, st =>
    match evalExpr params st e with
    | none => none
    | some v => execStmts params rest { st with source := mapSet st.source f v }

/-- Runs a script given by its source on a stored document. -/
def runScript (source : String) (params : GoMap Json) (doc : Doc) : Option Doc :=
  match parseScript source with
  | none => none
  | some stmts => (execStmts params stmts { vars := [], source := doc }).map fun st => st.source

/-- The body of a bulk `update` action: script source, script parameters and the `upsert`
document, the last two as JSON texts. -/
structure UpdateRequest where
  source : String
  params : List (String × String)
  upsert : String
  deriving DecidableEq, Repr

/-- The JSON text of the parameters of a request. -/
def renderParams : List (String × String) → String
  | [] => ""
  | [(k, v)] => "\"" ++ k ++ "\": " ++ v
  | (k, v) :: rest => "\"" ++ k ++ "\": " ++ v ++ "," ++ renderParams rest

/-- The JSON text of a request as the transaction serializer writes it. -/
def UpdateRequest.body (r : UpdateRequest) : String :=
  match r.params with
  | [] => "\x7b\"script\":\x7b\"source\":\"" ++ r.source ++ "\"\x7d,\"upsert\":" ++ r.upsert ++ "\x7d"
  | ps =>
    "\x7b\"script\":\x7b\"source\":\"" ++ r.source ++ "\",\"lang\": \"painless\",\"params\":" ++
      "\x7b" ++ renderParams ps ++ "\x7d\x7d,\"upsert\":" ++ r.upsert ++ "\x7d"

/-- The action line of a bulk `update` on the document `id`. -/
def updateActionLine (id : String) : String :=
  "\x7b\"update\":\x7b\"_id\":\"" ++ id ++ "\", \"_type\": \"_doc\"\x7d\x7d" ++ "\n"

/-- The request the source shard sends for a cross-shard transaction. -/
def crossShardRequest (marshaledTx : String) : UpdateRequest :=
  { source := crossShardScript, params := [], upsert := marshaledTx }

/-- The request sent for an intra-shard NFT transfer or multi transfer. -/
def nftTransferRequest (marshaledTx : String) : UpdateRequest :=
  { source := nftTransferScript, params := [("tx", marshaledTx)], upsert := marshaledTx }

/-- Elasticsearch applying an update request to the document stored under an id
(`none` when there is none): the new stored document, or `none` when the request fails.
`jsonOf` is the value a JSON text denotes. -/
def esUpdate (jsonOf : String → Json) (r : UpdateRequest) (existing : Option Doc) :
    Option Doc :=
  match existing with
  | none =>
    match jsonOf r.upsert with
    | Json.obj d => some d
    | _ => none
  | some d => runScript r.source (r.params.map fun p => (p.1, jsonOf p.2)) d

/-- An index: document id to stored document. -/
abbrev EsIndex := GoMap Doc

/-- Elasticsearch applying the bulk `update` action on `id` to an index. -/
def esBulkUpdate (jsonOf : String → Json) (idx : EsIndex) (id : String) (r : UpdateRequest) :
    Option EsIndex :=
  (esUpdate jsonOf r (mapGet idx id)).map fun d => mapSet idx id d


/-! ## Log events and the handlers they feed -/

/-- The part of `EventHandler` the NFT processors read. -/
structure Event where
  address : Bytes
  identifier : Bytes
  topics : List Bytes
  deriving DecidableEq, Repr

/-- The library type `esdt.ESDigitalToken` as far as its metadata goes. -/
structure ESDigitalToken where
  creator : Bytes
  name : Bytes
  royalties : Nat
  hash : Bytes
  uris : List Bytes
  attributes : Bytes
  nonce : Nat
  deriving DecidableEq, Repr

/-- Modelled from the spec: the type `data.TokenMetaData` is not among the sources; the
specification lists its content as
`{creator(bech32), name, royalties, hash, uris, attributes, tags, nonce}`. -/
structure TokenMetaData where
  creator : String
  name : String
  royalties : Nat
  hash : Bytes
  uris : List Bytes
  attributes : Bytes
  tags : List String
  nonce : Nat
  deriving DecidableEq, Repr

/-- The record `data.TokenInfo` (fields written by the NFT processors); `Data` is a
pointer, `none` when nil. -/
structure TokenInfo where
  Token : String := ""
  Identifier : String := ""
  Timestamp : Int := 0
  Data : Option TokenMetaData := none
  Nonce : Nat := 0
  deriving DecidableEq, Repr

/-- The handlers an event processor writes to, each kept as the sequence of its `Add`
(or `ParseTags`) calls: `AlteredAccountsHandler.Add(key, account)`, `TokensHandler.Add`
for created tokens and for the tokens-supply list, and `CountTags.ParseTags`. -/
structure Handlers where
  accounts : List (String × AlteredAccount) := []
  tokens : List TokenInfo := []
  tokensSupply : List TokenInfo := []
  tagsCount : List (List String) := []
  deriving DecidableEq, Repr

/-- The package-level functions the NFT processors call and that are not among the
sources: `sharding.ComputeShardID`, `converters.ComputeTokenIdentifier` and
`converters.PrepareTokenMetaData` (a pointer result, `none` when nil). -/
structure Lib where
  computeShardID : Bytes → Nat → Nat
  computeTokenIdentifier : String → Nat → String
  prepareTokenMetaData : (Bytes → String) → ESDigitalToken → Option TokenMetaData

/-- Modelled from the spec: the constant `numTopicsWithReceiverAddress` is not among the
sources; the specification places the receiver address (or the encoded token) in
`Topic[3]`, so a topic list with a receiver has four topics. -/
def numTopicsWithReceiverAddress : Nat := 4

namespace Elasticproc

/-! ## `process/elasticproc/logsevents/nftsProcessor.go` -/

/-- The record `nftsProcessor`; `unmarshal` is `marshalizer.Unmarshal` into an
`ESDigitalToken`, `none` when it returns an error. -/
structure NftsProcessor where
  encode : Bytes → String
  nftOperationsIdentifiers : List String
  unmarshal : Bytes → Option ESDigitalToken

/-- The constructor `newNFTsProcessor`. -/
def newNFTsProcessor (encode : Bytes → String) (unmarshal : Bytes → Option ESDigitalToken) :
    NftsProcessor :=
  { encode := encode
    unmarshal := unmarshal
    nftOperationsIdentifiers :=
      [BuiltInFunctionESDTNFTTransfer, BuiltInFunctionESDTNFTBurn,
        BuiltInFunctionESDTNFTAddQuantity, BuiltInFunctionESDTNFTCreate,
        BuiltInFunctionMultiESDTNFTTransfer, BuiltInFunctionESDTWipe] }

/-- The record `argsProcessEvent` without the handlers it points to. -/
structure ArgsProcessEvent where
  event : Event
  timestamp : Nat
  numOfShards : Nat
  selfShardID : Nat
  deriving DecidableEq, Repr

/-- The record `argOutputProcessEvent`; the default is the Go zero value. -/
structure ArgOutputProcessEvent where
  identifier : String := ""
  value : String := ""
  processed : Bool := false
  receiver : String := ""
  receiverShardID : Nat := 0
  deriving DecidableEq, Repr

/-- The method `nftsProcessor.shouldAddReceiverData`. -/
def shouldAddReceiverData (args : ArgsProcessEvent) : Bool :=
  let eventIdentifier := goString args.event.identifier
  let isWrongIdentifier := decide (eventIdentifier ≠ BuiltInFunctionESDTNFTTransfer) &&
    decide (eventIdentifier ≠ BuiltInFunctionMultiESDTNFTTransfer)
  if isWrongIdentifier || decide (args.event.topics.length < numTopicsWithReceiverAddress) then
    false
  else true

/-- The method `nftsProcessor.processNFTEventOnSender`: the handlers after the call,
`none` on an out-of-range topic access. -/
def processNFTEventOnSender (np : NftsProcessor) (lib : Lib) (event : Event) (h : Handlers)
    (timestamp : Nat) : Option Handlers :=
  match event.topics[0]?, event.topics[1]? with
  | some t0, some t1 =>
    let token := goString t0
    let nonceBig := bigFromBytes t1
    let bech32Addr := np.encode event.address
    let eventIdentifier := goString event.identifier
    let h1 : Handlers :=
      if eventIdentifier = BuiltInFunctionESDTNFTBurn ∨
          eventIdentifier = BuiltInFunctionESDTWipe then
        { h with tokensSupply := h.tokensSupply ++
            [{ Token := token
               Identifier := lib.computeTokenIdentifier token (bigUint64 nonceBig)
               Timestamp := toDuration timestamp
               Nonce := bigUint64 nonceBig }] }
      else h
    let isNFTCreate := decide (eventIdentifier = BuiltInFunctionESDTNFTCreate)
    let alteredAccount : AlteredAccount :=
      { IsNFTOperation := true
        TokenIdentifier := token
        NFTNonce := bigUint64 nonceBig
        IsNFTCreate := isNFTCreate }
    let h2 : Handlers := { h1 with accounts := h1.accounts ++ [(bech32Addr, alteredAccount)] }
    let shouldReturn :=
      !isNFTCreate || decide (event.topics.length < numTopicsWithReceiverAddress)
    if shouldReturn then some h2
    else
      match event.topics[3]? with
      | none => none
      | some esdtTokenBytes =>
        match np.unmarshal esdtTokenBytes with
        | none => some h2
        | some esdtToken =>
          let tokenMetaData := lib.prepareTokenMetaData np.encode esdtToken
          some { h2 with tokens := h2.tokens ++
            [{ Token := token
               Identifier := lib.computeTokenIdentifier token (bigUint64 nonceBig)
               Timestamp := toDuration timestamp
               Data := tokenMetaData
               Nonce := bigUint64 nonceBig }] }
  | _, _ => none

/-- The method `nftsProcessor.processEvent`: the output and the handlers after the call,
`none` on an out-of-range topic access. -/
def processEvent (np : NftsProcessor) (lib : Lib) (args : ArgsProcessEvent) (h : Handlers) :
    Option (ArgOutputProcessEvent × Handlers) :=
  let eventIdentifier := goString args.event.identifier
  if eventIdentifier ∉ np.nftOperationsIdentifiers then some ({}, h)
  else
    let topics := args.event.topics
    match topics[1]? with
    | none => none
    | some t1 =>
      let nonceBig := bigFromBytes t1
      if bigUint64 nonceBig = 0 then some ({}, h)
      else
        let sender := args.event.address
        let senderShardID := lib.computeShardID sender args.numOfShards
        let afterSender : Option Handlers :=
          if senderShardID = args.selfShardID then
            processNFTEventOnSender np lib args.event h args.timestamp
          else some h
        match afterSender, topics[0]?, topics[2]? with
        | some h1, some t0, some t2 =>
          let token := goString t0
          let identifier := lib.computeTokenIdentifier token (bigUint64 nonceBig)
          let valueBig := bigFromBytes t2
          if !shouldAddReceiverData args then
            some ({ identifier := identifier, value := Nat.repr valueBig, processed := true }, h1)
          else
            match topics[3]? with
            | none => none
            | some receiver =>
              let encodedReceiver := np.encode receiver
              let receiverShardID := lib.computeShardID receiver args.numOfShards
              if receiverShardID ≠ args.selfShardID then
                some ({ identifier := identifier, value := Nat.repr valueBig, processed := true,
                        receiver := encodedReceiver, receiverShardID := receiverShardID }, h1)
              else
                some ({ identifier := identifier, value := Nat.repr valueBig, processed := true,
                        receiver := encodedReceiver, receiverShardID := receiverShardID },
                  { h1 with accounts := h1.accounts ++
                      [(encodedReceiver,
                        { IsNFTOperation := true, TokenIdentifier := token,
                          NFTNonce := bigUint64 nonceBig })] })
        | _, _, _ => none

end Elasticproc

namespace Logsevents

/-! ## `process/logsevents/nftsProcessor.go` -/

/-- The record `nftsProcessor`; `computeId` and `selfId` are the shard coordinator's
`ComputeId` and `SelfId`, `unmarshal` is `marshalizer.Unmarshal` into an `ESDigitalToken`,
`none` when it returns an error. -/
structure NftsProcessor where
  encode : Bytes → String
  nftOperationsIdentifiers : List String
  computeId : Bytes → Nat
  selfId : Nat
  unmarshal : Bytes → Option ESDigitalToken

/-- The constructor `newNFTsProcessor`. -/
def newNFTsProcessor (computeId : Bytes → Nat) (selfId : Nat) (encode : Bytes → String)
    (unmarshal : Bytes → Option ESDigitalToken) : NftsProcessor :=
  { computeId := computeId
    selfId := selfId
    encode := encode
    unmarshal := unmarshal
    nftOperationsIdentifiers :=
      [BuiltInFunctionESDTNFTTransfer, BuiltInFunctionESDTNFTBurn,
        BuiltInFunctionESDTNFTAddQuantity, BuiltInFunctionESDTNFTCreate] }

/-- The method `nftsProcessor.processNFTEventOnSender`: the handlers after the call,
`none` on an out-of-range topic access. -/
def processNFTEventOnSender (np : NftsProcessor) (lib : Lib) (event : Event) (h : Handlers)
    (timestamp : Nat) : Option Handlers :=
  match event.topics[0]?, event.topics[1]? with
  | some t0, some t1 =>
    let token := goString t0
    let nonceBig := bigFromBytes t1
    let bech32Addr := np.encode event.address
    let alteredAccount : AlteredAccount :=
      { IsNFTOperation := true
        TokenIdentifier := token
        NFTNonce := bigUint64 nonceBig }
    let h1 : Handlers := { h with accounts := h.accounts ++ [(bech32Addr, alteredAccount)] }
    let shouldReturn := decide (goString event.identifier ≠ BuiltInFunctionESDTNFTCreate) ||
      decide (event.topics.length < 3)
    if shouldReturn then some h1
    else
      match event.topics[2]? with
      | none => none
      | some esdtTokenBytes =>
        match np.unmarshal esdtTokenBytes with
        | none => some h1
        | some esdtToken =>
          let tokenMetaData := lib.prepareTokenMetaData np.encode esdtToken
          let h2 : Handlers := { h1 with tokens := h1.tokens ++
            [{ Token := token
               Identifier := lib.computeTokenIdentifier token (bigUint64 nonceBig)
               Timestamp := toDuration timestamp
               Data := tokenMetaData }] }
          match tokenMetaData with
          | some md => some { h2 with tagsCount := h2.tagsCount ++ [md.tags] }
          | none => some h2
  | _, _ => none

/-- The method `nftsProcessor.processEvent`: the returned token identifier and the
handlers after the call, `none` on an out-of-range topic access. -/
def processEvent (np : NftsProcessor) (lib : Lib) (event : Event) (h : Handlers)
    (timestamp : Nat) : Option (String × Handlers) :=
  if goString event.identifier ∉ np.nftOperationsIdentifiers then some ("", h)
  else
    let sender := event.address
    let afterSender : Option Handlers :=
      if np.computeId sender = np.selfId then
        processNFTEventOnSender np lib event h timestamp
      else some h
    let topics := event.topics
    match afterSender, topics[0]?, topics[1]? with
    | some h1, some t0, some t1 =>
      let token := goString t0
      let nonceBig := bigFromBytes t1
      let identifier := lib.computeTokenIdentifier token (bigUint64 nonceBig)
      if goString event.identifier ≠ BuiltInFunctionESDTNFTTransfer ∨ topics.length < 3 then
        some (identifier, h1)
      else
        match topics[2]? with
        | none => none
        | some receiver =>
          if np.computeId receiver ≠ np.selfId then some (identifier, h1)
          else
            let encodedReceiver := np.encode receiver
            some (identifier,
              { h1 with accounts := h1.accounts ++
                  [(encodedReceiver,
                    { IsNFTOperation := true, TokenIdentifier := token,
                      NFTNonce := bigUint64 nonceBig })] })
    | _, _, _ => none

end Logsevents

/-! ## Token identifiers -/

/-- The bytes `big.NewInt(0).SetUint64(n).Bytes()`: the big-endian bytes of a `uint64`
without leading zero bytes. -/
def uint64Bytes (n : Nat) : Bytes :=
  ([56, 48, 40, 32, 24, 16, 8, 0].map fun s => (Fin.ofNat (n / 2 ^ s % 256) : Fin 256)).dropWhile
    fun b => b = 0

/-- Modelled from the spec: the converter `ComputeTokenIdentifier` is not among the
sources; the specification gives it as "`token` if nonce=0, else
`token + "-" + hex(nonce, even-length, no leading zero)`". -/
def ComputeTokenIdentifier (token : String) (nonce : Nat) : String :=
  if nonce = 0 then token else token ++ "-" ++ hexEncode (uint64Bytes nonce)

/-! ## `txGrouper.go`: normal and reward miniblocks -/

/-- The loop body of `groupNormalTxs` run over the hashes of the miniblock; the state is
the result map and the altered-addresses map. -/
def groupNormalTxsLoop (tg : TxGrouper) (mb : MiniBlock) (header : Header)
    (txs : GoMap TransactionHandler) (mbHash : Bytes) (mbStatus : String) :
    List Bytes → GoMap DbTransaction × GoMap AlteredAccount →
      GoMap DbTransaction × GoMap AlteredAccount
  | [], acc => acc
  | txHash :: rest, (transactions, alteredAddresses) =>
    match mapGet txs (goString txHash) with
    | none =>
      groupNormalTxsLoop tg mb header txs mbHash mbStatus rest (transactions, alteredAddresses)
    | some (TransactionHandler.tx tx) =>
      let dbTx := buildTransaction tg.txBuilder tx txHash mbHash mb header mbStatus
      let altered := addToAlteredAddresses dbTx alteredAddresses mb tg.selfShardID false
      if shouldIndex tg mb.ReceiverShardID then
        groupNormalTxsLoop tg mb header txs mbHash mbStatus rest
          (mapSet transactions (goString txHash) dbTx, altered)
      else
        groupNormalTxsLoop tg mb header txs mbHash mbStatus rest (transactions, altered)
    | some _ =>
      groupNormalTxsLoop tg mb header txs mbHash mbStatus rest (transactions, alteredAddresses)

/-- The method `txGrouper.groupNormalTxs`: the returned map (`none` is the `nil` map of
the hash-error path) and the altered-addresses map after the call. -/
def groupNormalTxs (tg : TxGrouper) (mb : MiniBlock) (header : Header)
    (txs : GoMap TransactionHandler) (alteredAddresses : GoMap AlteredAccount) :
    Option (GoMap DbTransaction) × GoMap AlteredAccount :=
  match tg.calculateHash mb with
  | none => (none, alteredAddresses)
  | some mbHash =>
    let mbStatus := computeStatus tg.selfShardID mb.ReceiverShardID
    let r := groupNormalTxsLoop tg mb header txs mbHash mbStatus mb.TxHashes
      ([], alteredAddresses)
    (some r.1, r.2)

/-- The loop body of `groupRewardsTxs` run over the hashes of the miniblock. -/
def groupRewardsTxsLoop (tg : TxGrouper) (mb : MiniBlock) (header : Header)
    (txs : GoMap TransactionHandler) (mbHash : Bytes) (mbStatus : String) :
    List Bytes → GoMap DbTransaction × GoMap AlteredAccount →
      GoMap DbTransaction × GoMap AlteredAccount
  | [], acc => acc
  | txHash :: rest, (rewardsTxs, alteredAddresses) =>
    match mapGet txs (goString txHash) with
    | none =>
      groupRewardsTxsLoop tg mb header txs mbHash mbStatus rest (rewardsTxs, alteredAddresses)
    | some (TransactionHandler.reward rtx) =>
      let dbTx := buildRewardTransaction tg.txBuilder rtx txHash mbHash mb header mbStatus
      let altered := addToAlteredAddresses dbTx alteredAddresses mb tg.selfShardID true
      if shouldIndex tg mb.ReceiverShardID then
        groupRewardsTxsLoop tg mb header txs mbHash mbStatus rest
          (mapSet rewardsTxs (goString txHash) dbTx, altered)
      else
        groupRewardsTxsLoop tg mb header txs mbHash mbStatus rest (rewardsTxs, altered)
    | some _ =>
      groupRewardsTxsLoop tg mb header txs mbHash mbStatus rest (rewardsTxs, alteredAddresses)

/-- The method `txGrouper.groupRewardsTxs`: the returned map (`none` is the `nil` map of
the hash-error path) and the altered-addresses map after the call. -/
def groupRewardsTxs (tg : TxGrouper) (mb : MiniBlock) (header : Header)
    (txs : GoMap TransactionHandler) (alteredAddresses : GoMap AlteredAccount) :
    Option (GoMap DbTransaction) × GoMap AlteredAccount :=
  match tg.calculateHash mb with
  | none => (none, alteredAddresses)
  | some mbHash =>
    let mbStatus := computeStatus tg.selfShardID mb.ReceiverShardID
    let r := groupRewardsTxsLoop tg mb header txs mbHash mbStatus mb.TxHashes
      ([], alteredAddresses)
    (some r.1, r.2)

/-- The common shape of the result map of the grouping loops, used to reason about them:
`pick` tells, for a pool key, whether the handler has the wanted shape and how its
document is built from the hash; `keep` is the indexing decision. -/
def groupFold (pick : String → Option (Bytes → DbTransaction)) (keep : Bool) :
    List Bytes → GoMap DbTransaction → GoMap DbTransaction
  | [], m => m
  | txHash :: rest, m =>
    match pick (goString txHash) with
    | none => groupFold pick keep rest m
    | some build =>
      groupFold pick keep rest (if keep then mapSet m (goString txHash) (build txHash) else m)

/-- The regular-transaction shape of a pool entry and its document, for `groupNormalTxs`. -/
def pickNormal (tg : TxGrouper) (mb : MiniBlock) (header : Header)
    (txs : GoMap TransactionHandler) (mbHash : Bytes) (mbStatus : String) (k : String) :
    Option (Bytes → DbTransaction) :=
  match mapGet txs k with
  | some (TransactionHandler.tx tx) =>
    some fun txHash => buildTransaction tg.txBuilder tx txHash mbHash mb header mbStatus
  | _ => none

/-- The reward shape of a pool entry and its document, for `groupRewardsTxs`. -/
def pickReward (tg : TxGrouper) (mb : MiniBlock) (header : Header)
    (txs : GoMap TransactionHandler) (mbHash : Bytes) (mbStatus : String) (k : String) :
    Option (Bytes → DbTransaction) :=
  match mapGet txs k with
  | some (TransactionHandler.reward rtx) =>
    some fun txHash => buildRewardTransaction tg.txBuilder rtx txHash mbHash mb header mbStatus
  | _ => none

/-! ## `transactionDBBuilder.go`: receivers of smart-contract results -/

/-- The test of `addScrsReceiverToAlteredAccounts` on one result: its receiver is in the
self shard and its value or its ESDT value is neither empty nor `"0"`. `decode` is the
pubkey converter's `Decode` (its error is dropped by the source), `computeId` and `selfId`
are the shard coordinator's `ComputeId` and `SelfId`. -/
def scrAltersReceiver (decode : String → Bytes) (computeId : Bytes → Nat) (selfId : Nat)
    (scr : ScResult) : Bool :=
  if computeId (decode scr.Receiver) ≠ selfId then false
  else
    let egldBalanceNotChanged := decide (scr.Value = "") || decide (scr.Value = "0")
    let esdtBalanceNotChanged := decide (scr.EsdtValue = "") || decide (scr.EsdtValue = "0")
    if egldBalanceNotChanged && esdtBalanceNotChanged then false else true

/-- The method `dbTransactionBuilder.addScrsReceiverToAlteredAccounts`; the altered map is
returned instead of mutated. -/
def addScrsReceiverToAlteredAccounts (decode : String → Bytes) (computeId : Bytes → Nat)
    (selfId : Nat) (alteredAddress : GoMap AlteredAccount) :
    List ScResult → GoMap AlteredAccount
  | [] => alteredAddress
  | scr :: rest =>
    if computeId (decode scr.Receiver) ≠ selfId then
      addScrsReceiverToAlteredAccounts decode computeId selfId alteredAddress rest
    else
      let egldBalanceNotChanged := decide (scr.Value = "") || decide (scr.Value = "0")
      let esdtBalanceNotChanged := decide (scr.EsdtValue = "") || decide (scr.EsdtValue = "0")
      if egldBalanceNotChanged && esdtBalanceNotChanged then
        addScrsReceiverToAlteredAccounts decode computeId selfId alteredAddress rest
      else
        addScrsReceiverToAlteredAccounts decode computeId selfId
          (mapSet alteredAddress scr.Receiver
            { IsESDTOperation :=
                decide (scr.EsdtTokenIdentifier ≠ "") && decide (scr.EsdtValue ≠ "")
              TokenIdentifier := scr.EsdtTokenIdentifier })
          rest

/-- The entry written for the receiver of a smart-contract result. -/
def scrReceiverEntry (scr : ScResult) : AlteredAccount :=
  { IsESDTOperation := decide (scr.EsdtTokenIdentifier ≠ "") && decide (scr.EsdtValue ≠ "")
    TokenIdentifier := scr.EsdtTokenIdentifier }

/-! ## The fungible ESDT processor -/

/-- The constant `core.BuiltInFunctionESDTTransfer`. -/
def BuiltInFunctionESDTTransfer : String := "ESDTTransfer"

namespace Fungible

/-- Modelled from the spec: the fungible ESDT processor (`fungibleESDTProcessor.processEvent`)
is not among the sources, only its test is. The specification dispatches `ESDTTransfer`
and `ESDTWipe` to it, reads the topics as token identifier, nonce, value and receiver
address, leaves an event with a nonzero nonce to the NFT path, skips a malformed topic
list, records the sender when `sender shard == self shard`, attributes the receiver only
with a receiver topic present, adds the receiver when its shard equals self and otherwise
returns the output with `receiverShardID`; the entries are
`{IsESDTOperation:true, TokenIdentifier}` and the output carries the token as identifier,
the decimal value and `processed=true`. `computeId` and `selfId` are the shard
coordinator's `ComputeId` and `SelfId`. -/
def processEvent (encode : Bytes → String) (computeId : Bytes → Nat) (selfId : Nat)
    (event : Event) (h : Handlers) : Elasticproc.ArgOutputProcessEvent × Handlers :=
  let eventIdentifier := goString event.identifier
  if eventIdentifier ≠ BuiltInFunctionESDTTransfer ∧
      eventIdentifier ≠ BuiltInFunctionESDTWipe then ({}, h)
  else
    match event.topics with
    | t0 :: t1 :: t2 :: rest =>
      if bigUint64 (bigFromBytes t1) ≠ 0 then ({}, h)
      else
        let token := goString t0
        let value := Nat.repr (bigFromBytes t2)
        let h1 : Handlers :=
          if computeId event.address = selfId then
            { h with accounts := h.accounts ++
                [(encode event.address, { IsESDTOperation := true, TokenIdentifier := token })] }
          else h
        match rest.head? with
        | none => ({ identifier := token, value := value, processed := true }, h1)
        | some receiver =>
          if computeId receiver = selfId then
            ({ identifier := token, value := value, processed := true },
              { h1 with accounts := h1.accounts ++
                  [(encode receiver, { IsESDTOperation := true, TokenIdentifier := token })] })
          else
            ({ identifier := token, value := value, processed := true,
               receiver := encode receiver, receiverShardID := computeId receiver }, h1)
    | _ => ({}, h)

end Fungible

/-! ## `process/dataindexer/workItems/workItemBlock.go` -/

namespace WorkItems

/-- The part of `data.HeaderHandler` the work item reads. -/
structure HeaderHandler where
  nonce : Nat
  deriving DecidableEq, Repr

/-- The node's `block.Body`. -/
structure Body where
  MiniBlocks : List MiniBlock
  deriving DecidableEq, Repr

/-- The library record `outport.BlockData`; `Body` is a pointer, `none` when nil. -/
structure BlockData where
  HeaderHash : Bytes
  Body : Option Body
  deriving DecidableEq, Repr

/-- The library record `outport.TransactionPool`, by the hashes it holds; the Go zero
value `&outport.TransactionPool{}` is the default. -/
structure TransactionPool where
  Transactions : List String := []
  Logs : List String := []
  deriving DecidableEq, Repr

/-- The library record `outport.OutportBlock`; pointers are `none` when nil. -/
structure OutportBlock where
  BlockData : Option BlockData
  TransactionPool : Option TransactionPool
  AlteredAccounts : List String
  deriving DecidableEq, Repr

/-- The library record `outport.OutportBlockWithHeader`: the embedded `*OutportBlock` and
the header interface, `none` when nil. -/
structure OutportBlockWithHeader where
  OutportBlock : Option OutportBlock
  Header : Option HeaderHandler
  deriving DecidableEq, Repr

/-- The interface `saveBlockIndexer`; each method returns its error, `none` for nil. -/
structure SaveBlockIndexer where
  SaveHeader : OutportBlockWithHeader → Option String
  SaveMiniblocks : HeaderHandler → Body → Option String
  SaveTransactions : OutportBlockWithHeader → Option String

/-- A call made on the indexer, with its arguments. -/
inductive Call where
  | SaveHeader (outportBlockWithHeader : OutportBlockWithHeader)
  | SaveMiniblocks (header : HeaderHandler) (body : Body)
  | SaveTransactions (outportBlockWithHeader : OutportBlockWithHeader)
  deriving DecidableEq, Repr

/-- An error built by `fmt.Errorf` with `%w`: the wrapped error and the message. -/
structure WrappedError where
  wrapped : String
  message : String
  deriving DecidableEq, Repr

/-- The outcome of `Save`: it returns its error (`none` for nil) or it panics on a nil
dereference; either way with the indexer calls made so far. -/
inductive SaveResult where
  | returned (err : Option WrappedError) (calls : List Call)
  | panicked (calls : List Call)
  deriving DecidableEq, Repr

/-- The text of `fmt.Errorf("%w <context>, <hash label> %s, nonce %d", err, hash, nonce)`. -/
def wrapError (err : String) (context : String) (headerHash : Bytes) (nonce : Nat) :
    WrappedError :=
  { wrapped := err
    message := err ++ context ++ goString headerHash ++ ", nonce " ++ Nat.repr nonce }

/-- The method `itemBlock.Save`; the work item is its `outportBlockWithHeader` pointer,
`none` when nil. -/
def Save (indexer : SaveBlockIndexer) (outportBlockWithHeader : Option OutportBlockWithHeader) :
    SaveResult :=
  match outportBlockWithHeader with
  | none => SaveResult.returned none []
  | some wib =>
    match wib.Header with
    | none => SaveResult.returned none []
    | some header =>
      -- the arguments of `log.Debug` read `BlockData.HeaderHash`
      match wib.OutportBlock with
      | none => SaveResult.panicked []
      | some outportBlock =>
        match outportBlock.BlockData with
        | none => SaveResult.panicked []
        | some blockData =>
          let pool : TransactionPool :=
            match outportBlock.TransactionPool with
            | none => {}
            | some p => p
          let wib1 : OutportBlockWithHeader :=
            { wib with OutportBlock := some { outportBlock with TransactionPool := some pool } }
          match indexer.SaveHeader wib1 with
          | some err =>
            SaveResult.returned
              (some (wrapError err " when saving header block, hash " blockData.HeaderHash
                header.nonce))
              [Call.SaveHeader wib1]
          | none =>
            match blockData.Body with
            | none => SaveResult.panicked [Call.SaveHeader wib1]
            | some body =>
              if body.MiniBlocks.length = 0 then
                SaveResult.returned none [Call.SaveHeader wib1]
              else
                match indexer.SaveMiniblocks header body with
                | some err =>
                  SaveResult.returned
                    (some (wrapError err " when saving miniblocks, block hash "
                      blockData.HeaderHash header.nonce))
                    [Call.SaveHeader wib1, Call.SaveMiniblocks header body]
                | none =>
                  match indexer.SaveTransactions wib1 with
                  | some err =>
                    SaveResult.returned
                      (some (wrapError err " when saving transactions, block hash "
                        blockData.HeaderHash header.nonce))
                      [Call.SaveHeader wib1, Call.SaveMiniblocks header body,
                        Call.SaveTransactions wib1]
                  | none =>
                    SaveResult.returned none
                      [Call.SaveHeader wib1, Call.SaveMiniblocks header body,
                        Call.SaveTransactions wib1]

end WorkItems

/-! ## `dataIndexer.go` and `nilIndexer.go` -/

namespace Indexer

/-- A collaborator consumed through an interface, by an identifying handle; an argument
of interface type is `none` when `check.IfNil` holds of it. -/
abbrev Capability := Nat

/-- The part of `sharding.Coordinator` the constructor reads. -/
structure ShardCoordinator where
  selfId : Nat
  deriving DecidableEq, Repr

/-- The record `ArgDataIndexer`. -/
structure ArgDataIndexer where
  ShardCoordinator : Option ShardCoordinator
  Marshalizer : Option Capability
  EpochStartNotifier : Option Capability
  NodesCoordinator : Option Capability
  DataDispatcher : Option Capability
  ElasticProcessor : Option Capability
  deriving DecidableEq, Repr

/-- The errors `checkIndexerArgs` returns. -/
inductive IndexerError where
  | ErrNilDataDispatcher
  | ErrNilElasticProcessor
  | ErrNilNodesCoordinator
  | ErrNilEpochStartNotifier
  | ErrNilMarshalizer
  | ErrNilShardCoordinator
  deriving DecidableEq, Repr

/-- The record `dataIndexer`. -/
structure DataIndexer where
  isNilIndexer : Bool
  dispatcher : Capability
  coordinator : Capability
  elasticProcessor : Capability
  marshalizer : Capability
  deriving DecidableEq, Repr

/-- The method `dataIndexer.IsNilIndexer`. -/
def DataIndexer.IsNilIndexer (di : DataIndexer) : Bool :=
  di.isNilIndexer

/-- The function `checkIndexerArgs`; `none` is the nil error. -/
def checkIndexerArgs (arguments : ArgDataIndexer) : Option IndexerError :=
  if arguments.DataDispatcher = none then some IndexerError.ErrNilDataDispatcher
  else if arguments.ElasticProcessor = none then some IndexerError.ErrNilElasticProcessor
  else if arguments.NodesCoordinator = none then some IndexerError.ErrNilNodesCoordinator
  else if arguments.EpochStartNotifier = none then some IndexerError.ErrNilEpochStartNotifier
  else if arguments.Marshalizer = none then some IndexerError.ErrNilMarshalizer
  else if arguments.ShardCoordinator = none then some IndexerError.ErrNilShardCoordinator
  else none

/-- What `NewDataIndexer` returns, and whether it registered the epoch-start handler on
the notifier. -/
structure NewDataIndexerResult where
  indexer : Option DataIndexer
  err : Option IndexerError
  registeredEpochStartHandler : Bool
  deriving DecidableEq, Repr

/-- The constructor `NewDataIndexer`. -/
def NewDataIndexer (arguments : ArgDataIndexer) : NewDataIndexerResult :=
  match checkIndexerArgs arguments with
  | some err => { indexer := none, err := some err, registeredEpochStartHandler := false }
  | none =>
    match arguments.DataDispatcher, arguments.NodesCoordinator, arguments.ElasticProcessor,
      arguments.Marshalizer, arguments.ShardCoordinator with
    | some dispatcher, some coordinator, some elasticProcessor, some marshalizer,
      some shardCoordinator =>
      { indexer := some
          { isNilIndexer := false
            dispatcher := dispatcher
            coordinator := coordinator
            elasticProcessor := elasticProcessor
            marshalizer := marshalizer }
        err := none
        registeredEpochStartHandler := decide (shardCoordinator.selfId = MetachainShardId) }
    | _, _, _, _, _ =>
      -- unreachable after `checkIndexerArgs`: a nil dereference
      { indexer := none, err := none, registeredEpochStartHandler := false }

/-- The record `NilIndexer`. -/
structure NilIndexer where
  deriving DecidableEq, Repr

/-- The method `NilIndexer.SaveBlock`; `none` is the nil error. -/
def NilIndexer.SaveBlock {α : Type} (_ni : NilIndexer) (_args : α) : Option String := none

/-- The method `NilIndexer.RevertIndexedBlock`. -/
def NilIndexer.RevertIndexedBlock {α β : Type} (_ni : NilIndexer) (_header : α) (_body : β) :
    Option String := none

/-- The method `NilIndexer.SaveRoundsInfo`. -/
def NilIndexer.SaveRoundsInfo {α : Type} (_ni : NilIndexer) (_roundsInfo : List α) :
    Option String := none

/-- The method `NilIndexer.SaveValidatorsRating`. -/
def NilIndexer.SaveValidatorsRating {α : Type} (_ni : NilIndexer) (_indexID : String)
    (_infos : List α) : Option String := none

/-- The method `NilIndexer.SaveValidatorsPubKeys`. -/
def NilIndexer.SaveValidatorsPubKeys (_ni : NilIndexer) (_pubKeys : List (Nat × List Bytes))
    (_epoch : Nat) : Option String := none

/-- The method `NilIndexer.SaveAccounts`. -/
def NilIndexer.SaveAccounts {α : Type} (_ni : NilIndexer) (_timestamp : Nat)
    (_accounts : GoMap α) : Option String := none

/-- The method `NilIndexer.Close`. -/
def NilIndexer.Close (_ni : NilIndexer) : Option String := none

/-- The method `NilIndexer.FinalizedBlock`. -/
def NilIndexer.FinalizedBlock (_ni : NilIndexer) (_headerHash : Bytes) : Option String := none

/-- The method `NilIndexer.IsNilIndexer`. -/
def NilIndexer.IsNilIndexer (_ni : NilIndexer) : Bool := true

end Indexer

/-! ## `process/factory/elasticProcessorFactory.go` -/

namespace Factory

/-- The errors `CreateElasticProcessor` can return: its own, or one handed up by a
constructor it calls. -/
inductive FactoryError where
  | ErrEmptyEnabledIndexes
  | fromConstructor (err : String)
  deriving DecidableEq, Repr

/-- The record `ArgElasticProcessorFactory`; interface fields are `none` when nil. -/
structure ArgElasticProcessorFactory where
  Marshalizer : Option Nat
  Hasher : Option Nat
  AddressPubkeyConverter : Option Nat
  ValidatorPubkeyConverter : Option Nat
  DBClient : Option Nat
  ShardCoordinator : Option Indexer.ShardCoordinator
  EnabledIndexes : List String
  Denomination : Int
  BulkRequestMaxSize : Int
  IsInImportDBMode : Bool
  UseKibana : Bool
  deriving DecidableEq, Repr

/-- The constructors `CreateElasticProcessor` calls, none of which is among the sources;
each returns its value (a handle) or its error. -/
structure Constructors where
  getElasticTemplatesAndPolicies : Bool → Except String (Nat × Nat)
  newBalanceConverter : Int → Except String Nat
  newAccountsProcessor : Option Nat → Nat → Nat → Except String Nat
  newBlockProcessor : Option Nat → Option Nat → Except String Nat
  newMiniblocksProcessor : Nat → Option Nat → Option Nat → Bool → Except String Nat
  newValidatorsProcessor : Option Nat → Int → Except String Nat
  newTransactionsProcessor : ArgElasticProcessorFactory → Except String Nat
  newLogsAndEventsProcessor : ArgElasticProcessorFactory → Nat → Except String Nat
  newOperationsProcessor : Bool → Indexer.ShardCoordinator → Except String Nat
  newElasticProcessor : ArgElasticProcessorFactory → GoMap Unit → List Nat → Except String Nat

/-- The outcome of `CreateElasticProcessor`: a processor, an error, or a panic on the nil
shard coordinator. -/
inductive FactoryResult where
  | processor (p : Nat)
  | error (err : FactoryError)
  | panicked
  deriving DecidableEq, Repr

/-- The loop filling `enabledIndexesMap`. -/
def enabledIndexesMap (enabledIndexes : List String) : GoMap Unit :=
  enabledIndexes.foldl (fun m index => mapSet m index ()) []

/-- The function `CreateElasticProcessor`. -/
def CreateElasticProcessor (c : Constructors) (arguments : ArgElasticProcessorFactory) :
    FactoryResult :=
  match c.getElasticTemplatesAndPolicies arguments.UseKibana with
  | Except.error err => FactoryResult.error (FactoryError.fromConstructor err)
  | Except.ok (indexTemplates, indexPolicies) =>
    let enabled := enabledIndexesMap arguments.EnabledIndexes
    if enabled.length = 0 then FactoryResult.error FactoryError.ErrEmptyEnabledIndexes
    else
      match c.newBalanceConverter arguments.Denomination with
      | Except.error err => FactoryResult.error (FactoryError.fromConstructor err)
      | Except.ok balanceConverter =>
        match arguments.ShardCoordinator with
        | none => FactoryResult.panicked
        | some shardCoordinator =>
          match c.newAccountsProcessor arguments.AddressPubkeyConverter balanceConverter
              shardCoordinator.selfId with
          | Except.error err => FactoryResult.error (FactoryError.fromConstructor err)
          | Except.ok accountsProc =>
            match c.newBlockProcessor arguments.Hasher arguments.Marshalizer with
            | Except.error err => FactoryResult.error (FactoryError.fromConstructor err)
            | Except.ok blockProcHandler =>
              match c.newMiniblocksProcessor shardCoordinator.selfId arguments.Hasher
                  arguments.Marshalizer arguments.IsInImportDBMode with
              | Except.error err => FactoryResult.error (FactoryError.fromConstructor err)
              | Except.ok miniblocksProc =>
                match c.newValidatorsProcessor arguments.ValidatorPubkeyConverter
                    arguments.BulkRequestMaxSize with
                | Except.error err => FactoryResult.error (FactoryError.fromConstructor err)
                | Except.ok validatorsProc =>
                  match c.newTransactionsProcessor arguments with
                  | Except.error err => FactoryResult.error (FactoryError.fromConstructor err)
                  | Except.ok txsProc =>
                    match c.newLogsAndEventsProcessor arguments balanceConverter with
                    | Except.error err => FactoryResult.error (FactoryError.fromConstructor err)
                    | Except.ok logsAndEventsProc =>
                      match c.newOperationsProcessor arguments.IsInImportDBMode
                          shardCoordinator with
                      | Except.error err =>
                        FactoryResult.error (FactoryError.fromConstructor err)
                      | Except.ok operationsProc =>
                        match c.newElasticProcessor arguments enabled
                            [txsProc, accountsProc, blockProcHandler, miniblocksProc,
                              validatorsProc, logsAndEventsProc, indexTemplates, indexPolicies,
                              operationsProc] with
                        | Except.error err =>
                          FactoryResult.error (FactoryError.fromConstructor err)
                        | Except.ok p => FactoryResult.processor p

end Factory

/-! ## `process/elasticproc/logsevents/serializeDelegators.go` -/

/-- The characters `strings.Fields` splits on. -/
def isSpaceChar (c : Char) : Bool :=
  c = ' ' || c = Char.ofNat 9 || c = Char.ofNat 10 || c = Char.ofNat 11 || c = Char.ofNat 12 ||
    c = Char.ofNat 13

/-- The function `strings.Fields`, on characters; `cur` is the field being read, reversed. -/
def fieldsAux : List Char → List Char → List (List Char)
  | [], cur => if cur = [] then [] else [cur.reverse]
  | c :: rest, cur =>
    if isSpaceChar c then
      if cur = [] then fieldsAux rest [] else cur.reverse :: fieldsAux rest []
    else fieldsAux rest (c :: cur)

/-- Modelled from the spec: the converter `FormatPainlessSource` is not among the
sources; the specification gives it as "strip newlines, collapse whitespace — painless
scripts must be single-line within JSON": the fields of the text joined by one space. -/
def FormatPainlessSource (code : String) : String :=
  String.mk (List.intercalate [' '] (fieldsAux code.data []))

/-- The alphabet of `base64.StdEncoding`. -/
def base64Alphabet : List Char :=
  "ABCDEFGHIJKLMNOPQRSTUVWXYZabcdefghijklmnopqrstuvwxyz0123456789+/".data

/-- One character of `base64.StdEncoding`. -/
def base64Char (n : Nat) : Char :=
  base64Alphabet.getD n 'A'

/-- The characters of `base64.StdEncoding.EncodeToString`. -/
def base64Chars : Bytes → List Char
  | [] => []
  | [a] => [base64Char (a.val / 4), base64Char (a.val % 4 * 16), '=', '=']
  | [a, b] =>
    [base64Char (a.val / 4), base64Char (a.val % 4 * 16 + b.val / 16),
      base64Char (b.val % 16 * 4), '=']
  | a :: b :: c :: rest =>
    base64Char (a.val / 4) :: base64Char (a.val % 4 * 16 + b.val / 16) ::
      base64Char (b.val % 16 * 4 + c.val / 64) :: base64Char (c.val % 64) :: base64Chars rest

/-- The function `base64.StdEncoding.EncodeToString`. -/
def base64Encode (b : Bytes) : String :=
  String.mk (base64Chars b)

namespace Delegators

/-- The record `data.UnDelegate` (fields named by the specification). -/
structure UnDelegate where
  Timestamp : Int := 0
  Value : String := ""
  ID : String := ""
  deriving DecidableEq, Repr

/-- The record `data.Delegator` (fields read by the serializer and by its scripts);
`UnDelegateInfo` is a pointer and `WithdrawFundIDs` a slice, `none` when nil. -/
structure Delegator where
  Address : String := ""
  Contract : String := ""
  ActiveStake : String := ""
  ShouldDelete : Bool := false
  UnDelegateInfo : Option UnDelegate := none
  WithdrawFundIDs : Option (List String) := none
  deriving DecidableEq, Repr

/-- The collaborators of the serializer: the hasher, `converters.JsonEscape` and
`json.Marshal` on a delegator and on its `UnDelegateInfo` pointer (`none` on error). -/
structure LogsAndEventsProcessor where
  hasher : String → Bytes
  jsonEscape : String → String
  marshalDelegator : Delegator → Option String
  marshalUnDelegate : Option UnDelegate → Option String

/-- The painless text `codeToExecute` of `prepareSerializedDataForDelegator`. -/
def delegatorCodeToExecute : String :=
  "\n" ++
    "\t\tif (\x27create\x27 == ctx.op) \x7b\n" ++
    "\t\t\tctx._source = params.delegator\n" ++
    "\t\t\x7d else \x7b\n" ++
    "\t\t\tctx._source.activeStake = params.delegator.activeStake;\n" ++
    "\t\t\tctx._source.activeStakeNum = params.delegator.activeStakeNum;\n" ++
    "\t\t\x7d\n"

/-- The painless text `codeToExecute` of `prepareSerializedDataForUnDelegate`. -/
def unDelegateCodeToExecute : String :=
  "\n" ++
    "\t\tif (\x27create\x27 == ctx.op) \x7b\n" ++
    "\t\t\tctx._source = params.delegator\n" ++
    "\t\t\x7d else \x7b\n" ++
    "\t\t\tif (!ctx._source.containsKey(\x27unDelegateInfo\x27))  \n" ++
    "\t\t\t\tctx._source.unDelegateInfo = [params.unDelegate]\n" ++
    "\t\t\t\x7d else \x7b\n" ++
    "\t\t\t\tctx._source.unDelegateInfo.add(params.unDelegate)\n" ++
    "\t\t\t\x7d\n" ++
    "\n" ++
    "\t\t\tctx._source.activeStake = params.delegator.activeStake;\n" ++
    "\t\t\tctx._source.activeStakeNum = params.delegator.activeStakeNum;\n" ++
    "\t\t\x7d\n"

/-- The painless text `codeToExecute` of `prepareSerializedDataForWithdrawal`. -/
def withdrawalCodeToExecute : String :=
  "\n" ++
    "\t\tif (\x27create\x27 == ctx.op) \x7b\n" ++
    "\t\t\tctx._source = params.delegator\n" ++
    "\t\t\x7d else \x7b\n" ++
    "\t\t\tif (!ctx._source.containsKey(\x27unDelegateInfo\x27))  \n" ++
    "\t\t\t\treturn\n" ++
    "\t\t\t\x7d else \x7b\n" ++
    "\t\t\t\tfor (int i = 0; i < ctx._source.unDelegateInfo.length; i++) \x7b\n" ++
    "\t\t\t\t  for (int j = 0; j < params.withdrawIds.length; j++) \x7b\n" ++
    "\t\t\t\t    if \t(ctx._source.unDelegateInfo[i].id == params.withdrawIds[j]) \x7b\n" ++
    "\t\t\t\t\t\tctx._source.unDelegateInfo.remove(i);\n" ++
    "\t\t\t\t\t\x7d\n" ++
    "\t\t\t\t  \x7d\n" ++
    "\t\t\t\t\x7d\n" ++
    "\t\t\t\x7d\n" ++
    "\n" ++
    "\t\t\tctx._source.activeStake = params.delegator.activeStake;\n" ++
    "\t\t\tctx._source.activeStakeNum = params.delegator.activeStakeNum;\n" ++
    "\t\t\x7d\n"

/-- The function `prepareSerializedDataForDelegator`. -/
def prepareSerializedDataForDelegator (delegatorSerialized : String) : String :=
  "\x7b\"scripted_upsert\": true, \"script\": \x7b" ++
    "\"source\": \"" ++ FormatPainlessSource delegatorCodeToExecute ++ "\"," ++
    "\"lang\": \"painless\"," ++
    "\"params\": \x7b \"delegator\": " ++ delegatorSerialized ++ " \x7d\x7d," ++
    "\"upsert\": \x7b\x7d\x7d"

/-- The function `prepareSerializedDataForUnDelegate`; `none` when `json.Marshal` of the
undelegate record fails. -/
def prepareSerializedDataForUnDelegate (lep : LogsAndEventsProcessor) (delegator : Delegator)
    (delegatorSerialized : String) : Option String :=
  match lep.marshalUnDelegate delegator.UnDelegateInfo with
  | none => none
  | some unDelegateInfoSerialized =>
    some ("\x7b\"scripted_upsert\": true, \"script\": \x7b" ++
      "\"source\": \"" ++ FormatPainlessSource unDelegateCodeToExecute ++ "\"," ++
      "\"lang\": \"painless\"," ++
      "\"params\": \x7b \"delegator\": " ++ delegatorSerialized ++ ", \"unDelegate\": " ++
        unDelegateInfoSerialized ++ " \x7d\x7d," ++
      "\"upsert\": \x7b\x7d\x7d")

/-- The verb `%s` of `fmt.Sprintf` on a `[]string`: the elements between brackets,
separated by one space (a nil slice prints as the empty one). -/
def sprintStrings (l : Option (List String)) : String :=
  "[" ++ " ".intercalate (l.getD []) ++ "]"

/-- The function `prepareSerializedDataForWithdrawal`. -/
def prepareSerializedDataForWithdrawal (delegator : Delegator)
    (delegatorSerialized : String) : String :=
  "\x7b\"scripted_upsert\": true, \"script\": \x7b" ++
    "\"source\": \"" ++ FormatPainlessSource withdrawalCodeToExecute ++ "\"," ++
    "\"lang\": \"painless\"," ++
    "\"params\": \x7b \"delegator\": " ++ delegatorSerialized ++ ", \"withdrawIds\": " ++
      sprintStrings delegator.WithdrawFundIDs ++ " \x7d\x7d," ++
    "\"upsert\": \x7b\x7d\x7d"

/-- The method `logsAndEventsProcessor.computeDelegatorID`. -/
def computeDelegatorID (lep : LogsAndEventsProcessor) (delegator : Delegator) : String :=
  let delegatorContract := delegator.Address ++ delegator.Contract
  let hashBytes := lep.hasher delegatorContract
  base64Encode hashBytes

/-- The method `logsAndEventsProcessor.prepareSerializedDelegator`: the action line and
the payload (`none` for the nil payload of a delete), or `none` on a marshalling error. -/
def prepareSerializedDelegator (lep : LogsAndEventsProcessor) (delegator : Delegator)
    (index : String) : Option (String × Option String) :=
  let id := computeDelegatorID lep delegator
  if delegator.ShouldDelete then
    some ("\x7b \"delete\" : \x7b \"_index\": \"" ++ index ++ "\", \"_id\" : \"" ++
      lep.jsonEscape id ++ "\" \x7d \x7d" ++ "\n", none)
  else
    match lep.marshalDelegator delegator with
    | none => none
    | some delegatorSerialized =>
      let actionLine := "\x7b \"update\" : \x7b \"_index\":\"" ++ index ++ "\", \"_id\" : \"" ++
        lep.jsonEscape id ++ "\" \x7d \x7d" ++ "\n"
      match delegator.UnDelegateInfo with
      | some _ =>
        match prepareSerializedDataForUnDelegate lep delegator delegatorSerialized with
        | none => none
        | some serializedData => some (actionLine, some serializedData)
      | none =>
        match delegator.WithdrawFundIDs with
        | some _ =>
          some (actionLine,
            some (prepareSerializedDataForWithdrawal delegator delegatorSerialized))
        | none => some (actionLine, some (prepareSerializedDataForDelegator delegatorSerialized))

/-! ### The painless fragment of the delegator scripts

Elasticsearch compiles the script of a request before it runs it, and refuses the request
when the source is no painless program. The fragment read here follows the statement
rules of the painless grammar:
`statement: rstatement | dstatement (';' | EOF)`, `trailer: block | statement`,
`block: '{' statement* dstatement? '}'`, with `if (e) trailer (else trailer)?` for
`rstatement`, and `return`, an assignment or an expression for `dstatement`. A text that
leaves the fragment is refused as well. -/

/-- The tokens of the fragment: a word (name, keyword or number, dots included), a text
between single quotes, the comparison `==`, a one-character symbol, or the mark of a
text left open. -/
inductive Token where
  | word (w : String)
  | text (s : String)
  | eqeq
  | sym (c : Char)
  | openText
  deriving DecidableEq, Repr

/-- The characters the reader names. -/
def quoteChar : Char := Char.ofNat 39

/-- The opening parenthesis. -/
def lparenChar : Char := Char.ofNat 40

/-- The closing parenthesis. -/
def rparenChar : Char := Char.ofNat 41

/-- The opening square bracket. -/
def lbrackChar : Char := Char.ofNat 91

/-- The closing square bracket. -/
def rbrackChar : Char := Char.ofNat 93

/-- The opening brace. -/
def lbraceChar : Char := Char.ofNat 123

/-- The closing brace. -/
def rbraceChar : Char := Char.ofNat 125

/-- The characters of a word. -/
def isWordChar (c : Char) : Bool :=
  c.isAlphanum || c = '_' || c = '.'

/-- What the tokenizer is reading: a word (its characters so far, reversed), a quoted
text, or the character after a `=`. -/
inductive TokMode where
  | word (cur : List Char)
  | text (cur : List Char)
  | afterEquals
  deriving DecidableEq, Repr

/-- The token of a word read so far, if any. -/
def flushWord (cur : List Char) : List Token :=
  if cur = [] then [] else [Token.word (String.mk cur.reverse)]

/-- The tokens and the mode that a character starts when no token is being read. -/
def startToken (c : Char) : List Token × TokMode :=
  if isWordChar c then ([], TokMode.word [c])
  else if isSpaceChar c then ([], TokMode.word [])
  else if c = quoteChar then ([], TokMode.text [])
  else if c = '=' then ([], TokMode.afterEquals)
  else ([Token.sym c], TokMode.word [])

/-- The tokens of a text. -/
def tokenizeAux : List Char → TokMode → List Token
  | [], TokMode.word cur => flushWord cur
  | [], TokMode.text _ => [Token.openText]
  | [], TokMode.afterEquals => [Token.sym '=']
  | c :: rest, TokMode.word cur =>
    if isWordChar c then tokenizeAux rest (TokMode.word (c :: cur))
    else flushWord cur ++ (startToken c).1 ++ tokenizeAux rest (startToken c).2
  | c :: rest, TokMode.text cur =>
    if c = quoteChar then Token.text (String.mk cur.reverse) :: tokenizeAux rest (TokMode.word [])
    else tokenizeAux rest (TokMode.text (c :: cur))
  | c :: rest, TokMode.afterEquals =>
    if c = '=' then Token.eqeq :: tokenizeAux rest (TokMode.word [])
    else Token.sym '=' :: ((startToken c).1 ++ tokenizeAux rest (startToken c).2)

/-- The tokens of a painless source. -/
def tokenize (source : String) : List Token :=
  tokenizeAux source.data (TokMode.word [])

/-- Expressions of the fragment. -/
inductive Expr where
  | text (s : String)
  | path (p : List String)
  | eq (a b : Expr)
  | not (a : Expr)
  | call (p : List String) (arg : Expr)
  | list (item : Expr)
  deriving DecidableEq, Repr

/-- Statements of the fragment; a block is a chain of `seq` closed by `skip`. -/
inductive Stmt where
  | skip
  | seq (first rest : Stmt)
  | ifElse (cond : Expr) (thenBranch elseBranch : Stmt)
  | assign (lhs : List String) (rhs : Expr)
  | ret
  | expr (e : Expr)
  deriving DecidableEq, Repr

/-- Why a source is refused: the token that cannot stand where it is, given by the
number of tokens from it to the end (0 at the end of the text); `outOfFuel` is the reader
running out of steps. -/
inductive SyntaxError where
  | unexpected (remaining : Nat)
  | outOfFuel
  deriving DecidableEq, Repr

/-- The levels of the expression rules. -/
inductive ExprGoal where
  | comparison
  | unary
  deriving DecidableEq, Repr

/-- Reads an expression: `unary ('==' unary)?` with
`unary: '!' unary | 'text' | '[' expression ']' | word | word '(' expression ')'`. -/
def parseExpr : Nat → ExprGoal → List Token → Except SyntaxError (Expr × List Token)
  | 0, _, _ => Except.error SyntaxError.outOfFuel
  | fuel + 1, ExprGoal.comparison, ts =>
    match parseExpr fuel ExprGoal.unary ts with
    | Except.error e => Except.error e
    | Except.ok (a, Token.eqeq :: rest) =>
      match parseExpr fuel ExprGoal.unary rest with
      | Except.error e => Except.error e
      | Except.ok (b, rest1) => Except.ok (Expr.eq a b, rest1)
    | Except.ok (a, rest) => Except.ok (a, rest)
  | fuel + 1, ExprGoal.unary, ts =>
    match ts with
    | Token.text s :: rest => Except.ok (Expr.text s, rest)
    | Token.word w :: Token.sym c :: rest =>
      if c = lparenChar then
        match parseExpr fuel ExprGoal.comparison rest with
        | Except.error e => Except.error e
        | Except.ok (arg, Token.sym c1 :: rest1) =>
          if c1 = rparenChar then Except.ok (Expr.call (stringsSplit w '.') arg, rest1)
          else Except.error (SyntaxError.unexpected (rest1.length + 1))
        | Except.ok (_, rest1) => Except.error (SyntaxError.unexpected rest1.length)
      else Except.ok (Expr.path (stringsSplit w '.'), Token.sym c :: rest)
    | Token.word w :: rest => Except.ok (Expr.path (stringsSplit w '.'), rest)
    | Token.sym c :: rest =>
      if c = '!' then
        match parseExpr fuel ExprGoal.unary rest with
        | Except.error e => Except.error e
        | Except.ok (a, rest1) => Except.ok (Expr.not a, rest1)
      else if c = lbrackChar then
        match parseExpr fuel ExprGoal.comparison rest with
        | Except.error e => Except.error e
        | Except.ok (item, Token.sym c1 :: rest1) =>
          if c1 = rbrackChar then Except.ok (Expr.list item, rest1)
          else Except.error (SyntaxError.unexpected (rest1.length + 1))
        | Except.ok (_, rest1) => Except.error (SyntaxError.unexpected rest1.length)
      else Except.error (SyntaxError.unexpected (rest.length + 1))
    | _ => Except.error (SyntaxError.unexpected ts.length)

/-- The fuel that reading an expression from these tokens takes at most. -/
def exprFuel (ts : List Token) : Nat :=
  2 * ts.length + 2

/-- Reads a `dstatement`: `return`, an assignment `path = expression`, or an
expression. -/
def parseDStatement (ts : List Token) : Except SyntaxError (Stmt × List Token) :=
  match ts with
  | Token.word w :: rest =>
    if w = "return" then Except.ok (Stmt.ret, rest)
    else
      match parseExpr (exprFuel ts) ExprGoal.comparison ts with
      | Except.error e => Except.error e
      | Except.ok (Expr.path p, Token.sym c :: rest1) =>
        if c = '=' then
          match parseExpr (exprFuel rest1) ExprGoal.comparison rest1 with
          | Except.error e => Except.error e
          | Except.ok (rhs, rest2) => Except.ok (Stmt.assign p rhs, rest2)
        else Except.ok (Stmt.expr (Expr.path p), Token.sym c :: rest1)
      | Except.ok (e, rest1) => Except.ok (Stmt.expr e, rest1)
  | _ =>
    match parseExpr (exprFuel ts) ExprGoal.comparison ts with
    | Except.error e => Except.error e
    | Except.ok (e, rest1) => Except.ok (Stmt.expr e, rest1)

/-- The statement rules. -/
inductive StmtGoal where
  | statement
  | block
  | source
  deriving DecidableEq, Repr

/-- Whether the tokens start an `if`. -/
def startsIf (ts : List Token) : Bool :=
  match ts with
  | Token.word w :: _ => decide (w = "if")
  | _ => false

/-- Reads by the statement rules: one `statement` with its `;`, the rest of a `block`
after its opening brace up to the closing one, or the statements of a `source` up to the
end of the text. -/
def parseStmt : Nat → StmtGoal → List Token → Except SyntaxError (Stmt × List Token)
  | 0, _, _ => Except.error SyntaxError.outOfFuel
  | fuel + 1, StmtGoal.statement, ts =>
    if startsIf ts then
      match ts.tail with
      | Token.sym c :: rest =>
        if c = lparenChar then
          match parseExpr (exprFuel rest) ExprGoal.comparison rest with
          | Except.error e => Except.error e
          | Except.ok (cond, Token.sym c1 :: rest1) =>
            if c1 = rparenChar then
              let thenResult :=
                match rest1 with
                | Token.sym c2 :: rest2 =>
                  if c2 = lbraceChar then parseStmt fuel StmtGoal.block rest2
                  else parseStmt fuel StmtGoal.statement rest1
                | _ => parseStmt fuel StmtGoal.statement rest1
              match thenResult with
              | Except.error e => Except.error e
              | Except.ok (thenBranch, Token.word w :: rest3) =>
                if w = "else" then
                  let elseResult :=
                    match rest3 with
                    | Token.sym c3 :: rest4 =>
                      if c3 = lbraceChar then parseStmt fuel StmtGoal.block rest4
                      else parseStmt fuel StmtGoal.statement rest3
                    | _ => parseStmt fuel StmtGoal.statement rest3
                  match elseResult with
                  | Except.error e => Except.error e
                  | Except.ok (elseBranch, rest5) =>
                    Except.ok (Stmt.ifElse cond thenBranch elseBranch, rest5)
                else Except.ok (Stmt.ifElse cond thenBranch Stmt.skip, Token.word w :: rest3)
              | Except.ok (thenBranch, rest3) =>
                Except.ok (Stmt.ifElse cond thenBranch Stmt.skip, rest3)
            else Except.error (SyntaxError.unexpected (rest1.length + 1))
          | Except.ok (_, rest1) => Except.error (SyntaxError.unexpected rest1.length)
        else Except.error (SyntaxError.unexpected (rest.length + 1))
      | rest => Except.error (SyntaxError.unexpected rest.length)
    else
      match parseDStatement ts with
      | Except.error e => Except.error e
      | Except.ok (st, []) => Except.ok (st, [])
      | Except.ok (st, Token.sym c :: rest) =>
        if c = ';' then Except.ok (st, rest)
        else Except.error (SyntaxError.unexpected (rest.length + 1))
      | Except.ok (_, rest) => Except.error (SyntaxError.unexpected rest.length)
  | fuel + 1, StmtGoal.block, ts =>
    if ts = [] then Except.error (SyntaxError.unexpected 0)
    else if ts.head? = some (Token.sym rbraceChar) then Except.ok (Stmt.skip, ts.tail)
    else if startsIf ts then
      match parseStmt fuel StmtGoal.statement ts with
      | Except.error e => Except.error e
      | Except.ok (st, rest1) =>
        match parseStmt fuel StmtGoal.block rest1 with
        | Except.error e => Except.error e
        | Except.ok (sts, rest2) => Except.ok (Stmt.seq st sts, rest2)
    else
      match parseDStatement ts with
      | Except.error e => Except.error e
      | Except.ok (st, Token.sym c1 :: rest1) =>
        if c1 = ';' then
          match parseStmt fuel StmtGoal.block rest1 with
          | Except.error e => Except.error e
          | Except.ok (sts, rest2) => Except.ok (Stmt.seq st sts, rest2)
        else if c1 = rbraceChar then Except.ok (Stmt.seq st Stmt.skip, rest1)
        else Except.error (SyntaxError.unexpected (rest1.length + 1))
      | Except.ok (_, rest1) => Except.error (SyntaxError.unexpected rest1.length)
  | fuel + 1, StmtGoal.source, ts =>
    match ts with
    | [] => Except.ok (Stmt.skip, [])
    | _ =>
      match parseStmt fuel StmtGoal.statement ts with
      | Except.error e => Except.error e
      | Except.ok (st, rest1) =>
        match parseStmt fuel StmtGoal.source rest1 with
        | Except.error e => Except.error e
        | Except.ok (sts, rest2) => Except.ok (Stmt.seq st sts, rest2)

/-- Compiles a painless source: its statements, or the reason it is refused. -/
def compileScript (source : String) : Except SyntaxError Stmt :=
  match parseStmt (2 * (tokenize source).length + 2) StmtGoal.source (tokenize source) with
  | Except.error e => Except.error e
  | Except.ok (st, _) => Except.ok st

/-- The value of `ctx.op`. -/
inductive CtxOp where
  | create
  | index
  deriving DecidableEq, Repr

/-- The text painless reads in `ctx.op`. -/
def CtxOp.text : CtxOp → String
  | CtxOp.create => "create"
  | CtxOp.index => "index"

/-- The painless read `v.f` of a value: the field of a map (`null` when absent), an error
on anything else. -/
def jsonField (v : Json) (f : String) : Option Json :=
  match v with
  | Json.obj d => some (docGet d f)
  | _ => none

/-- The read of a chain of fields. -/
def jsonFields : Json → List String → Option Json
  | v, [] => some v
  | v, f :: rest =>
    match jsonField v f with
    | none => none
    | some w => jsonFields w rest

/-- The value of a dotted name: `ctx.op`, `ctx._source` and its fields, `params` and
their fields; `none` is a run-time error. -/
def evalPath (op : CtxOp) (params : GoMap Json) (source : Doc) (p : List String) :
    Option Json :=
  match p with
  | root :: name :: fields =>
    if root = "ctx" ∧ name = "op" then
      match fields with
      | [] => some (Json.str op.text)
      | _ => none
    else if root = "ctx" ∧ name = "_source" then jsonFields (Json.obj source) fields
    else if root = "params" then jsonFields ((mapGet params name).getD Json.null) fields
    else none
  | _ => none

/-- The value of an expression; `none` is a run-time error (or a comparison of values
that are no texts, which the fragment leaves out). -/
def evalExpr (op : CtxOp) (params : GoMap Json) (source : Doc) : Expr → Option Json
  | Expr.text s => some (Json.str s)
  | Expr.path p => evalPath op params source p
  | Expr.eq a b =>
    match evalExpr op params source a, evalExpr op params source b with
    | some (Json.str x), some (Json.str y) => some (Json.bool (decide (x = y)))
    | _, _ => none
  | Expr.not a =>
    match evalExpr op params source a with
    | some (Json.bool b) => some (Json.bool (!b))
    | _ => none
  | Expr.call p arg =>
    match evalPath op params source p.dropLast, p.getLast?, evalExpr op params source arg with
    | some (Json.obj d), some method, some (Json.str key) =>
      if method = "containsKey" then some (Json.bool (mapGet d key).isSome) else none
    | _, _, _ => none
  | Expr.list item =>
    match evalExpr op params source item with
    | some v => some (Json.arr [v])
    | none => none

/-- Runs a statement on `ctx._source`: the new `ctx._source` and whether `return` was
reached; `none` is a run-time error. -/
def execStmt (op : CtxOp) (params : GoMap Json) : Stmt → Doc → Option (Doc × Bool)
  | Stmt.skip, source => some (source, false)
  | Stmt.seq first rest, source =>
    match execStmt op params first source with
    | none => none
    | some (source1, true) => some (source1, true)
    | some (source1, false) => execStmt op params rest source1
  | Stmt.ifElse cond thenBranch elseBranch, source =>
    match evalExpr op params source cond with
    | some (Json.bool true) => execStmt op params thenBranch source
    | some (Json.bool false) => execStmt op params elseBranch source
    | _ => none
  | Stmt.assign lhs rhs, source =>
    match evalExpr op params source rhs with
    | none => none
    | some v =>
      match lhs with
      | [root, name] =>
        if root = "ctx" ∧ name = "_source" then
          match v with
          | Json.obj d => some (d, false)
          | _ => none
        else none
      | [root, name, field] =>
        if root = "ctx" ∧ name = "_source" then some (mapSet source field v, false) else none
      | _ => none
  | Stmt.ret, source => some (source, true)
  | Stmt.expr e, source =>
    match e with
    | Expr.call [root, name, field, method] arg =>
      if root = "ctx" ∧ name = "_source" ∧ method = "add" then
        match mapGet source field, evalExpr op params source arg with
        | some (Json.arr items), some v => some (mapSet source field (Json.arr (items ++ [v])), false)
        | _, _ => none
      else (evalExpr op params source e).map fun _ => (source, false)
    | _ => (evalExpr op params source e).map fun _ => (source, false)

/-- The two closing statements of every script:
`ctx._source.activeStake = params.delegator.activeStake;`
`ctx._source.activeStakeNum = params.delegator.activeStakeNum;`. -/
def setActiveStake (delegator : Json) (source : Doc) : Option Doc :=
  match jsonField delegator "activeStake" with
  | none => none
  | some activeStake =>
    match jsonField delegator "activeStakeNum" with
    | none => none
    | some activeStakeNum =>
      some (mapSet (mapSet source "activeStake" activeStake) "activeStakeNum" activeStakeNum)

/-! ### Scripted upserts as Elasticsearch runs them

A bulk `update` with `scripted_upsert: true` and the empty `upsert` body runs its script
in both cases: with `ctx.op == 'create'` on the empty document when no document is
stored, and with `ctx.op == 'index'` on the stored document otherwise. A request whose
script does not compile, or throws, fails and leaves the stored document as it was. -/

/-- The body of a scripted upsert: the script source and its parameters, these as JSON
texts; language, `scripted_upsert: true` and the empty `upsert` are the same in every
request of the delegator serializer. -/
structure ScriptedUpsertRequest where
  source : String
  params : List (String × String)
  deriving DecidableEq, Repr

/-- The parameters of a request as the delegator serializer writes them. -/
def renderScriptParams : List (String × String) → String
  | [] => ""
  | [(k, v)] => "\"" ++ k ++ "\": " ++ v
  | (k, v) :: rest => "\"" ++ k ++ "\": " ++ v ++ ", " ++ renderScriptParams rest

/-- The JSON text of a request as the delegator serializer writes it. -/
def ScriptedUpsertRequest.body (r : ScriptedUpsertRequest) : String :=
  "\x7b\"scripted_upsert\": true, \"script\": \x7b" ++
    "\"source\": \"" ++ r.source ++ "\"," ++
    "\"lang\": \"painless\"," ++
    "\"params\": \x7b " ++ renderScriptParams r.params ++ " \x7d\x7d," ++
    "\"upsert\": \x7b\x7d\x7d"

/-- The request that `prepareSerializedDataForDelegator` writes. -/
def delegatorRequest (delegatorSerialized : String) : ScriptedUpsertRequest :=
  { source := FormatPainlessSource delegatorCodeToExecute
    params := [("delegator", delegatorSerialized)] }

/-- The request that `prepareSerializedDataForUnDelegate` writes. -/
def unDelegateRequest (delegatorSerialized unDelegateInfoSerialized : String) :
    ScriptedUpsertRequest :=
  { source := FormatPainlessSource unDelegateCodeToExecute
    params := [("delegator", delegatorSerialized), ("unDelegate", unDelegateInfoSerialized)] }

/-- The request that `prepareSerializedDataForWithdrawal` writes. -/
def withdrawalRequest (delegator : Delegator) (delegatorSerialized : String) :
    ScriptedUpsertRequest :=
  { source := FormatPainlessSource withdrawalCodeToExecute
    params := [("delegator", delegatorSerialized),
      ("withdrawIds", sprintStrings delegator.WithdrawFundIDs)] }

/-- Elasticsearch running a scripted upsert on the document stored under an id (`none`
when there is none): the document the script leaves, or `none` when the request fails
because the script does not compile or throws. `jsonOf` is the value a JSON text
denotes. -/
def esScriptedUpsert (jsonOf : String → Json) (r : ScriptedUpsertRequest)
    (existing : Option Doc) : Option Doc :=
  match compileScript r.source with
  | Except.error _ => none
  | Except.ok script =>
    let params := r.params.map fun p => (p.1, jsonOf p.2)
    match existing with
    | none => (execStmt CtxOp.create params script []).map Prod.fst
    | some d => (execStmt CtxOp.index params script d).map Prod.fst

/-- The stored document after a scripted upsert: the script's result, or the previous
state when the request fails. -/
def applyScriptedUpsert (jsonOf : String → Json) (r : ScriptedUpsertRequest)
    (existing : Option Doc) : Option Doc :=
  match esScriptedUpsert jsonOf r existing with
  | some d => some d
  | none => existing

/-! ### The removal loop of the withdraw script -/

/-- The comparison `info.id == id` of the withdraw script on a list element and a
withdraw id: an error when the element is not a map. -/
def infoHasId (info : Json) (id : String) : Option Bool :=
  match info with
  | Json.obj d =>
    match mapGet d "id" with
    | some (Json.str s) => some (decide (s = id))
    | _ => some false
  | _ => none

/-- The outcome of the removal loop: it ends with a list, or throws on an index out of
range or on reading `.id` of a value that is no map; `outOfFuel` is the model running out
of steps. -/
inductive LoopResult where
  | done (infos : List Json)
  | outOfRange
  | typeError
  | outOfFuel

/-- The removal loop of the withdraw script,
`for (int i = 0; i < infos.length; i++) { for (int j = 0; j < ids.length; j++) {
if (infos[i].id == ids[j]) { infos.remove(i); } } }`,
as a machine on the list and the two counters: `inner = false` stands at the test of the
outer loop, `inner = true` at the test of the inner loop. -/
def removalLoop : Nat → List Json → List String → Nat → Nat → Bool → LoopResult
  | 0, _, _, _, _, _ => LoopResult.outOfFuel
  | fuel + 1, infos, ids, i, _, false =>
    if i < infos.length then removalLoop fuel infos ids i 0 true
    else LoopResult.done infos
  | fuel + 1, infos, ids, i, j, true =>
    match ids[j]? with
    | none => removalLoop fuel infos ids (i + 1) 0 false
    | some id =>
      match infos[i]? with
      | none => LoopResult.outOfRange
      | some info =>
        match infoHasId info id with
        | none => LoopResult.typeError
        | some true => removalLoop fuel (infos.eraseIdx i) ids i (j + 1) true
        | some false => removalLoop fuel infos ids i (j + 1) true

/-- The number of tests the removal loop can still make from a state, for a list of
`len` entries and `w` ids (a bound used to size the fuel). -/
def removalLoopSteps (len w i j : Nat) (inner : Bool) : Nat :=
  if inner then (w - j) + 1 + (1 + (len - (i + 1)) * (w + 2))
  else 1 + (len - i) * (w + 2)

/-- The removal loop run from `i = 0` with fuel for every test it can reach. -/
def runRemovalLoop (infos : List Json) (ids : List String) : LoopResult :=
  removalLoop ((infos.length + 1) * (ids.length + 2) + 1) infos ids 0 0 false

end Delegators

/-! ## `serialize.go`: tokens -/

/-- The buffers of `data.BufferSlice`, kept as the sequence of its `PutData` calls: the
action line and the payload of each. -/
abbrev BufferSlice := List (String × String)

/-- The loop of `SerializeTokens`; `jsonMarshal` is `json.Marshal` on a token record and
`putDataError` the error `PutData` returns (`none` for nil). -/
def SerializeTokensLoop (jsonMarshal : TokenInfo → Except String String)
    (putDataError : String → String → Option String) :
    List TokenInfo → BufferSlice → Except String BufferSlice
  | [], buffSlice => Except.ok buffSlice
  | tokenData :: rest, buffSlice =>
    let metaLine := "\x7b \"index\" : \x7b \"_id\" : \"" ++ tokenData.Token ++ "\" \x7d \x7d" ++ "\n"
    match jsonMarshal tokenData with
    | Except.error errMarshal => Except.error errMarshal
    | Except.ok serializedData =>
      match putDataError metaLine serializedData with
      | some err => Except.error err
      | none =>
        SerializeTokensLoop jsonMarshal putDataError rest
          (buffSlice ++ [(metaLine, serializedData)])

/-- The method `txsDatabaseProcessor.SerializeTokens`. -/
def SerializeTokens (jsonMarshal : TokenInfo → Except String String)
    (putDataError : String → String → Option String) (tokens : List TokenInfo) :
    Except String BufferSlice :=
  SerializeTokensLoop jsonMarshal putDataError tokens []

namespace Logsevents

/-! ## `process/logsevents/nftsProcessor.go`: logs -/

/-- The loop of `processNFTOperationLog` over the events of a log; the state is the
handlers and the two maps, `none` when `processEvent` reads a topic out of range. The
maps hold pointers, so the assignment to `EsdtTokenIdentifier` is a write under the
key. -/
def processNFTOperationLogLoop (np : NftsProcessor) (lib : Lib) (logHashHexEncoded : String)
    (timestamp : Nat) :
    List Event → Handlers × GoMap DbTransaction × GoMap ScResult →
      Option (Handlers × GoMap DbTransaction × GoMap ScResult)
  | [], st => some st
  | event :: rest, (h, txsMap, scrsMap) =>
    match processEvent np lib event h timestamp with
    | none => none
    | some (tokenIdentifier, h1) =>
      match mapGet txsMap logHashHexEncoded with
      | some tx =>
        processNFTOperationLogLoop np lib logHashHexEncoded timestamp rest
          (h1, mapSet txsMap logHashHexEncoded
            { tx with EsdtTokenIdentifier := tokenIdentifier }, scrsMap)
      | none =>
        match mapGet scrsMap logHashHexEncoded with
        | some scr =>
          processNFTOperationLogLoop np lib logHashHexEncoded timestamp rest
            (h1, txsMap, mapSet scrsMap logHashHexEncoded
              { scr with EsdtTokenIdentifier := tokenIdentifier })
        | none =>
          processNFTOperationLogLoop np lib logHashHexEncoded timestamp rest
            (h1, txsMap, scrsMap)

/-- The method `nftsProcessor.processNFTOperationLog`; `events` is
`txLog.GetLogEvents()`. -/
def processNFTOperationLog (np : NftsProcessor) (lib : Lib) (logHash : String)
    (events : List Event) (h : Handlers) (timestamp : Nat) (txsMap : GoMap DbTransaction)
    (scrsMap : GoMap ScResult) : Option (Handlers × GoMap DbTransaction × GoMap ScResult) :=
  if events.length = 0 then some (h, txsMap, scrsMap)
  else
    let logHashHexEncoded := hexEncode (toBytes logHash)
    processNFTOperationLogLoop np lib logHashHexEncoded timestamp events (h, txsMap, scrsMap)

end Logsevents

namespace Delegators

/-! ### Well-formedness of the texts sent to Elasticsearch -/

/-- The nesting depth after reading a text from depth `d`, counting `{` up and `}`
down; `none` when some prefix closes more braces than it opens. -/
def braceDepth : List Char → Nat → Option Nat
  | [], d => some d
  | c :: rest, d =>
    if c = Char.ofNat 123 then braceDepth rest (d + 1)
    else if c = Char.ofNat 125 then
      match d with
      | 0 => none
      | d1 + 1 => braceDepth rest d1
    else braceDepth rest d

/-- A text is well-bracketed when it has as many `{` as `}` and no prefix with more `}`
than `{`. -/
def wellBracketed (s : String) : Bool :=
  decide (braceDepth s.data 0 = some 0)

/-- The number of occurrences of a character in a text. -/
def countChar (c : Char) (s : String) : Nat :=
  s.data.count c

/-- The JSON array of strings that the withdraw script needs in `params.withdrawIds`:
each id between double quotes, separated by commas (ids without characters to escape). -/
def withdrawIdsAsJsonArray (ids : List String) : String :=
  "[" ++ ",".intercalate (ids.map fun id => "\"" ++ id ++ "\"") ++ "]"

end Delegators

/-! ## Sample inputs -/

/-- A fee calculator charging gas times gas price, with a builder-side gas estimate. -/
def sampleBuilder : TxBuilder :=
  { encode := hexEncode
    isESDTTx := fun _ => false
    getTokenIdentifierAndValue := fun _ => ("", "")
    computeGasLimit := fun _ => 50000
    computeTxFeeBasedOnGasUsed := fun tx gas => ((gas * tx.GasPrice : Nat) : Int) }

/-- A grouper on shard 0 whose miniblock hash is a fixed byte. -/
def sampleGrouper : TxGrouper :=
  { selfShardID := 0, txBuilder := sampleBuilder, isInImportMode := true,
    calculateHash := fun _ => some [7] }

/-- A transaction with gas limit 1000000 and gas price 1000000000. -/
def sampleTx : Transaction :=
  { Nonce := 1, Value := 5, RcvAddr := [2], RcvUserName := [], SndAddr := [1],
    SndUserName := [], GasPrice := 1000000000, GasLimit := 1000000, Data := [],
    Signature := [] }

/-- A miniblock from shard 0 to shard 1 with one hash. -/
def sampleMiniBlock : MiniBlock :=
  { TxHashes := [[9]], ReceiverShardID := 1, SenderShardID := 0 }

/-- A pool holding the sample transaction under the sample hash. -/
def samplePool : GoMap TransactionHandler :=
  [(goString [9], TransactionHandler.tx sampleTx)]

/-- A cross-shard transaction document seen from its source shard 0. -/
def sampleDbTx : DbTransaction :=
  { Hash := "09", SenderShard := 0, ReceiverShard := 1, Status := "pending" }

/-- A marshaller that writes the status only. -/
def sampleMarshal (tx : DbTransaction) : Option String :=
  some ("\x7b\"status\":\"" ++ tx.Status ++ "\"\x7d")

/-- A JSON reader that knows the sample document. -/
def sampleJsonOf (_ : String) : Json :=
  Json.obj [("status", Json.str "pending")]

/-- Library functions for the samples: the shard of an address is its value modulo the
number of shards, the token identifier is the specification's, the metadata keeps the
name and the nonce of the token. -/
def sampleLib : Lib :=
  { computeShardID := fun addr numOfShards => bigFromBytes addr % (numOfShards + 1)
    computeTokenIdentifier := ComputeTokenIdentifier
    prepareTokenMetaData := fun enc tok =>
      some { creator := enc tok.creator, name := goString tok.name, royalties := tok.royalties,
             hash := tok.hash, uris := tok.uris, attributes := tok.attributes, tags := [],
             nonce := tok.nonce } }

/-- An NFT transfer of nonce 2 and value 100 from address `[2]` to address `[4]`. -/
def sampleTransferEvent : Event :=
  { address := [2], identifier := toBytes "ESDTNFTTransfer",
    topics := [toBytes "TKN-abcd", [2], [100], [4]] }

/-- The same transfer with an empty nonce topic (nonce 0). -/
def sampleZeroNonceEvent : Event :=
  { address := [2], identifier := toBytes "ESDTNFTTransfer",
    topics := [toBytes "TKN-abcd", [], [100], [4]] }

/-- Arguments on shard 0 of a two-shard chain (metachain aside). -/
def sampleArgs (event : Event) : Elasticproc.ArgsProcessEvent :=
  { event := event, timestamp := 5040, numOfShards := 1, selfShardID := 0 }

/-- The older processor on shard 0 of a single-shard setup: every address is in shard 0. -/
def sampleOldProcessor : Logsevents.NftsProcessor :=
  Logsevents.newNFTsProcessor (fun _ => 0) 0 hexEncode (fun _ => none)

/-- An NFT transfer event in the older topic layout with an empty nonce topic (nonce 0)
and no receiver topic. -/
def sampleOldZeroNonceEvent : Event :=
  { address := [2], identifier := toBytes "ESDTNFTTransfer",
    topics := [toBytes "TKN-abcd", []] }

/-- A grouper on shard 0 that is not in import mode. -/
def sampleGrouperLive : TxGrouper :=
  { selfShardID := 0, txBuilder := sampleBuilder, isInImportMode := false,
    calculateHash := fun _ => some [7] }

/-- A miniblock from shard 0 to shard 1 with three hashes. -/
def sampleMiniBlockMixed : MiniBlock :=
  { TxHashes := [[9], [8], [6]], ReceiverShardID := 1, SenderShardID := 0 }

/-- A pool holding a regular transaction under `[9]` and a reward under `[8]`. -/
def samplePoolMixed : GoMap TransactionHandler :=
  [(goString [9], TransactionHandler.tx sampleTx),
   (goString [8], TransactionHandler.reward { Round := 3, Value := 10, RcvAddr := [4] })]

/-- Two smart-contract results to the same receiver `"r"`: the first moves 5 units of the
token `TKN-abcd`, the second moves 10 EGLD and no token. -/
def sampleScrs : List ScResult :=
  [{ Receiver := "r", Value := "0", EsdtTokenIdentifier := "TKN-abcd", EsdtValue := "5" },
   { Receiver := "r", Value := "10" }]

/-- A burn of the NFT of nonce 2 by address `[2]`. -/
def sampleBurnEvent : Event :=
  { address := [2], identifier := toBytes "ESDTNFTBurn",
    topics := [toBytes "TKN-abcd", [2], [1]] }

/-- A marshalizer for the samples: the token bytes are the name of the token. -/
def sampleUnmarshal (b : Bytes) : Option ESDigitalToken :=
  if b = [] then none
  else some { creator := [7], name := b, royalties := 0, hash := [], uris := [],
              attributes := [], nonce := 2 }

/-- The creation of the NFT of nonce 2 by address `[2]`, with its token data. -/
def sampleCreateEvent : Event :=
  { address := [2], identifier := toBytes "ESDTNFTCreate",
    topics := [toBytes "TKN-abcd", [2], [1], toBytes "nft"] }

/-- An NFT transfer event that lost its topics but the token identifier. -/
def sampleShortEvent : Event :=
  { address := [2], identifier := toBytes "ESDTNFTTransfer", topics := [toBytes "TKN-abcd"] }

/-- An NFT transfer event of nonce 2 without its value topic. -/
def sampleNoValueEvent : Event :=
  { address := [2], identifier := toBytes "ESDTNFTTransfer",
    topics := [toBytes "TKN-abcd", [2]] }

/-- The fungible transfer of the unit tests: 100 units of `my-token` from `addr` to
`receiver`, with an empty nonce topic. -/
def sampleFungibleEvent : Event :=
  { address := toBytes "addr", identifier := toBytes "ESDTTransfer",
    topics := [toBytes "my-token", [], [100], toBytes "receiver"] }

/-- The wipe of the unit tests: `esdt-0123`, nonce and value 0. -/
def sampleWipeEvent : Event :=
  { address := toBytes "addr", identifier := toBytes "ESDTWipe",
    topics := [toBytes "esdt-0123", [], [], toBytes "receiver"] }

/-- A header with nonce 7. -/
def sampleHeaderHandler : WorkItems.HeaderHandler := { nonce := 7 }

/-- A body with one miniblock. -/
def sampleBody : WorkItems.Body := { MiniBlocks := [sampleMiniBlock] }

/-- A work item holding the sample header and the sample body. -/
def sampleWorkItem : WorkItems.OutportBlockWithHeader :=
  { OutportBlock := some
      { BlockData := some { HeaderHash := [1, 2], Body := some sampleBody }
        TransactionPool := none
        AlteredAccounts := [] }
    Header := some sampleHeaderHandler }

/-- An indexer whose `SaveMiniblocks` fails. -/
def sampleIndexerFailing : WorkItems.SaveBlockIndexer :=
  { SaveHeader := fun _ => none
    SaveMiniblocks := fun _ _ => some "bulk request failed"
    SaveTransactions := fun _ => none }

/-- Constructors that all succeed, but for the balance converter on a negative
denomination. -/
def sampleConstructors : Factory.Constructors :=
  { getElasticTemplatesAndPolicies := fun _ => Except.ok (1, 2)
    newBalanceConverter := fun d =>
      if d < 0 then Except.error "negative denomination value" else Except.ok 3
    newAccountsProcessor := fun _ _ _ => Except.ok 4
    newBlockProcessor := fun _ _ => Except.ok 5
    newMiniblocksProcessor := fun _ _ _ _ => Except.ok 6
    newValidatorsProcessor := fun _ _ => Except.ok 7
    newTransactionsProcessor := fun _ => Except.ok 8
    newLogsAndEventsProcessor := fun _ _ => Except.ok 9
    newOperationsProcessor := fun _ _ => Except.ok 10
    newElasticProcessor := fun _ _ _ => Except.ok 11 }

/-- Factory arguments with the given enabled indexes and a negative denomination. -/
def sampleFactoryArgs (enabledIndexes : List String) : Factory.ArgElasticProcessorFactory :=
  { Marshalizer := some 0
    Hasher := some 0
    AddressPubkeyConverter := some 0
    ValidatorPubkeyConverter := some 0
    DBClient := some 0
    ShardCoordinator := some { selfId := 0 }
    EnabledIndexes := enabledIndexes
    Denomination := -1
    BulkRequestMaxSize := 100
    IsInImportDBMode := false
    UseKibana := false }

/-- A serializer whose hasher gives the bytes of its input. -/
def sampleDelegatorsProcessor : Delegators.LogsAndEventsProcessor :=
  { hasher := toBytes
    jsonEscape := fun s => s
    marshalDelegator := fun d => some ("\x7b\"address\":\"" ++ d.Address ++ "\"\x7d")
    marshalUnDelegate := fun u =>
      match u with
      | none => some "null"
      | some u => some ("\x7b\"id\":\"" ++ u.ID ++ "\"\x7d") }

/-- A delegator of address `ab` on contract `c`. -/
def sampleDelegator : Delegators.Delegator :=
  { Address := "ab", Contract := "c", ActiveStake := "100" }

/-- The same address and contract split differently, to be deleted. -/
def sampleDelegatorOther : Delegators.Delegator :=
  { Address := "a", Contract := "bc", ActiveStake := "5", ShouldDelete := true,
    WithdrawFundIDs := some ["x"] }

/-- The delegator of an event, as the script receives it in `params.delegator`. -/
def sampleDelegatorParams : Doc :=
  [("address", Json.str "erd1user"), ("contract", Json.str "erd1contract"),
    ("activeStake", Json.str "100"), ("activeStakeNum", Json.num 100)]

/-- A stored delegator document with three pending undelegations. -/
def sampleStoredDelegator : Doc :=
  [("address", Json.str "erd1user"), ("contract", Json.str "erd1contract"),
    ("activeStake", Json.str "70"), ("activeStakeNum", Json.num 70),
    ("unDelegateInfo", Json.arr
      [Json.obj [("id", Json.str "A")], Json.obj [("id", Json.str "B")],
        Json.obj [("id", Json.str "X")]])]

/-- An intra-shard miniblock of shard 0. -/
def sampleMiniBlockIntra : MiniBlock :=
  { TxHashes := [[9]], ReceiverShardID := 0, SenderShardID := 0 }

/-- An invalid transaction document from `alice` to `bob`. -/
def sampleInvalidDbTx : DbTransaction :=
  { Hash := "0a", Sender := "alice", Receiver := "bob", Status := "invalid" }

/-- A successful transaction document that `alice` sends to herself. -/
def sampleSelfDbTx : DbTransaction :=
  { Hash := "0b", Sender := "alice", Receiver := "alice", Status := "success" }

/-- A work item whose body has no miniblock and whose pool is nil. -/
def sampleEmptyOutportBlock : WorkItems.OutportBlock :=
  { BlockData := some { HeaderHash := [1, 2], Body := some { MiniBlocks := [] } }
    TransactionPool := none
    AlteredAccounts := ["erd1"] }

/-- An indexer whose every step succeeds. -/
def sampleIndexerOk : WorkItems.SaveBlockIndexer :=
  { SaveHeader := fun _ => none
    SaveMiniblocks := fun _ _ => none
    SaveTransactions := fun _ => none }

/-- An NFT transfer whose nonce topic has nine bytes and encodes 2^64. -/
def sampleWideNonceEvent : Event :=
  { address := [2], identifier := toBytes "ESDTNFTTransfer",
    topics := [toBytes "TKN-abcd", [1, 0, 0, 0, 0, 0, 0, 0, 0], [100], [4]] }

/-- An NFT burn in the older topic layout: nonce 2 of `TKN-abcd`. -/
def sampleOldBurnEvent : Event :=
  { address := [2], identifier := toBytes "ESDTNFTBurn", topics := [toBytes "TKN-abcd", [2]] }

/-- An event that no NFT processor handles. -/
def sampleOtherEvent : Event :=
  { address := [2], identifier := toBytes "writeLog", topics := [] }

/-- The transactions of a block: one under the hexadecimal key of the log hash `h1`. -/
def sampleTxsMap : GoMap DbTransaction :=
  [("6831", { Hash := "6831", Sender := "alice" })]

/-- The smart-contract results of a block: one under the key of the log hash `h1` and one
under the key of the log hash `h2`. -/
def sampleScrsMap : GoMap ScResult :=
  [("6831", { Hash := "6831" }), ("6832", { Hash := "6832" })]

/-- A marshaller of token records that writes the identifier only. -/
def sampleMarshalToken (t : TokenInfo) : Except String String :=
  Except.ok ("\x7b\"identifier\":\"" ++ t.Identifier ++ "\"\x7d")

/-- A JSON reader for the samples: every text denotes the sample delegator. -/
def sampleDelegatorJsonOf (_ : String) : Json :=
  Json.obj sampleDelegatorParams

/-- A stored delegator document with two pending undelegations, `A` and `B`. -/
def sampleTwoUnDelegations : Doc :=
  [("address", Json.str "erd1user"), ("contract", Json.str "erd1contract"),
    ("activeStake", Json.str "70"), ("activeStakeNum", Json.num 70),
    ("unDelegateInfo", Json.arr
      [Json.obj [("id", Json.str "A")], Json.obj [("id", Json.str "B")]])]

/-- A delegator of address `ab` on contract `c` that undelegates under the id `C`. -/
def sampleUnDelegating : Delegators.Delegator :=
  { Address := "ab", Contract := "c", ActiveStake := "100",
    UnDelegateInfo := some { ID := "C" } }

/-! ## Map lemmas -/

theorem mapGet_mapSet_same {α : Type} (m : GoMap α) (k : String) (v : α) :
    mapGet (mapSet m k v) k = some v := by
  induction m with
  | nil => simp [mapSet, mapGet]
  | cons p rest ih =>
    obtain ⟨k', v'⟩ := p
    by_cases h : k' = k
    · simp [mapSet, mapGet, h]
    · simp [mapSet, mapGet, h, ih]

theorem mapGet_mapSet_other {α : Type} (m : GoMap α) (k k' : String) (v : α) (h : k ≠ k') :
    mapGet (mapSet m k v) k' = mapGet m k' := by
  induction m with
  | nil => simp [mapSet, mapGet, h]
  | cons p rest ih =>
    obtain ⟨k0, v0⟩ := p
    by_cases h0 : k0 = k
    · subst h0
      simp [mapSet, mapGet, h]
    · by_cases h1 : k0 = k'
      · subst h1
        simp [mapSet, mapGet, h0]
      · simp [mapSet, mapGet, h0, h1, ih]

theorem mapSet_of_mapGet {α : Type} (m : GoMap α) (k : String) (v : α)
    (h : mapGet m k = some v) : mapSet m k v = m := by
  induction m with
  | nil => simp [mapGet] at h
  | cons p rest ih =>
    obtain ⟨k0, v0⟩ := p
    by_cases h0 : k0 = k
    · subst h0
      simp [mapGet] at h
      simp [mapSet, h]
    · simp [mapGet, h0] at h
      simp [mapSet, h0, ih h]

/-! ## Status derivation -/

/-- C1: `computeStatus` returns the success status when the two shard ids are equal and
the pending status for every other pair; it never returns any other status. -/
theorem computeStatus_spec (selfShardID receiverShardID : Nat) :
    computeStatus selfShardID receiverShardID =
        (if selfShardID = receiverShardID then "success" else "pending") ∧
    (computeStatus selfShardID receiverShardID = "success" ↔
        selfShardID = receiverShardID) ∧
    (computeStatus selfShardID receiverShardID = "pending" ↔
        selfShardID ≠ receiverShardID) ∧
    (computeStatus selfShardID receiverShardID = "success" ∨
        computeStatus selfShardID receiverShardID = "pending") := by
  unfold computeStatus TxStatusSuccess TxStatusPending
  by_cases h : selfShardID = receiverShardID <;> simp [h]

/-! ## Invalid miniblocks -/

theorem groupInvalidTxsLoop_get (tg : TxGrouper) (mb : MiniBlock) (header : Header)
    (txs : GoMap TransactionHandler) (mbHash : Bytes) (k : String) (tx : Transaction)
    (hpool : mapGet txs k = some (TransactionHandler.tx tx)) :
    ∀ (l : List Bytes) (acc : GoMap DbTransaction × GoMap AlteredAccount),
      ((∃ doc, mapGet acc.1 k = some doc ∧ InvalidDoc tg tx doc) ∨
        (∃ h, h ∈ l ∧ goString h = k)) →
      ∃ doc, mapGet (groupInvalidTxsLoop tg mb header txs mbHash l acc).1 k = some doc ∧
        InvalidDoc tg tx doc := by
  intro l
  induction l with
  | nil =>
    intro acc hyp
    rcases hyp with hdoc | ⟨h, hmem, _⟩
    · simpa [groupInvalidTxsLoop] using hdoc
    · simp at hmem
  | cons h rest ih =>
    intro acc hyp
    obtain ⟨t, a⟩ := acc
    by_cases hk : goString h = k
    · -- the hash read at this step is the key itself
      subst hk
      unfold groupInvalidTxsLoop
      simp only [hpool]
      apply ih
      left
      refine ⟨_, mapGet_mapSet_same _ _ _, ?_⟩
      simp [InvalidDoc, buildTransaction, prepareTransaction, TxStatusInvalid]
    · have hyp' : ∀ t' : GoMap DbTransaction, mapGet t' k = mapGet t k →
          ((∃ doc, mapGet t' k = some doc ∧ InvalidDoc tg tx doc) ∨
            (∃ h', h' ∈ rest ∧ goString h' = k)) := by
        intro t' ht'
        rcases hyp with ⟨doc, hdoc, hgood⟩ | ⟨h', hmem, hh'⟩
        · left; exact ⟨doc, by rw [ht']; exact hdoc, hgood⟩
        · right
          rcases List.mem_cons.mp hmem with heq | hin
          · subst heq; exact absurd hh' hk
          · exact ⟨h', hin, hh'⟩
      unfold groupInvalidTxsLoop
      cases hget : mapGet txs (goString h) with
      | none => exact ih _ (hyp' t rfl)
      | some handler =>
        cases handler with
        | tx tx' =>
          exact ih _ (hyp' _ (mapGet_mapSet_other _ _ _ _ hk))
        | reward r => exact ih _ (hyp' t rfl)
        | scr s => exact ih _ (hyp' t rfl)
        | receipt r => exact ih _ (hyp' t rfl)

/-- C2: for an invalid miniblock whose hash can be computed and a hash of the miniblock
that the pool maps to a regular transaction, the document returned under that hash has
status `invalid`, `GasUsed` equal to the gas limit of the transaction and `Fee` equal to
the decimal string of the fee computed for the full gas limit, whatever gas and fee the
builder computed first. -/
theorem groupInvalidTxs_invalid_doc (tg : TxGrouper) (mb : MiniBlock) (header : Header)
    (txs : GoMap TransactionHandler) (alteredAddresses : GoMap AlteredAccount)
    (mbHash txHash : Bytes) (tx : Transaction)
    (hHash : tg.calculateHash mb = some mbHash)
    (hmem : txHash ∈ mb.TxHashes)
    (hpool : mapGet txs (goString txHash) = some (TransactionHandler.tx tx)) :
    ∃ transactions doc,
      (groupInvalidTxs tg mb header txs alteredAddresses).1 = some transactions ∧
      mapGet transactions (goString txHash) = some doc ∧
      doc.Status = "invalid" ∧
      doc.GasUsed = tx.GasLimit ∧
      doc.Fee = bigIntString (tg.txBuilder.computeTxFeeBasedOnGasUsed tx tx.GasLimit) := by
  obtain ⟨doc, hdoc, hgood⟩ :=
    groupInvalidTxsLoop_get tg mb header txs mbHash (goString txHash) tx hpool
      mb.TxHashes ([], alteredAddresses) (Or.inr ⟨txHash, hmem, rfl⟩)
  refine ⟨_, doc, ?_, hdoc, hgood⟩
  simp [groupInvalidTxs, hHash]


/-- Witness of C2: the sample invalid miniblock of scenario S5 (gas limit 1000000,
gas price 1000000000). -/
theorem groupInvalidTxs_invalid_doc_witness :
    ∃ transactions doc,
      (groupInvalidTxs sampleGrouper sampleMiniBlock ⟨3, 4⟩ samplePool []).1
        = some transactions ∧
      mapGet transactions (goString [9]) = some doc ∧
      doc.Status = "invalid" ∧
      doc.GasUsed = sampleTx.GasLimit ∧
      doc.Fee = bigIntString
        (sampleGrouper.txBuilder.computeTxFeeBasedOnGasUsed sampleTx sampleTx.GasLimit) :=
  groupInvalidTxs_invalid_doc sampleGrouper sampleMiniBlock ⟨3, 4⟩ samplePool [] [7] [9]
    sampleTx rfl (by simp [sampleMiniBlock]) (by simp [samplePool, mapGet])

/-! ## Cross-shard upsert on the source shard -/

/-- C3: for a transaction document whose sender shard is the self shard and differs from
the receiver shard, the serializer emits an `update` action line whose `_id` is the hash
of the document and the payload `{"script":{"source":"return"},"upsert":<JSON of tx>}`. -/
theorem prepareSerializedData_crossShardOnSource
    (jsonMarshal : DbTransaction → Option String) (tx : DbTransaction) (selfShardID : Nat)
    (marshaledTx : String) (hm : jsonMarshal tx = some marshaledTx)
    (hself : selfShardID = tx.SenderShard) (hcross : tx.SenderShard ≠ tx.ReceiverShard) :
    prepareSerializedDataForATransaction jsonMarshal tx selfShardID =
      some ("\x7b\"update\":\x7b\"_id\":\"" ++ tx.Hash ++ "\", \"_type\": \"_doc\"\x7d\x7d\n",
        "\x7b\"script\":\x7b\"source\":\"return\"\x7d,\"upsert\":" ++ marshaledTx ++ "\x7d") := by
  have hc : isCrossShardOnSourceShard tx selfShardID = true := by
    simp [isCrossShardOnSourceShard, hself, hcross]
  simp only [prepareSerializedDataForATransaction, hm, hc, if_true, crossShardScript]
  refine congrArg some (Prod.ext ?_ ?_)
  · apply String.ext
    simp [String.data_append]
  · apply String.ext
    simp [String.data_append]

/-- Witness of C3: the sample document on shard 0, sent to shard 1. -/
theorem prepareSerializedData_crossShardOnSource_witness :
    prepareSerializedDataForATransaction sampleMarshal sampleDbTx 0 =
      some ("\x7b\"update\":\x7b\"_id\":\"" ++ sampleDbTx.Hash ++
          "\", \"_type\": \"_doc\"\x7d\x7d\n",
        "\x7b\"script\":\x7b\"source\":\"return\"\x7d,\"upsert\":" ++
          "\x7b\"status\":\"pending\"\x7d" ++ "\x7d") :=
  prepareSerializedData_crossShardOnSource sampleMarshal sampleDbTx 0
    "\x7b\"status\":\"pending\"\x7d" (by decide) (by decide) (by decide)

/-- C4: under the update semantics of Elasticsearch, the action the serializer produces
for a transaction that is cross-shard on its source shard is the update request with
script `return` and the transaction as `upsert` body; applied to an
index that already holds a document under the hash it leaves the index, hence that
document and its `status`, unchanged; applied to an index without such a document it
stores the transaction under the hash and changes no other entry. -/
theorem crossShard_upsert_keeps_existing
    (jsonMarshal : DbTransaction → Option String) (jsonOf : String → Json)
    (tx : DbTransaction) (selfShardID : Nat) (marshaledTx : String) (T : Doc) (idx : EsIndex)
    (hm : jsonMarshal tx = some marshaledTx) (hT : jsonOf marshaledTx = Json.obj T)
    (hc : isCrossShardOnSourceShard tx selfShardID = true) :
    prepareSerializedDataForATransaction jsonMarshal tx selfShardID =
        some (updateActionLine tx.Hash, (crossShardRequest marshaledTx).body) ∧
    (∀ D, mapGet idx tx.Hash = some D →
      esBulkUpdate jsonOf idx tx.Hash (crossShardRequest marshaledTx) = some idx) ∧
    (mapGet idx tx.Hash = none →
      ∃ idx1, esBulkUpdate jsonOf idx tx.Hash (crossShardRequest marshaledTx) = some idx1 ∧
        mapGet idx1 tx.Hash = some T ∧
        ∀ id, id ≠ tx.Hash → mapGet idx1 id = mapGet idx id) := by
  refine ⟨?_, ?_, ?_⟩
  · simp [prepareSerializedDataForATransaction, hm, hc, updateActionLine, crossShardRequest,
      UpdateRequest.body]
  · intro D hD
    have hrun : runScript crossShardScript [] D = some D := by
      have hp : parseScript crossShardScript = some [PStmt.ret] := by decide
      simp [runScript, hp, execStmts]
    simp [esBulkUpdate, esUpdate, hD, crossShardRequest, hrun, mapSet_of_mapGet idx tx.Hash D hD]
  · intro hnone
    refine ⟨mapSet idx tx.Hash T, ?_, mapGet_mapSet_same _ _ _, ?_⟩
    · simp [esBulkUpdate, esUpdate, hnone, crossShardRequest, hT]
    · intro id hid
      exact mapGet_mapSet_other _ _ _ _ (Ne.symm hid)

/-- Witness of C4: the sample document, an index holding a `success` document under its
hash. -/
theorem crossShard_upsert_keeps_existing_witness :
    esBulkUpdate sampleJsonOf [("09", [("status", Json.str "success")])] sampleDbTx.Hash
        (crossShardRequest "\x7b\"status\":\"pending\"\x7d") =
      some [("09", [("status", Json.str "success")])] :=
  (crossShard_upsert_keeps_existing sampleMarshal sampleJsonOf sampleDbTx 0
    "\x7b\"status\":\"pending\"\x7d" [("status", Json.str "pending")]
    [("09", [("status", Json.str "success")])] (by decide) rfl (by decide)).2.1
    [("status", Json.str "success")] (by simp [mapGet, sampleDbTx])

/-! ## Intra-shard NFT transfer script -/

/-- C5: the payload built by `prepareNFTESDTTransferOrMultiESDTTransfer` is the update
request whose script is the NFT-transfer script with parameter `tx`; applied to an
existing document `D` it yields the transaction `T` with `status` keeping the value it has
in `D`; applied when no document exists it stores `T`; applying it a second time changes
nothing. `T` is a transaction document, so it carries a `status` field. -/
theorem nftTransfer_script_keeps_status (jsonOf : String → Json) (marshaledTx : String)
    (T : Doc) (hT : jsonOf marshaledTx = Json.obj T) (hstatus : mapGet T "status" ≠ none) :
    prepareNFTESDTTransferOrMultiESDTTransfer marshaledTx =
        (nftTransferRequest marshaledTx).body ∧
    (∀ D : Doc, ∃ R,
      esUpdate jsonOf (nftTransferRequest marshaledTx) (some D) = some R ∧
      (∀ f, f ≠ "status" → mapGet R f = mapGet T f) ∧
      docGet R "status" = docGet D "status") ∧
    esUpdate jsonOf (nftTransferRequest marshaledTx) none = some T ∧
    (∀ existing : Option Doc, ∃ R,
      esUpdate jsonOf (nftTransferRequest marshaledTx) existing = some R ∧
      esUpdate jsonOf (nftTransferRequest marshaledTx) (some R) = some R) := by
  have hp : parseScript nftTransferScript =
      some [PStmt.defVar "status" (PExpr.sourceField "status"),
        PStmt.setSource (PExpr.param "tx"),
        PStmt.setField "status" (PExpr.var "status")] := by decide
  have hrun : ∀ D : Doc, esUpdate jsonOf (nftTransferRequest marshaledTx) (some D) =
      some (mapSet T "status" (docGet D "status")) := by
    intro D
    simp [esUpdate, nftTransferRequest, runScript, hp, execStmts, evalExpr, mapGet, mapSet, hT]
  have hnew : esUpdate jsonOf (nftTransferRequest marshaledTx) none = some T := by
    simp [esUpdate, nftTransferRequest, hT]
  have hread : ∀ v, docGet (mapSet T "status" v) "status" = v := by
    intro v
    simp [docGet, mapGet_mapSet_same]
  refine ⟨?_, ?_, hnew, ?_⟩
  · apply String.ext
    simp [prepareNFTESDTTransferOrMultiESDTTransfer, nftTransferRequest, UpdateRequest.body,
      renderParams, String.data_append]
  · intro D
    refine ⟨_, hrun D, ?_, hread _⟩
    intro f hf
    exact mapGet_mapSet_other _ _ _ _ (Ne.symm hf)
  · intro existing
    cases existing with
    | none =>
      refine ⟨T, hnew, ?_⟩
      rw [hrun T]
      obtain ⟨v, hv⟩ := Option.ne_none_iff_exists'.mp hstatus
      have : docGet T "status" = v := by simp [docGet, hv]
      rw [this, mapSet_of_mapGet T "status" v hv]
    | some D =>
      refine ⟨_, hrun D, ?_⟩
      rw [hrun, hread]

/-- Witness of C5: the sample transaction document. -/
theorem nftTransfer_script_keeps_status_witness :
    esUpdate sampleJsonOf (nftTransferRequest "tx") none =
      some [("status", Json.str "pending")] :=
  (nftTransfer_script_keeps_status sampleJsonOf "tx" [("status", Json.str "pending")] rfl
    (by simp [mapGet])).2.2.1


/-! ## NFT events: `process/elasticproc/logsevents` -/

namespace Elasticproc

theorem processNFTEventOnSender_accounts (np : NftsProcessor) (lib : Lib) (event : Event)
    (h : Handlers) (timestamp : Nat) (t0 t1 t2 : Bytes) (rest : List Bytes)
    (htopics : event.topics = t0 :: t1 :: t2 :: rest) :
    ∃ h1, processNFTEventOnSender np lib event h timestamp = some h1 ∧
      h1.accounts = h.accounts ++
        [(np.encode event.address,
          { IsNFTOperation := true, TokenIdentifier := goString t0,
            NFTNonce := bigUint64 (bigFromBytes t1),
            IsNFTCreate := decide (goString event.identifier = "ESDTNFTCreate") })] := by
  unfold processNFTEventOnSender
  simp only [htopics, List.getElem?_cons_zero, List.getElem?_cons_succ]
  by_cases hc : goString event.identifier = BuiltInFunctionESDTNFTCreate
  · have hb : ¬ (goString event.identifier = BuiltInFunctionESDTNFTBurn ∨
        goString event.identifier = BuiltInFunctionESDTWipe) := by
      rw [hc]; decide
    have hlit : goString event.identifier = "ESDTNFTCreate" := hc
    cases rest with
    | nil =>
      simp [hlit, numTopicsWithReceiverAddress, BuiltInFunctionESDTNFTCreate,
        BuiltInFunctionESDTNFTBurn, BuiltInFunctionESDTWipe]
    | cons r rest1 =>
      have hlen : ¬ (rest1.length + 1 + 1 + 1 + 1 < 4) := by omega
      cases hu : np.unmarshal r with
      | none =>
        simp [hlit, hu, hlen, numTopicsWithReceiverAddress, BuiltInFunctionESDTNFTCreate,
          BuiltInFunctionESDTNFTBurn, BuiltInFunctionESDTWipe]
      | some tok =>
        simp [hlit, hu, hlen, numTopicsWithReceiverAddress, BuiltInFunctionESDTNFTCreate,
          BuiltInFunctionESDTNFTBurn, BuiltInFunctionESDTWipe]
  · have hlit : ¬ goString event.identifier = "ESDTNFTCreate" := hc
    by_cases hb : goString event.identifier = BuiltInFunctionESDTNFTBurn ∨
        goString event.identifier = BuiltInFunctionESDTWipe
    · simp [hb, hc, hlit]
    · simp [hb, hc, hlit]

theorem shouldAddReceiverData_eq (args : ArgsProcessEvent) :
    shouldAddReceiverData args =
      (decide (goString args.event.identifier = "ESDTNFTTransfer" ∨
          goString args.event.identifier = "MultiESDTNFTTransfer") &&
        decide (4 ≤ args.event.topics.length)) := by
  unfold shouldAddReceiverData
  by_cases h1 : goString args.event.identifier = "ESDTNFTTransfer" <;>
  by_cases h2 : goString args.event.identifier = "MultiESDTNFTTransfer" <;>
  by_cases h3 : args.event.topics.length < 4 <;>
  simp [h1, h2, h3, numTopicsWithReceiverAddress, BuiltInFunctionESDTNFTTransfer,
    BuiltInFunctionMultiESDTNFTTransfer] <;> omega

theorem processEvent_eq (encode : Bytes → String) (unmarshal : Bytes → Option ESDigitalToken)
    (lib : Lib) (args : ArgsProcessEvent) (h : Handlers) (t0 t1 t2 : Bytes)
    (rest : List Bytes)
    (hid : goString args.event.identifier ∈
      ["ESDTNFTTransfer", "ESDTNFTBurn", "ESDTNFTAddQuantity", "ESDTNFTCreate",
        "MultiESDTNFTTransfer", "ESDTWipe"])
    (htopics : args.event.topics = t0 :: t1 :: t2 :: rest)
    (hnonce : bigUint64 (bigFromBytes t1) ≠ 0) :
    ∃ hmid : Handlers,
      hmid.accounts = h.accounts ++
        (if lib.computeShardID args.event.address args.numOfShards = args.selfShardID then
          [(encode args.event.address,
            { IsNFTOperation := true, TokenIdentifier := goString t0,
              NFTNonce := bigUint64 (bigFromBytes t1),
              IsNFTCreate := decide (goString args.event.identifier = "ESDTNFTCreate") })]
        else []) ∧
      processEvent (newNFTsProcessor encode unmarshal) lib args h =
        some
          (match rest.head? with
          | none =>
            ({ identifier := lib.computeTokenIdentifier (goString t0) (bigUint64 (bigFromBytes t1)),
               value := Nat.repr (bigFromBytes t2), processed := true }, hmid)
          | some r =>
            if goString args.event.identifier = "ESDTNFTTransfer" ∨
                goString args.event.identifier = "MultiESDTNFTTransfer" then
              ({ identifier :=
                   lib.computeTokenIdentifier (goString t0) (bigUint64 (bigFromBytes t1)),
                 value := Nat.repr (bigFromBytes t2), processed := true,
                 receiver := encode r,
                 receiverShardID := lib.computeShardID r args.numOfShards },
                if lib.computeShardID r args.numOfShards = args.selfShardID then
                  { hmid with accounts := hmid.accounts ++
                      [(encode r,
                        { IsNFTOperation := true, TokenIdentifier := goString t0,
                          NFTNonce := bigUint64 (bigFromBytes t1) })] }
                else hmid)
            else
              ({ identifier :=
                   lib.computeTokenIdentifier (goString t0) (bigUint64 (bigFromBytes t1)),
                 value := Nat.repr (bigFromBytes t2), processed := true }, hmid)) := by
  have hmem : goString args.event.identifier ∈
      (newNFTsProcessor encode unmarshal).nftOperationsIdentifiers := hid
  have hstep : ∃ hmid : Handlers,
      (if lib.computeShardID args.event.address args.numOfShards = args.selfShardID then
          processNFTEventOnSender (newNFTsProcessor encode unmarshal) lib args.event h
            args.timestamp
        else some h) = some hmid ∧
      hmid.accounts = h.accounts ++
        (if lib.computeShardID args.event.address args.numOfShards = args.selfShardID then
          [(encode args.event.address,
            { IsNFTOperation := true, TokenIdentifier := goString t0,
              NFTNonce := bigUint64 (bigFromBytes t1),
              IsNFTCreate := decide (goString args.event.identifier = "ESDTNFTCreate") })]
        else []) := by
    by_cases hs : lib.computeShardID args.event.address args.numOfShards = args.selfShardID
    · obtain ⟨h1, hrun, hacc⟩ := processNFTEventOnSender_accounts
        (newNFTsProcessor encode unmarshal) lib args.event h args.timestamp t0 t1 t2 rest
        htopics
      exact ⟨h1, by simp [hs, hrun], by simp [hs, hacc, newNFTsProcessor]⟩
    · exact ⟨h, by simp [hs], by simp [hs]⟩
  obtain ⟨hmid, hrun, hacc⟩ := hstep
  refine ⟨hmid, hacc, ?_⟩
  unfold processEvent
  simp only [hmem, not_true_eq_false, if_false, htopics, List.getElem?_cons_zero,
    List.getElem?_cons_succ, hnonce]
  rw [hrun]
  simp only [shouldAddReceiverData_eq, htopics]
  cases rest with
  | nil => simp
  | cons r rest1 =>
    by_cases ht : goString args.event.identifier = "ESDTNFTTransfer" ∨
        goString args.event.identifier = "MultiESDTNFTTransfer"
    · by_cases hr : lib.computeShardID r args.numOfShards = args.selfShardID
      · simp [ht, hr, newNFTsProcessor]
      · simp [ht, hr, newNFTsProcessor]
    · simp [ht]


/-- C6: for an event whose identifier is one of the six NFT identifiers and whose nonce
topic decodes to 0, `processEvent` returns the empty output (`processed = false`, empty
identifier and value) and leaves the altered accounts, the tokens list and the
tokens-supply list as they were. -/
theorem processEvent_zero_nonce_ignored (encode : Bytes → String)
    (unmarshal : Bytes → Option ESDigitalToken) (lib : Lib) (args : ArgsProcessEvent)
    (h : Handlers) (t1 : Bytes)
    (hid : goString args.event.identifier ∈
      ["ESDTNFTTransfer", "ESDTNFTBurn", "ESDTNFTAddQuantity", "ESDTNFTCreate",
        "MultiESDTNFTTransfer", "ESDTWipe"])
    (ht1 : args.event.topics[1]? = some t1)
    (hzero : bigUint64 (bigFromBytes t1) = 0) :
    processEvent (newNFTsProcessor encode unmarshal) lib args h =
      some ({ identifier := "", value := "", processed := false, receiver := "",
              receiverShardID := 0 }, h) := by
  have hmem : goString args.event.identifier ∈
      (newNFTsProcessor encode unmarshal).nftOperationsIdentifiers := hid
  unfold processEvent
  simp only [hmem, not_true_eq_false, if_false, ht1, hzero, if_true]

/-- Witness of C6: the sample transfer with an empty nonce topic. -/
theorem processEvent_zero_nonce_ignored_witness :
    processEvent (newNFTsProcessor hexEncode fun _ => none) sampleLib
        (sampleArgs sampleZeroNonceEvent) {} =
      some ({ identifier := "", value := "", processed := false, receiver := "",
              receiverShardID := 0 }, {}) :=
  processEvent_zero_nonce_ignored hexEncode (fun _ => none) sampleLib
    (sampleArgs sampleZeroNonceEvent) {} [] (by decide) (by decide) (by decide)

/-- C8: for an NFT event with nonzero nonce, `processEvent` succeeds and the altered
accounts it leaves are the previous ones, then the sender's entry exactly when
`ComputeShardID(sender, numOfShards)` is the self shard, then at most one entry for the
receiver topic. The sender's entry is keyed by the encoded sender address and is
`{IsNFTOperation: true, TokenIdentifier: topic[0], NFTNonce: nonce,
IsNFTCreate: identifier == ESDTNFTCreate}`. -/
theorem processEvent_sender_account (encode : Bytes → String)
    (unmarshal : Bytes → Option ESDigitalToken) (lib : Lib) (args : ArgsProcessEvent)
    (h : Handlers) (t0 t1 t2 : Bytes) (rest : List Bytes)
    (hid : goString args.event.identifier ∈
      ["ESDTNFTTransfer", "ESDTNFTBurn", "ESDTNFTAddQuantity", "ESDTNFTCreate",
        "MultiESDTNFTTransfer", "ESDTWipe"])
    (htopics : args.event.topics = t0 :: t1 :: t2 :: rest)
    (hnonce : bigUint64 (bigFromBytes t1) ≠ 0) :
    ∃ out h1 receiverEntries,
      processEvent (newNFTsProcessor encode unmarshal) lib args h = some (out, h1) ∧
      h1.accounts = h.accounts ++
        (if lib.computeShardID args.event.address args.numOfShards = args.selfShardID then
          [(encode args.event.address,
            { IsNFTOperation := true, TokenIdentifier := goString t0,
              NFTNonce := bigUint64 (bigFromBytes t1),
              IsNFTCreate := decide (goString args.event.identifier = "ESDTNFTCreate") })]
        else []) ++ receiverEntries ∧
      (receiverEntries = [] ∨
        ∃ r, rest.head? = some r ∧
          receiverEntries =
            [(encode r, { IsNFTOperation := true, TokenIdentifier := goString t0,
                          NFTNonce := bigUint64 (bigFromBytes t1) })]) := by
  obtain ⟨hmid, hacc, hrun⟩ :=
    processEvent_eq encode unmarshal lib args h t0 t1 t2 rest hid htopics hnonce
  cases rest with
  | nil =>
    refine ⟨_, hmid, [], hrun, ?_, Or.inl rfl⟩
    simp [hacc]
  | cons r rest1 =>
    by_cases ht : goString args.event.identifier = "ESDTNFTTransfer" ∨
        goString args.event.identifier = "MultiESDTNFTTransfer"
    · by_cases hr : lib.computeShardID r args.numOfShards = args.selfShardID
      · simp only [List.head?_cons, ht, hr, if_true] at hrun
        exact ⟨_, _, _, hrun, by simp [hacc], Or.inr ⟨r, rfl, rfl⟩⟩
      · simp only [List.head?_cons, ht, hr, if_true, if_false] at hrun
        exact ⟨_, _, [], hrun, by simp [hacc], Or.inl rfl⟩
    · simp only [List.head?_cons, ht, if_false] at hrun
      exact ⟨_, _, [], hrun, by simp [hacc], Or.inl rfl⟩

/-- Witness of C8: the sample transfer, whose sender `[2]` is in shard 0. -/
theorem processEvent_sender_account_witness :
    ∃ out h1 receiverEntries,
      processEvent (newNFTsProcessor hexEncode fun _ => none) sampleLib
        (sampleArgs sampleTransferEvent) {} = some (out, h1) ∧
      h1.accounts = ([] : List (String × AlteredAccount)) ++
        (if sampleLib.computeShardID (sampleArgs sampleTransferEvent).event.address
            (sampleArgs sampleTransferEvent).numOfShards
            = (sampleArgs sampleTransferEvent).selfShardID then
          [(hexEncode (sampleArgs sampleTransferEvent).event.address,
            { IsNFTOperation := true, TokenIdentifier := goString (toBytes "TKN-abcd"),
              NFTNonce := bigUint64 (bigFromBytes [2]),
              IsNFTCreate :=
                decide (goString (sampleArgs sampleTransferEvent).event.identifier
                  = "ESDTNFTCreate") })]
        else []) ++ receiverEntries ∧
      (receiverEntries = [] ∨
        ∃ r, [([4] : Bytes)].head? = some r ∧
          receiverEntries =
            [(hexEncode r, { IsNFTOperation := true, TokenIdentifier := goString (toBytes "TKN-abcd"),
                             NFTNonce := bigUint64 (bigFromBytes [2]) })]) :=
  processEvent_sender_account hexEncode (fun _ => none) sampleLib
    (sampleArgs sampleTransferEvent) {} (toBytes "TKN-abcd") [2] [100] [[4]]
    (by decide) (by decide) (by decide)

/-- C9: for an NFT event with nonzero nonce, the receiver is treated only when the
identifier is `ESDTNFTTransfer` or `MultiESDTNFTTransfer` and the event has a receiver
topic `topic[3]`: then the output carries the encoded receiver and
`receiverShardID = ComputeShardID(topic[3])`, and the receiver's entry
`{IsNFTOperation: true, TokenIdentifier, NFTNonce}` follows the sender's part of the
altered accounts exactly when `receiverShardID` is the self shard. For any other
identifier or without a receiver topic the output has no receiver and nothing follows the
sender's part. -/
theorem processEvent_receiver (encode : Bytes → String)
    (unmarshal : Bytes → Option ESDigitalToken) (lib : Lib) (args : ArgsProcessEvent)
    (h : Handlers) (t0 t1 t2 : Bytes) (rest : List Bytes)
    (hid : goString args.event.identifier ∈
      ["ESDTNFTTransfer", "ESDTNFTBurn", "ESDTNFTAddQuantity", "ESDTNFTCreate",
        "MultiESDTNFTTransfer", "ESDTWipe"])
    (htopics : args.event.topics = t0 :: t1 :: t2 :: rest)
    (hnonce : bigUint64 (bigFromBytes t1) ≠ 0) :
    ∃ out h1 senderEntries,
      processEvent (newNFTsProcessor encode unmarshal) lib args h = some (out, h1) ∧
      senderEntries =
        (if lib.computeShardID args.event.address args.numOfShards = args.selfShardID then
          [(encode args.event.address,
            ({ IsNFTOperation := true, TokenIdentifier := goString t0,
               NFTNonce := bigUint64 (bigFromBytes t1),
               IsNFTCreate := decide (goString args.event.identifier = "ESDTNFTCreate") } :
              AlteredAccount))]
        else []) ∧
      (∀ r, rest.head? = some r →
        (goString args.event.identifier = "ESDTNFTTransfer" ∨
          goString args.event.identifier = "MultiESDTNFTTransfer") →
        out.receiver = encode r ∧
        out.receiverShardID = lib.computeShardID r args.numOfShards ∧
        h1.accounts = h.accounts ++ senderEntries ++
          (if lib.computeShardID r args.numOfShards = args.selfShardID then
            [(encode r, { IsNFTOperation := true, TokenIdentifier := goString t0,
                          NFTNonce := bigUint64 (bigFromBytes t1) })]
          else [])) ∧
      ((rest.head? = none ∨
          ¬ (goString args.event.identifier = "ESDTNFTTransfer" ∨
            goString args.event.identifier = "MultiESDTNFTTransfer")) →
        out.receiver = "" ∧ out.receiverShardID = 0 ∧
        h1.accounts = h.accounts ++ senderEntries) := by
  obtain ⟨hmid, hacc, hrun⟩ :=
    processEvent_eq encode unmarshal lib args h t0 t1 t2 rest hid htopics hnonce
  cases rest with
  | nil =>
    refine ⟨_, hmid, _, hrun, rfl, ?_, ?_⟩
    · intro r hr
      simp at hr
    · intro _
      simp [hacc]
  | cons r rest1 =>
    by_cases ht : goString args.event.identifier = "ESDTNFTTransfer" ∨
        goString args.event.identifier = "MultiESDTNFTTransfer"
    · simp only [List.head?_cons, ht, if_true] at hrun
      refine ⟨_, _, _, hrun, rfl, ?_, ?_⟩
      · intro r1 hr1 _
        simp only [List.head?_cons, Option.some.injEq] at hr1
        subst hr1
        by_cases hr : lib.computeShardID r args.numOfShards = args.selfShardID
        · simp [hr, hacc]
        · simp [hr, hacc]
      · intro hno
        rcases hno with hno | hno
        · simp at hno
        · exact absurd ht hno
    · simp only [List.head?_cons, ht, if_false] at hrun
      refine ⟨_, _, _, hrun, rfl, ?_, ?_⟩
      · intro r1 _ ht1
        exact absurd ht1 ht
      · intro _
        simp [hacc]

/-- Witness of C9: the sample transfer, whose receiver `[4]` is in shard 0. -/
theorem processEvent_receiver_witness :
    ∃ out h1,
      processEvent (newNFTsProcessor hexEncode fun _ => none) sampleLib
        (sampleArgs sampleTransferEvent) {} = some (out, h1) ∧
      out.receiver = "04" ∧ out.receiverShardID = 0 ∧ h1.accounts.length = 2 := by
  obtain ⟨out, h1, senderEntries, hrun, hs, hrecv, _⟩ :=
    processEvent_receiver hexEncode (fun _ => none) sampleLib
      (sampleArgs sampleTransferEvent) {} (toBytes "TKN-abcd") [2] [100] [[4]]
      (by decide) (by decide) (by decide)
  obtain ⟨h2, h3, h4⟩ := hrecv [4] rfl (Or.inl (by decide))
  refine ⟨out, h1, hrun, ?_, ?_, ?_⟩
  · rw [h2]; decide
  · rw [h3]; decide
  · rw [h4, hs]; decide

/-- C10: for an NFT event with nonzero nonce and at least three topics, on every return
path the output has `processed = true`, `identifier = ComputeTokenIdentifier(topic[0],
nonce)` with the nonce read from `topic[1]` as a big-endian unsigned integer (through
`Uint64`, hence the value itself when it fits 64 bits) and `value` the decimal string of
`topic[2]` read as a big-endian unsigned integer, which is `"0"` for an empty topic. -/
theorem processEvent_output (encode : Bytes → String)
    (unmarshal : Bytes → Option ESDigitalToken) (lib : Lib) (args : ArgsProcessEvent)
    (h : Handlers) (t0 t1 t2 : Bytes) (rest : List Bytes)
    (hid : goString args.event.identifier ∈
      ["ESDTNFTTransfer", "ESDTNFTBurn", "ESDTNFTAddQuantity", "ESDTNFTCreate",
        "MultiESDTNFTTransfer", "ESDTWipe"])
    (htopics : args.event.topics = t0 :: t1 :: t2 :: rest)
    (hnonce : bigUint64 (bigFromBytes t1) ≠ 0) :
    ∃ out h1,
      processEvent (newNFTsProcessor encode unmarshal) lib args h = some (out, h1) ∧
      out.processed = true ∧
      out.identifier = lib.computeTokenIdentifier (goString t0) (bigUint64 (bigFromBytes t1)) ∧
      (bigFromBytes t1 < 2 ^ 64 →
        out.identifier = lib.computeTokenIdentifier (goString t0) (bigFromBytes t1)) ∧
      out.value = Nat.repr (bigFromBytes t2) ∧
      (t2 = [] → out.value = "0") := by
  obtain ⟨hmid, _, hrun⟩ :=
    processEvent_eq encode unmarshal lib args h t0 t1 t2 rest hid htopics hnonce
  have hfit : bigFromBytes t1 < 2 ^ 64 → bigUint64 (bigFromBytes t1) = bigFromBytes t1 := by
    intro hlt
    exact Nat.mod_eq_of_lt hlt
  have hempty : t2 = [] → Nat.repr (bigFromBytes t2) = "0" := by
    intro he
    subst he
    decide
  cases hrest : rest.head? with
  | none =>
    simp only [hrest] at hrun
    exact ⟨_, _, hrun, rfl, rfl, fun hlt => by rw [hfit hlt], rfl, hempty⟩
  | some r =>
    by_cases ht : goString args.event.identifier = "ESDTNFTTransfer" ∨
        goString args.event.identifier = "MultiESDTNFTTransfer"
    · simp only [hrest, ht, if_true] at hrun
      exact ⟨_, _, hrun, rfl, rfl, fun hlt => by rw [hfit hlt], rfl, hempty⟩
    · simp only [hrest, ht, if_false] at hrun
      exact ⟨_, _, hrun, rfl, rfl, fun hlt => by rw [hfit hlt], rfl, hempty⟩

/-- Witness of C10: the sample transfer of nonce 2 and value 100. -/
theorem processEvent_output_witness :
    ∃ out h1,
      processEvent (newNFTsProcessor hexEncode fun _ => none) sampleLib
        (sampleArgs sampleTransferEvent) {} = some (out, h1) ∧
      out.processed = true ∧ out.identifier = "TKN-abcd-02" ∧ out.value = "100" := by
  obtain ⟨out, h1, hrun, hp, hi, _, hv, _⟩ :=
    processEvent_output hexEncode (fun _ => none) sampleLib
      (sampleArgs sampleTransferEvent) {} (toBytes "TKN-abcd") [2] [100] [[4]]
      (by decide) (by decide) (by decide)
  refine ⟨out, h1, hrun, hp, ?_, ?_⟩
  · rw [hi]; decide
  · rw [hv]; decide


end Elasticproc

/-! ## NFT events: `process/logsevents` -/

namespace Logsevents

theorem processNFTEventOnSender_appends_sender (np : NftsProcessor) (lib : Lib) (event : Event)
    (h : Handlers) (timestamp : Nat) (t0 t1 : Bytes) (rest : List Bytes)
    (htopics : event.topics = t0 :: t1 :: rest) :
    ∃ h1, processNFTEventOnSender np lib event h timestamp = some h1 ∧
      h1.accounts = h.accounts ++
        [(np.encode event.address,
          { IsNFTOperation := true, TokenIdentifier := goString t0,
            NFTNonce := bigUint64 (bigFromBytes t1) })] := by
  unfold processNFTEventOnSender
  simp only [htopics, List.getElem?_cons_zero, List.getElem?_cons_succ]
  by_cases hc : goString event.identifier = BuiltInFunctionESDTNFTCreate
  · cases rest with
    | nil => simp [hc]
    | cons r rest1 =>
      have hlen : ¬ (rest1.length + 1 + 1 + 1 < 3) := by omega
      cases hu : np.unmarshal r with
      | none => simp [hc, hu, hlen]
      | some tok =>
        cases hmd : lib.prepareTokenMetaData np.encode tok with
        | none => simp [hc, hu, hlen, hmd]
        | some md => simp [hc, hu, hlen, hmd]
  · simp [hc]

/-- C7 (counterexample): the older processor does not ignore an NFT-operation event whose
nonce topic decodes to 0. On the sample `ESDTNFTTransfer` event with an empty nonce
topic, whose sender is in the self shard, `processEvent` adds the sender's altered
account with `NFTNonce = 0` and returns a token identifier. -/
theorem processEvent_zero_nonce_counterexample :
    goString sampleOldZeroNonceEvent.identifier ∈ sampleOldProcessor.nftOperationsIdentifiers ∧
    sampleOldZeroNonceEvent.topics[1]? = some [] ∧
    bigUint64 (bigFromBytes []) = 0 ∧
    processEvent sampleOldProcessor sampleLib sampleOldZeroNonceEvent {} 5040 =
      some ("TKN-abcd",
        { accounts := [("02", { IsNFTOperation := true, TokenIdentifier := "TKN-abcd",
                                NFTNonce := 0 })] }) := by
  decide

/-- C7 (amended): the older processor has no nonce guard. For an NFT-operation event
whose nonce topic decodes to 0 `processEvent` succeeds, returns
`ComputeTokenIdentifier(topic[0], 0)` and leaves as altered accounts the previous ones,
then the sender's entry `{IsNFTOperation: true, TokenIdentifier: topic[0], NFTNonce: 0}`
when the sender is in the self shard, then the receiver's entry when the identifier is
`ESDTNFTTransfer` and the receiver topic `topic[2]` is in the self shard. -/
theorem processEvent_zero_nonce_processed (computeId : Bytes → Nat) (selfId : Nat)
    (encode : Bytes → String) (unmarshal : Bytes → Option ESDigitalToken) (lib : Lib)
    (event : Event) (h : Handlers) (timestamp : Nat) (t0 t1 : Bytes) (rest : List Bytes)
    (hid : goString event.identifier ∈
      ["ESDTNFTTransfer", "ESDTNFTBurn", "ESDTNFTAddQuantity", "ESDTNFTCreate"])
    (htopics : event.topics = t0 :: t1 :: rest)
    (hzero : bigUint64 (bigFromBytes t1) = 0) :
    ∃ h1,
      processEvent (newNFTsProcessor computeId selfId encode unmarshal) lib event h timestamp =
        some (lib.computeTokenIdentifier (goString t0) 0, h1) ∧
      h1.accounts = h.accounts ++
        (if computeId event.address = selfId then
          [(encode event.address,
            ({ IsNFTOperation := true, TokenIdentifier := goString t0, NFTNonce := 0 } :
              AlteredAccount))]
        else []) ++
        (match rest.head? with
        | some r =>
          if goString event.identifier = "ESDTNFTTransfer" ∧ computeId r = selfId then
            [(encode r,
              ({ IsNFTOperation := true, TokenIdentifier := goString t0, NFTNonce := 0 } :
                AlteredAccount))]
          else []
        | none => []) := by
  have hmem : goString event.identifier ∈
      (newNFTsProcessor computeId selfId encode unmarshal).nftOperationsIdentifiers := hid
  have hstep : ∃ hmid : Handlers,
      (if computeId event.address = selfId then
          processNFTEventOnSender (newNFTsProcessor computeId selfId encode unmarshal) lib event
            h timestamp
        else some h) = some hmid ∧
      hmid.accounts = h.accounts ++
        (if computeId event.address = selfId then
          [(encode event.address,
            ({ IsNFTOperation := true, TokenIdentifier := goString t0, NFTNonce := 0 } :
              AlteredAccount))]
        else []) := by
    by_cases hs : computeId event.address = selfId
    · obtain ⟨h1, hrun, hacc⟩ := processNFTEventOnSender_appends_sender
        (newNFTsProcessor computeId selfId encode unmarshal) lib event h timestamp t0 t1 rest
        htopics
      exact ⟨h1, by simp [hs, hrun], by simp [hs, hacc, hzero, newNFTsProcessor]⟩
    · exact ⟨h, by simp [hs], by simp [hs]⟩
  obtain ⟨hmid, hrun, hacc⟩ := hstep
  unfold processEvent
  simp only [hmem, not_true_eq_false, if_false]
  have hsel : (newNFTsProcessor computeId selfId encode unmarshal).computeId = computeId := rfl
  have hself : (newNFTsProcessor computeId selfId encode unmarshal).selfId = selfId := rfl
  have henc : (newNFTsProcessor computeId selfId encode unmarshal).encode = encode := rfl
  simp only [hsel, hself, henc, hrun, htopics, List.getElem?_cons_zero,
    List.getElem?_cons_succ, hzero]
  cases rest with
  | nil => simp [hacc]
  | cons r rest1 =>
    have hlen : ¬ (rest1.length + 1 + 1 + 1 < 3) := by omega
    by_cases ht : goString event.identifier = "ESDTNFTTransfer"
    · by_cases hr : computeId r = selfId
      · simp [ht, hr, hacc, hlen, BuiltInFunctionESDTNFTTransfer]
      · simp [ht, hr, hacc, hlen, BuiltInFunctionESDTNFTTransfer]
    · simp [ht, hacc, BuiltInFunctionESDTNFTTransfer]

/-- Witness of C7 (amended): the sample event with an empty nonce topic. -/
theorem processEvent_zero_nonce_processed_witness :
    ∃ h1,
      processEvent (newNFTsProcessor (fun _ => 0) 0 hexEncode fun _ => none) sampleLib
        sampleOldZeroNonceEvent {} 5040 = some ("TKN-abcd", h1) ∧
      h1.accounts.length = 1 := by
  obtain ⟨h1, hrun, hacc⟩ :=
    processEvent_zero_nonce_processed (fun _ => 0) 0 hexEncode (fun _ => none) sampleLib
      sampleOldZeroNonceEvent {} 5040 (toBytes "TKN-abcd") [] [] (by decide) (by decide)
      (by decide)
  have hident : sampleLib.computeTokenIdentifier (goString (toBytes "TKN-abcd")) 0
      = "TKN-abcd" := by decide
  refine ⟨h1, ?_, ?_⟩
  · rw [hrun, hident]
  · rw [hacc]; decide

end Logsevents


/-! ## Grouping of normal and reward transactions -/

theorem groupFold_keep_false (pick : String → Option (Bytes → DbTransaction))
    (l : List Bytes) (m : GoMap DbTransaction) : groupFold pick false l m = m := by
  induction l generalizing m with
  | nil => rfl
  | cons h rest ih =>
    unfold groupFold
    cases pick (goString h) with
    | none => exact ih m
    | some b => simpa using ih m

theorem groupFold_sound (pick : String → Option (Bytes → DbTransaction)) (keep : Bool)
    (k : String) (doc : DbTransaction) :
    ∀ (l : List Bytes) (m : GoMap DbTransaction),
      mapGet (groupFold pick keep l m) k = some doc →
      mapGet m k = some doc ∨
        (keep = true ∧ ∃ h, h ∈ l ∧ goString h = k ∧ ∃ b, pick k = some b ∧ doc = b h) := by
  intro l
  induction l with
  | nil =>
    intro m hget
    exact Or.inl hget
  | cons h rest ih =>
    intro m hget
    unfold groupFold at hget
    cases hp : pick (goString h) with
    | none =>
      rw [hp] at hget
      rcases ih m hget with hm | ⟨hk, h1, hmem, hrest⟩
      · exact Or.inl hm
      · exact Or.inr ⟨hk, h1, List.mem_cons_of_mem _ hmem, hrest⟩
    | some b =>
      rw [hp] at hget
      rcases ih _ hget with hm | ⟨hk, h1, hmem, hrest⟩
      · cases keep with
        | false => exact Or.inl (by simpa using hm)
        | true =>
          simp only [if_true] at hm
          by_cases hkey : goString h = k
          · subst hkey
            rw [mapGet_mapSet_same] at hm
            exact Or.inr ⟨rfl, h, List.mem_cons_self _ _, rfl, b, hp, (Option.some.inj hm).symm⟩
          · rw [mapGet_mapSet_other _ _ _ _ hkey] at hm
            exact Or.inl hm
      · exact Or.inr ⟨hk, h1, List.mem_cons_of_mem _ hmem, hrest⟩

theorem groupFold_complete (pick : String → Option (Bytes → DbTransaction)) (k : String) :
    ∀ (l : List Bytes) (m : GoMap DbTransaction),
      (mapGet m k ≠ none ∨ (pick k ≠ none ∧ ∃ h, h ∈ l ∧ goString h = k)) →
      mapGet (groupFold pick true l m) k ≠ none := by
  intro l
  induction l with
  | nil =>
    intro m hyp
    rcases hyp with hm | ⟨_, h, hmem, _⟩
    · exact hm
    · simp at hmem
  | cons h rest ih =>
    intro m hyp
    unfold groupFold
    by_cases hkey : goString h = k
    · subst hkey
      cases hp : pick (goString h) with
      | none =>
        apply ih
        rcases hyp with hm | ⟨hpk, _⟩
        · exact Or.inl hm
        · exact absurd hp hpk
      | some b =>
        apply ih
        left
        simp [mapGet_mapSet_same]
    · have hyp1 : ∀ m1 : GoMap DbTransaction, mapGet m1 k = mapGet m k →
          (mapGet m1 k ≠ none ∨ (pick k ≠ none ∧ ∃ h1, h1 ∈ rest ∧ goString h1 = k)) := by
        intro m1 hm1
        rcases hyp with hm | ⟨hpk, h1, hmem, hh1⟩
        · left; rw [hm1]; exact hm
        · right
          rcases List.mem_cons.mp hmem with heq | hin
          · subst heq; exact absurd hh1 hkey
          · exact ⟨hpk, h1, hin, hh1⟩
      cases hp : pick (goString h) with
      | none => exact ih m (hyp1 m rfl)
      | some b =>
        apply ih
        apply hyp1
        simp [mapGet_mapSet_other _ _ _ _ hkey]

theorem groupNormalTxsLoop_fst (tg : TxGrouper) (mb : MiniBlock) (header : Header)
    (txs : GoMap TransactionHandler) (mbHash : Bytes) (mbStatus : String) :
    ∀ (l : List Bytes) (acc : GoMap DbTransaction × GoMap AlteredAccount),
      (groupNormalTxsLoop tg mb header txs mbHash mbStatus l acc).1 =
        groupFold (pickNormal tg mb header txs mbHash mbStatus)
          (shouldIndex tg mb.ReceiverShardID) l acc.1 := by
  intro l
  induction l with
  | nil => intro acc; rfl
  | cons h rest ih =>
    intro acc
    obtain ⟨t, a⟩ := acc
    cases hget : mapGet txs (goString h) with
    | none =>
      have hp : pickNormal tg mb header txs mbHash mbStatus (goString h) = none := by
        simp [pickNormal, hget]
      unfold groupNormalTxsLoop groupFold
      simp only [hget, hp]
      exact ih _
    | some handler =>
      cases handler with
      | tx tx1 =>
        have hp : pickNormal tg mb header txs mbHash mbStatus (goString h) =
            some (fun txHash =>
              buildTransaction tg.txBuilder tx1 txHash mbHash mb header mbStatus) := by
          simp only [pickNormal, hget]
        unfold groupNormalTxsLoop groupFold
        simp only [hget, hp]
        by_cases hs : shouldIndex tg mb.ReceiverShardID = true
        · rw [if_pos hs, if_pos hs]; exact ih _
        · rw [if_neg hs, if_neg hs]; exact ih _
      | reward r =>
        have hp : pickNormal tg mb header txs mbHash mbStatus (goString h) = none := by
          simp [pickNormal, hget]
        unfold groupNormalTxsLoop groupFold
        simp only [hget, hp]
        exact ih _
      | scr sc =>
        have hp : pickNormal tg mb header txs mbHash mbStatus (goString h) = none := by
          simp [pickNormal, hget]
        unfold groupNormalTxsLoop groupFold
        simp only [hget, hp]
        exact ih _
      | receipt rc =>
        have hp : pickNormal tg mb header txs mbHash mbStatus (goString h) = none := by
          simp [pickNormal, hget]
        unfold groupNormalTxsLoop groupFold
        simp only [hget, hp]
        exact ih _

theorem groupRewardsTxsLoop_fst (tg : TxGrouper) (mb : MiniBlock) (header : Header)
    (txs : GoMap TransactionHandler) (mbHash : Bytes) (mbStatus : String) :
    ∀ (l : List Bytes) (acc : GoMap DbTransaction × GoMap AlteredAccount),
      (groupRewardsTxsLoop tg mb header txs mbHash mbStatus l acc).1 =
        groupFold (pickReward tg mb header txs mbHash mbStatus)
          (shouldIndex tg mb.ReceiverShardID) l acc.1 := by
  intro l
  induction l with
  | nil => intro acc; rfl
  | cons h rest ih =>
    intro acc
    obtain ⟨t, a⟩ := acc
    cases hget : mapGet txs (goString h) with
    | none =>
      have hp : pickReward tg mb header txs mbHash mbStatus (goString h) = none := by
        simp [pickReward, hget]
      unfold groupRewardsTxsLoop groupFold
      simp only [hget, hp]
      exact ih _
    | some handler =>
      cases handler with
      | reward r =>
        have hp : pickReward tg mb header txs mbHash mbStatus (goString h) =
            some (fun txHash =>
              buildRewardTransaction tg.txBuilder r txHash mbHash mb header mbStatus) := by
          simp only [pickReward, hget]
        unfold groupRewardsTxsLoop groupFold
        simp only [hget, hp]
        by_cases hs : shouldIndex tg mb.ReceiverShardID = true
        · rw [if_pos hs, if_pos hs]; exact ih _
        · rw [if_neg hs, if_neg hs]; exact ih _
      | tx tx1 =>
        have hp : pickReward tg mb header txs mbHash mbStatus (goString h) = none := by
          simp [pickReward, hget]
        unfold groupRewardsTxsLoop groupFold
        simp only [hget, hp]
        exact ih _
      | scr sc =>
        have hp : pickReward tg mb header txs mbHash mbStatus (goString h) = none := by
          simp [pickReward, hget]
        unfold groupRewardsTxsLoop groupFold
        simp only [hget, hp]
        exact ih _
      | receipt rc =>
        have hp : pickReward tg mb header txs mbHash mbStatus (goString h) = none := by
          simp [pickReward, hget]
        unfold groupRewardsTxsLoop groupFold
        simp only [hget, hp]
        exact ih _

theorem pickNormal_ne_none (tg : TxGrouper) (mb : MiniBlock) (header : Header)
    (txs : GoMap TransactionHandler) (mbHash : Bytes) (mbStatus : String) (k : String) :
    pickNormal tg mb header txs mbHash mbStatus k ≠ none ↔
      ∃ tx, mapGet txs k = some (TransactionHandler.tx tx) := by
  unfold pickNormal
  cases mapGet txs k with
  | none => simp
  | some handler => cases handler <;> simp

theorem pickReward_ne_none (tg : TxGrouper) (mb : MiniBlock) (header : Header)
    (txs : GoMap TransactionHandler) (mbHash : Bytes) (mbStatus : String) (k : String) :
    pickReward tg mb header txs mbHash mbStatus k ≠ none ↔
      ∃ r, mapGet txs k = some (TransactionHandler.reward r) := by
  unfold pickReward
  cases mapGet txs k with
  | none => simp
  | some handler => cases handler <;> simp

theorem pickNormal_status (tg : TxGrouper) (mb : MiniBlock) (header : Header)
    (txs : GoMap TransactionHandler) (mbHash : Bytes) (mbStatus : String) (k : String)
    (b : Bytes → DbTransaction) (h : Bytes)
    (hp : pickNormal tg mb header txs mbHash mbStatus k = some b) :
    (b h).Status = mbStatus := by
  unfold pickNormal at hp
  cases hget : mapGet txs k with
  | none => simp [hget] at hp
  | some handler =>
    cases handler <;> simp [hget] at hp
    subst hp
    rfl

theorem pickReward_status (tg : TxGrouper) (mb : MiniBlock) (header : Header)
    (txs : GoMap TransactionHandler) (mbHash : Bytes) (mbStatus : String) (k : String)
    (b : Bytes → DbTransaction) (h : Bytes)
    (hp : pickReward tg mb header txs mbHash mbStatus k = some b) :
    (b h).Status = mbStatus := by
  unfold pickReward at hp
  cases hget : mapGet txs k with
  | none => simp [hget] at hp
  | some handler =>
    cases handler <;> simp [hget] at hp
    subst hp
    rfl


theorem shouldIndex_iff (tg : TxGrouper) (destinationShardID : Nat) :
    shouldIndex tg destinationShardID = true ↔
      (tg.isInImportMode = false ∨ tg.selfShardID = destinationShardID) := by
  unfold shouldIndex
  cases tg.isInImportMode <;> simp

/-- C18: for a miniblock whose hash can be computed, `groupInvalidTxs` returns a document
under every hash of the miniblock that the pool maps to a regular transaction, whatever
the import mode and the self shard are; `shouldIndex` holds exactly when the grouper is
not in import mode or the self shard is the receiver shard; when it holds
`groupNormalTxs` returns a document under every such hash, and when it does not
`groupNormalTxs` returns the empty map. -/
theorem groupInvalid_always_groupNormal_shouldIndex (tg : TxGrouper) (mb : MiniBlock)
    (header : Header) (txs : GoMap TransactionHandler)
    (alteredAddresses : GoMap AlteredAccount) (mbHash : Bytes)
    (hHash : tg.calculateHash mb = some mbHash) :
    (∀ txHash tx, txHash ∈ mb.TxHashes →
      mapGet txs (goString txHash) = some (TransactionHandler.tx tx) →
      ∃ transactions doc,
        (groupInvalidTxs tg mb header txs alteredAddresses).1 = some transactions ∧
        mapGet transactions (goString txHash) = some doc) ∧
    (shouldIndex tg mb.ReceiverShardID = true ↔
      (tg.isInImportMode = false ∨ tg.selfShardID = mb.ReceiverShardID)) ∧
    (shouldIndex tg mb.ReceiverShardID = true →
      ∀ txHash tx, txHash ∈ mb.TxHashes →
        mapGet txs (goString txHash) = some (TransactionHandler.tx tx) →
        ∃ transactions doc,
          (groupNormalTxs tg mb header txs alteredAddresses).1 = some transactions ∧
          mapGet transactions (goString txHash) = some doc) ∧
    (shouldIndex tg mb.ReceiverShardID = false →
      (groupNormalTxs tg mb header txs alteredAddresses).1 = some []) := by
  refine ⟨?_, shouldIndex_iff tg mb.ReceiverShardID, ?_, ?_⟩
  · intro txHash tx hmem hpool
    obtain ⟨doc, hdoc, _⟩ :=
      groupInvalidTxsLoop_get tg mb header txs mbHash (goString txHash) tx hpool
        mb.TxHashes ([], alteredAddresses) (Or.inr ⟨txHash, hmem, rfl⟩)
    exact ⟨_, doc, by simp [groupInvalidTxs, hHash], hdoc⟩
  · intro hs txHash tx hmem hpool
    have hne := groupFold_complete
      (pickNormal tg mb header txs mbHash (computeStatus tg.selfShardID mb.ReceiverShardID))
      (goString txHash) mb.TxHashes []
      (Or.inr ⟨(pickNormal_ne_none _ _ _ _ _ _ _).mpr ⟨tx, hpool⟩, txHash, hmem, rfl⟩)
    obtain ⟨doc, hdoc⟩ := Option.ne_none_iff_exists'.mp hne
    refine ⟨groupFold
      (pickNormal tg mb header txs mbHash (computeStatus tg.selfShardID mb.ReceiverShardID))
      true mb.TxHashes [], doc, ?_, hdoc⟩
    simp only [groupNormalTxs, hHash]
    rw [groupNormalTxsLoop_fst, hs]
  · intro hs
    simp only [groupNormalTxs, hHash]
    rw [groupNormalTxsLoop_fst, hs, groupFold_keep_false]

/-- Witness of C18: the sample grouper in import mode on shard 0 and the sample miniblock
sent to shard 1: the invalid grouping keeps the transaction, the normal grouping is
empty. -/
theorem groupInvalid_always_groupNormal_shouldIndex_witness :
    (groupNormalTxs sampleGrouper sampleMiniBlock ⟨3, 4⟩ samplePool []).1 = some [] :=
  (groupInvalid_always_groupNormal_shouldIndex sampleGrouper sampleMiniBlock ⟨3, 4⟩
    samplePool [] [7] rfl).2.2.2 (by decide)

/-- C19: when the grouper is not in import mode and the miniblock hash can be computed,
the keys of the map returned by `groupNormalTxs` are exactly the hashes of the miniblock
that the pool maps to a handler of the regular-transaction shape (hashes missing from the
pool and handlers of another shape are skipped, the call still returns its map), and
every returned document has the status `computeStatus(selfShardID, ReceiverShardID)`;
`groupRewardsTxs` does the same with the reward-shaped handlers. -/
theorem groupNormal_groupRewards_keys (tg : TxGrouper) (mb : MiniBlock) (header : Header)
    (txs : GoMap TransactionHandler) (alteredAddresses : GoMap AlteredAccount)
    (mbHash : Bytes) (himport : tg.isInImportMode = false)
    (hHash : tg.calculateHash mb = some mbHash) :
    (∃ transactions,
      (groupNormalTxs tg mb header txs alteredAddresses).1 = some transactions ∧
      (∀ k, mapGet transactions k ≠ none ↔
        ∃ txHash, txHash ∈ mb.TxHashes ∧ goString txHash = k ∧
          ∃ tx, mapGet txs k = some (TransactionHandler.tx tx)) ∧
      (∀ k doc, mapGet transactions k = some doc →
        doc.Status = computeStatus tg.selfShardID mb.ReceiverShardID)) ∧
    (∃ rewardsTxs,
      (groupRewardsTxs tg mb header txs alteredAddresses).1 = some rewardsTxs ∧
      (∀ k, mapGet rewardsTxs k ≠ none ↔
        ∃ txHash, txHash ∈ mb.TxHashes ∧ goString txHash = k ∧
          ∃ rtx, mapGet txs k = some (TransactionHandler.reward rtx)) ∧
      (∀ k doc, mapGet rewardsTxs k = some doc →
        doc.Status = computeStatus tg.selfShardID mb.ReceiverShardID)) := by
  have hs : shouldIndex tg mb.ReceiverShardID = true :=
    (shouldIndex_iff tg mb.ReceiverShardID).mpr (Or.inl himport)
  have hnormal : (groupNormalTxs tg mb header txs alteredAddresses).1 =
      some (groupFold
        (pickNormal tg mb header txs mbHash (computeStatus tg.selfShardID mb.ReceiverShardID))
        true mb.TxHashes []) := by
    simp only [groupNormalTxs, hHash]
    rw [groupNormalTxsLoop_fst, hs]
  have hrewards : (groupRewardsTxs tg mb header txs alteredAddresses).1 =
      some (groupFold
        (pickReward tg mb header txs mbHash (computeStatus tg.selfShardID mb.ReceiverShardID))
        true mb.TxHashes []) := by
    simp only [groupRewardsTxs, hHash]
    rw [groupRewardsTxsLoop_fst, hs]
  constructor
  · refine ⟨_, hnormal, ?_, ?_⟩
    · intro k
      constructor
      · intro hne
        obtain ⟨doc, hdoc⟩ := Option.ne_none_iff_exists'.mp hne
        rcases groupFold_sound _ _ _ _ _ _ hdoc with hm | ⟨_, h, hmem, hk, b, hb, _⟩
        · simp [mapGet] at hm
        · exact ⟨h, hmem, hk,
            (pickNormal_ne_none tg mb header txs mbHash _ k).mp (by rw [hb]; simp)⟩
      · rintro ⟨h, hmem, hk, htx⟩
        exact groupFold_complete _ _ _ _
          (Or.inr ⟨(pickNormal_ne_none _ _ _ _ _ _ _).mpr htx, h, hmem, hk⟩)
    · intro k doc hdoc
      rcases groupFold_sound _ _ _ _ _ _ hdoc with hm | ⟨_, h, _, _, b, hb, hd⟩
      · simp [mapGet] at hm
      · rw [hd]
        exact pickNormal_status _ _ _ _ _ _ _ _ _ hb
  · refine ⟨_, hrewards, ?_, ?_⟩
    · intro k
      constructor
      · intro hne
        obtain ⟨doc, hdoc⟩ := Option.ne_none_iff_exists'.mp hne
        rcases groupFold_sound _ _ _ _ _ _ hdoc with hm | ⟨_, h, hmem, hk, b, hb, _⟩
        · simp [mapGet] at hm
        · exact ⟨h, hmem, hk,
            (pickReward_ne_none tg mb header txs mbHash _ k).mp (by rw [hb]; simp)⟩
      · rintro ⟨h, hmem, hk, htx⟩
        exact groupFold_complete _ _ _ _
          (Or.inr ⟨(pickReward_ne_none _ _ _ _ _ _ _).mpr htx, h, hmem, hk⟩)
    · intro k doc hdoc
      rcases groupFold_sound _ _ _ _ _ _ hdoc with hm | ⟨_, h, _, _, b, hb, hd⟩
      · simp [mapGet] at hm
      · rw [hd]
        exact pickReward_status _ _ _ _ _ _ _ _ _ hb

/-- Witness of C19: the live sample grouper on a miniblock whose three hashes map to a
regular transaction, a reward and nothing. -/
theorem groupNormal_groupRewards_keys_witness :
    ∃ transactions,
      (groupNormalTxs sampleGrouperLive sampleMiniBlockMixed ⟨3, 4⟩ samplePoolMixed []).1
        = some transactions ∧
      mapGet transactions (goString [9]) ≠ none ∧
      mapGet transactions (goString [8]) = none ∧
      mapGet transactions (goString [6]) = none := by
  obtain ⟨⟨transactions, hrun, hkeys, _⟩, _⟩ :=
    groupNormal_groupRewards_keys sampleGrouperLive sampleMiniBlockMixed ⟨3, 4⟩
      samplePoolMixed [] [7] rfl rfl
  refine ⟨transactions, hrun, ?_, ?_, ?_⟩
  · exact (hkeys _).mpr ⟨[9], by decide, rfl, sampleTx, by decide⟩
  · by_contra hne
    obtain ⟨_, _, _, tx, htx⟩ := (hkeys _).mp hne
    have hpool : mapGet samplePoolMixed (goString [8]) =
        some (TransactionHandler.reward { Round := 3, Value := 10, RcvAddr := [4] }) := by
      decide
    rw [hpool] at htx
    cases htx
  · by_contra hne
    obtain ⟨_, _, _, tx, htx⟩ := (hkeys _).mp hne
    have hpool : mapGet samplePoolMixed (goString [6]) = none := by decide
    rw [hpool] at htx
    cases htx

/-! ## Receivers of smart-contract results -/

theorem addScrs_cons (decode : String → Bytes) (computeId : Bytes → Nat) (selfId : Nat)
    (m : GoMap AlteredAccount) (scr : ScResult) (rest : List ScResult) :
    addScrsReceiverToAlteredAccounts decode computeId selfId m (scr :: rest) =
      addScrsReceiverToAlteredAccounts decode computeId selfId
        (if scrAltersReceiver decode computeId selfId scr = true then
          mapSet m scr.Receiver (scrReceiverEntry scr)
        else m) rest := by
  rw [addScrsReceiverToAlteredAccounts]
  unfold scrAltersReceiver scrReceiverEntry
  by_cases h1 : computeId (decode scr.Receiver) = selfId
  · by_cases h2 : scr.Value = "" <;> by_cases h3 : scr.Value = "0" <;>
      by_cases h4 : scr.EsdtValue = "" <;> by_cases h5 : scr.EsdtValue = "0" <;>
      simp [h1, h2, h3, h4, h5]
  · simp [h1]

theorem addScrs_append (decode : String → Bytes) (computeId : Bytes → Nat) (selfId : Nat)
    (l1 l2 : List ScResult) :
    ∀ m : GoMap AlteredAccount,
      addScrsReceiverToAlteredAccounts decode computeId selfId m (l1 ++ l2) =
        addScrsReceiverToAlteredAccounts decode computeId selfId
          (addScrsReceiverToAlteredAccounts decode computeId selfId m l1) l2 := by
  induction l1 with
  | nil => intro m; simp [addScrsReceiverToAlteredAccounts]
  | cons scr rest ih =>
    intro m
    rw [List.cons_append, addScrs_cons, addScrs_cons, ih]

theorem addScrs_frame (decode : String → Bytes) (computeId : Bytes → Nat) (selfId : Nat)
    (k : String) (scrs : List ScResult) :
    ∀ m : GoMap AlteredAccount,
      (∀ scr, scr ∈ scrs → scrAltersReceiver decode computeId selfId scr = true →
        scr.Receiver ≠ k) →
      mapGet (addScrsReceiverToAlteredAccounts decode computeId selfId m scrs) k =
        mapGet m k := by
  induction scrs with
  | nil => intro m _; simp [addScrsReceiverToAlteredAccounts]
  | cons scr rest ih =>
    intro m hno
    rw [addScrs_cons, ih _ (fun s hs => hno s (List.mem_cons_of_mem _ hs))]
    by_cases ha : scrAltersReceiver decode computeId selfId scr = true
    · rw [if_pos ha]
      exact mapGet_mapSet_other _ _ _ _ (hno scr (List.mem_cons_self _ _) ha)
    · rw [if_neg ha]

theorem addScrs_keeps (decode : String → Bytes) (computeId : Bytes → Nat) (selfId : Nat)
    (k : String) (scrs : List ScResult) :
    ∀ m : GoMap AlteredAccount, mapGet m k ≠ none →
      mapGet (addScrsReceiverToAlteredAccounts decode computeId selfId m scrs) k ≠ none := by
  induction scrs with
  | nil => intro m hm; simpa [addScrsReceiverToAlteredAccounts] using hm
  | cons scr rest ih =>
    intro m hm
    rw [addScrs_cons]
    apply ih
    by_cases ha : scrAltersReceiver decode computeId selfId scr = true
    · rw [if_pos ha]
      by_cases hk : scr.Receiver = k
      · subst hk
        simp [mapGet_mapSet_same]
      · rw [mapGet_mapSet_other _ _ _ _ hk]
        exact hm
    · rw [if_neg ha]
      exact hm

theorem addScrs_holds (decode : String → Bytes) (computeId : Bytes → Nat) (selfId : Nat)
    (scr : ScResult) (scrs : List ScResult) :
    ∀ m : GoMap AlteredAccount, scr ∈ scrs →
      scrAltersReceiver decode computeId selfId scr = true →
      mapGet (addScrsReceiverToAlteredAccounts decode computeId selfId m scrs) scr.Receiver
        ≠ none := by
  induction scrs with
  | nil => intro m hmem; simp at hmem
  | cons s0 rest ih =>
    intro m hmem ha
    rw [addScrs_cons]
    rcases List.mem_cons.mp hmem with heq | hin
    · subst heq
      apply addScrs_keeps
      rw [if_pos ha]
      simp [mapGet_mapSet_same]
    · exact ih _ hin ha

/-- C17 (counterexample): with two altering results to the same receiver, the entry left
for that receiver is the one of the second result, so the first result, which moves a
token, does not find its own `IsESDTOperation` and `TokenIdentifier` in the map. -/
theorem addScrs_entry_counterexample :
    (∀ scr, scr ∈ sampleScrs →
      scrAltersReceiver (fun _ => []) (fun _ => 0) 0 scr = true) ∧
    sampleScrs.head? =
      some { Receiver := "r", Value := "0", EsdtTokenIdentifier := "TKN-abcd",
             EsdtValue := "5" } ∧
    mapGet (addScrsReceiverToAlteredAccounts (fun _ => []) (fun _ => 0) 0 [] sampleScrs) "r" =
      some { IsESDTOperation := false, TokenIdentifier := "" } ∧
    mapGet (addScrsReceiverToAlteredAccounts (fun _ => []) (fun _ => 0) 0 [] sampleScrs) "r" ≠
      some { IsESDTOperation := true, TokenIdentifier := "TKN-abcd" } := by
  decide

/-- C17 (amended): after `addScrsReceiverToAlteredAccounts` the map holds an entry for
the receiver of every result whose receiver is in the self shard and whose value or ESDT
value is neither empty nor `"0"`; the entry of a receiver is the one of the last such
result for that receiver, with `IsESDTOperation = (EsdtTokenIdentifier != "" and
EsdtValue != "")` and `TokenIdentifier = EsdtTokenIdentifier`; a key that is not the
receiver of such a result keeps its previous value, and no key is removed. -/
theorem addScrs_last_entry (decode : String → Bytes) (computeId : Bytes → Nat) (selfId : Nat)
    (alteredAddress : GoMap AlteredAccount) (scrs : List ScResult) :
    (∀ scr, scr ∈ scrs → scrAltersReceiver decode computeId selfId scr = true →
      mapGet (addScrsReceiverToAlteredAccounts decode computeId selfId alteredAddress scrs)
        scr.Receiver ≠ none) ∧
    (∀ before scr after, scrs = before ++ scr :: after →
      scrAltersReceiver decode computeId selfId scr = true →
      (∀ later, later ∈ after → scrAltersReceiver decode computeId selfId later = true →
        later.Receiver ≠ scr.Receiver) →
      mapGet (addScrsReceiverToAlteredAccounts decode computeId selfId alteredAddress scrs)
        scr.Receiver =
        some { IsESDTOperation :=
                 decide (scr.EsdtTokenIdentifier ≠ "") && decide (scr.EsdtValue ≠ "")
               TokenIdentifier := scr.EsdtTokenIdentifier }) ∧
    (∀ k, (∀ scr, scr ∈ scrs → scrAltersReceiver decode computeId selfId scr = true →
        scr.Receiver ≠ k) →
      mapGet (addScrsReceiverToAlteredAccounts decode computeId selfId alteredAddress scrs) k =
        mapGet alteredAddress k) ∧
    (∀ k, mapGet alteredAddress k ≠ none →
      mapGet (addScrsReceiverToAlteredAccounts decode computeId selfId alteredAddress scrs) k
        ≠ none) ∧
    (∀ scr, scrAltersReceiver decode computeId selfId scr = true ↔
      (computeId (decode scr.Receiver) = selfId ∧
        ((scr.Value ≠ "" ∧ scr.Value ≠ "0") ∨ (scr.EsdtValue ≠ "" ∧ scr.EsdtValue ≠ "0")))) := by
  refine ⟨fun scr hmem ha => addScrs_holds decode computeId selfId scr scrs _ hmem ha, ?_,
    fun k hno => addScrs_frame decode computeId selfId k scrs _ hno,
    fun k hk => addScrs_keeps decode computeId selfId k scrs _ hk, ?_⟩
  · intro before scr after hsplit ha hlater
    subst hsplit
    rw [addScrs_append, addScrs_cons, if_pos ha,
      addScrs_frame decode computeId selfId scr.Receiver after _ hlater, mapGet_mapSet_same]
    rfl
  · intro scr
    unfold scrAltersReceiver
    by_cases h1 : computeId (decode scr.Receiver) = selfId
    · by_cases h2 : scr.Value = "" <;> by_cases h3 : scr.Value = "0" <;>
        by_cases h4 : scr.EsdtValue = "" <;> by_cases h5 : scr.EsdtValue = "0" <;>
        simp [h1, h2, h3, h4, h5]
    · simp [h1]

/-! ## NFT events: tokens and tokens supply -/

namespace Elasticproc

theorem processNFTEventOnSender_eq (np : NftsProcessor) (lib : Lib) (event : Event)
    (h : Handlers) (timestamp : Nat) (t0 t1 : Bytes) (rest : List Bytes)
    (htopics : event.topics = t0 :: t1 :: rest) :
    processNFTEventOnSender np lib event h timestamp =
      some
        { accounts := h.accounts ++
            [(np.encode event.address,
              { IsNFTOperation := true, TokenIdentifier := goString t0,
                NFTNonce := bigUint64 (bigFromBytes t1),
                IsNFTCreate := decide (goString event.identifier = "ESDTNFTCreate") })]
          tokens := h.tokens ++
            (if goString event.identifier = "ESDTNFTCreate" then
              match event.topics[3]? with
              | some esdtTokenBytes =>
                match np.unmarshal esdtTokenBytes with
                | some esdtToken =>
                  [{ Token := goString t0
                     Identifier :=
                       lib.computeTokenIdentifier (goString t0) (bigUint64 (bigFromBytes t1))
                     Timestamp := toDuration timestamp
                     Data := lib.prepareTokenMetaData np.encode esdtToken
                     Nonce := bigUint64 (bigFromBytes t1) }]
                | none => []
              | none => []
            else [])
          tokensSupply := h.tokensSupply ++
            (if goString event.identifier = "ESDTNFTBurn" ∨
                goString event.identifier = "ESDTWipe" then
              [{ Token := goString t0
                 Identifier :=
                   lib.computeTokenIdentifier (goString t0) (bigUint64 (bigFromBytes t1))
                 Timestamp := toDuration timestamp
                 Nonce := bigUint64 (bigFromBytes t1) }]
            else [])
          tagsCount := h.tagsCount } := by
  unfold processNFTEventOnSender
  simp only [htopics, List.getElem?_cons_zero, List.getElem?_cons_succ]
  by_cases hc : goString event.identifier = "ESDTNFTCreate"
  · have hlen3 : ∀ r (rest1 : List Bytes),
        ¬ ((t0 :: t1 :: r :: rest1).length < 3) := by
      intro r rest1; simp
    rcases rest with _ | ⟨t2, _ | ⟨r, rest1⟩⟩
    · simp [hc, numTopicsWithReceiverAddress, BuiltInFunctionESDTNFTCreate,
        BuiltInFunctionESDTNFTBurn, BuiltInFunctionESDTWipe]
    · simp [hc, numTopicsWithReceiverAddress, BuiltInFunctionESDTNFTCreate,
        BuiltInFunctionESDTNFTBurn, BuiltInFunctionESDTWipe]
    · have hlen : ¬ (rest1.length + 1 + 1 + 1 + 1 < 4) := by omega
      cases hu : np.unmarshal r with
      | none =>
        simp [hc, hu, hlen, numTopicsWithReceiverAddress, BuiltInFunctionESDTNFTCreate,
          BuiltInFunctionESDTNFTBurn, BuiltInFunctionESDTWipe]
      | some tok =>
        simp [hc, hu, hlen, numTopicsWithReceiverAddress, BuiltInFunctionESDTNFTCreate,
          BuiltInFunctionESDTNFTBurn, BuiltInFunctionESDTWipe]
  · by_cases hb : goString event.identifier = "ESDTNFTBurn" ∨
        goString event.identifier = "ESDTWipe"
    · simp [hb, hc, BuiltInFunctionESDTNFTCreate, BuiltInFunctionESDTNFTBurn,
        BuiltInFunctionESDTWipe]
    · simp [hb, hc, BuiltInFunctionESDTNFTCreate, BuiltInFunctionESDTNFTBurn,
        BuiltInFunctionESDTWipe]

theorem processEvent_of_step (encode : Bytes → String)
    (unmarshal : Bytes → Option ESDigitalToken) (lib : Lib) (args : ArgsProcessEvent)
    (h hmid : Handlers) (t0 t1 t2 : Bytes) (rest : List Bytes)
    (hid : goString args.event.identifier ∈
      ["ESDTNFTTransfer", "ESDTNFTBurn", "ESDTNFTAddQuantity", "ESDTNFTCreate",
        "MultiESDTNFTTransfer", "ESDTWipe"])
    (htopics : args.event.topics = t0 :: t1 :: t2 :: rest)
    (hnonce : bigUint64 (bigFromBytes t1) ≠ 0)
    (hrun : (if lib.computeShardID args.event.address args.numOfShards = args.selfShardID then
          processNFTEventOnSender (newNFTsProcessor encode unmarshal) lib args.event h
            args.timestamp
        else some h) = some hmid) :
    processEvent (newNFTsProcessor encode unmarshal) lib args h =
      some
        (match rest.head? with
        | none =>
          ({ identifier := lib.computeTokenIdentifier (goString t0) (bigUint64 (bigFromBytes t1)),
             value := Nat.repr (bigFromBytes t2), processed := true }, hmid)
        | some r =>
          if goString args.event.identifier = "ESDTNFTTransfer" ∨
              goString args.event.identifier = "MultiESDTNFTTransfer" then
            ({ identifier :=
                 lib.computeTokenIdentifier (goString t0) (bigUint64 (bigFromBytes t1)),
               value := Nat.repr (bigFromBytes t2), processed := true,
               receiver := encode r,
               receiverShardID := lib.computeShardID r args.numOfShards },
              if lib.computeShardID r args.numOfShards = args.selfShardID then
                { hmid with accounts := hmid.accounts ++
                    [(encode r,
                      { IsNFTOperation := true, TokenIdentifier := goString t0,
                        NFTNonce := bigUint64 (bigFromBytes t1) })] }
              else hmid)
          else
            ({ identifier :=
                 lib.computeTokenIdentifier (goString t0) (bigUint64 (bigFromBytes t1)),
               value := Nat.repr (bigFromBytes t2), processed := true }, hmid)) := by
  have hmem : goString args.event.identifier ∈
      (newNFTsProcessor encode unmarshal).nftOperationsIdentifiers := hid
  unfold processEvent
  simp only [hmem, not_true_eq_false, if_false, htopics, List.getElem?_cons_zero,
    List.getElem?_cons_succ, hnonce]
  rw [hrun]
  simp only [shouldAddReceiverData_eq, htopics]
  cases rest with
  | nil => simp
  | cons r rest1 =>
    by_cases ht : goString args.event.identifier = "ESDTNFTTransfer" ∨
        goString args.event.identifier = "MultiESDTNFTTransfer"
    · by_cases hr : lib.computeShardID r args.numOfShards = args.selfShardID
      · simp [ht, hr, newNFTsProcessor]
      · simp [ht, hr, newNFTsProcessor]
    · simp [ht]

theorem processEvent_frame (encode : Bytes → String)
    (unmarshal : Bytes → Option ESDigitalToken) (lib : Lib) (args : ArgsProcessEvent)
    (h hmid : Handlers) (t0 t1 t2 : Bytes) (rest : List Bytes)
    (hid : goString args.event.identifier ∈
      ["ESDTNFTTransfer", "ESDTNFTBurn", "ESDTNFTAddQuantity", "ESDTNFTCreate",
        "MultiESDTNFTTransfer", "ESDTWipe"])
    (htopics : args.event.topics = t0 :: t1 :: t2 :: rest)
    (hnonce : bigUint64 (bigFromBytes t1) ≠ 0)
    (hrun : (if lib.computeShardID args.event.address args.numOfShards = args.selfShardID then
          processNFTEventOnSender (newNFTsProcessor encode unmarshal) lib args.event h
            args.timestamp
        else some h) = some hmid) :
    ∃ out h1,
      processEvent (newNFTsProcessor encode unmarshal) lib args h = some (out, h1) ∧
      h1.tokens = hmid.tokens ∧ h1.tokensSupply = hmid.tokensSupply ∧
      h1.tagsCount = hmid.tagsCount ∧
      (¬ (goString args.event.identifier = "ESDTNFTTransfer" ∨
          goString args.event.identifier = "MultiESDTNFTTransfer") →
        h1.accounts = hmid.accounts) := by
  have hev := processEvent_of_step encode unmarshal lib args h hmid t0 t1 t2 rest hid htopics
    hnonce hrun
  cases hrest : rest.head? with
  | none =>
    simp only [hrest] at hev
    exact ⟨_, _, hev, rfl, rfl, rfl, fun _ => rfl⟩
  | some r =>
    by_cases ht : goString args.event.identifier = "ESDTNFTTransfer" ∨
        goString args.event.identifier = "MultiESDTNFTTransfer"
    · by_cases hr : lib.computeShardID r args.numOfShards = args.selfShardID
      · simp only [hrest, ht, hr, if_true] at hev
        exact ⟨_, _, hev, rfl, rfl, rfl, fun hn => absurd ht hn⟩
      · simp only [hrest, ht, hr, if_true, if_false] at hev
        exact ⟨_, _, hev, rfl, rfl, rfl, fun _ => rfl⟩
    · simp only [hrest, ht, if_false] at hev
      exact ⟨_, _, hev, rfl, rfl, rfl, fun _ => rfl⟩

theorem toDuration_of_lt (x : Nat) (hx : x < 2 ^ 63) : toDuration x = (x : Int) := by
  have h64 : x % 2 ^ 64 = x := Nat.mod_eq_of_lt (by omega)
  unfold toDuration
  rw [h64, if_pos hx]

/-- C11: for an NFT event with nonzero nonce, `processNFTEventOnSender` appends one entry
to the tokens-supply list exactly when the identifier is `ESDTNFTBurn` or `ESDTWipe`, so
`processEvent` appends it exactly when moreover the sender is in the self shard; the
entry has `Token = topic[0]`, `Identifier = ComputeTokenIdentifier(topic[0], nonce)`,
`Nonce = nonce` and `Timestamp` the block timestamp (as a `Duration`, the timestamp
itself below `2^63`). Transfer, add-quantity and create events leave the list as it
was. -/
theorem processEvent_tokens_supply (encode : Bytes → String)
    (unmarshal : Bytes → Option ESDigitalToken) (lib : Lib) (args : ArgsProcessEvent)
    (h : Handlers) (t0 t1 t2 : Bytes) (rest : List Bytes)
    (hid : goString args.event.identifier ∈
      ["ESDTNFTTransfer", "ESDTNFTBurn", "ESDTNFTAddQuantity", "ESDTNFTCreate",
        "MultiESDTNFTTransfer", "ESDTWipe"])
    (htopics : args.event.topics = t0 :: t1 :: t2 :: rest)
    (hnonce : bigUint64 (bigFromBytes t1) ≠ 0) :
    (∃ hs,
      processNFTEventOnSender (newNFTsProcessor encode unmarshal) lib args.event h
        args.timestamp = some hs ∧
      hs.tokensSupply = h.tokensSupply ++
        (if goString args.event.identifier = "ESDTNFTBurn" ∨
            goString args.event.identifier = "ESDTWipe" then
          [{ Token := goString t0
             Identifier := lib.computeTokenIdentifier (goString t0) (bigUint64 (bigFromBytes t1))
             Timestamp := toDuration args.timestamp
             Nonce := bigUint64 (bigFromBytes t1) }]
        else [])) ∧
    (∃ out h1,
      processEvent (newNFTsProcessor encode unmarshal) lib args h = some (out, h1) ∧
      h1.tokensSupply = h.tokensSupply ++
        (if lib.computeShardID args.event.address args.numOfShards = args.selfShardID ∧
            (goString args.event.identifier = "ESDTNFTBurn" ∨
              goString args.event.identifier = "ESDTWipe") then
          [{ Token := goString t0
             Identifier := lib.computeTokenIdentifier (goString t0) (bigUint64 (bigFromBytes t1))
             Timestamp := toDuration args.timestamp
             Nonce := bigUint64 (bigFromBytes t1) }]
        else []) ∧
      (goString args.event.identifier ∈
          ["ESDTNFTTransfer", "MultiESDTNFTTransfer", "ESDTNFTAddQuantity", "ESDTNFTCreate"] →
        h1.tokensSupply = h.tokensSupply)) ∧
    (args.timestamp < 2 ^ 63 → toDuration args.timestamp = (args.timestamp : Int)) := by
  have hsender := processNFTEventOnSender_eq (newNFTsProcessor encode unmarshal) lib args.event
    h args.timestamp t0 t1 (t2 :: rest) htopics
  refine ⟨⟨_, hsender, rfl⟩, ?_, toDuration_of_lt args.timestamp⟩
  have hnot : goString args.event.identifier ∈
      ["ESDTNFTTransfer", "MultiESDTNFTTransfer", "ESDTNFTAddQuantity", "ESDTNFTCreate"] →
      ¬ (goString args.event.identifier = "ESDTNFTBurn" ∨
        goString args.event.identifier = "ESDTWipe") := by
    intro hin hb
    rcases hb with hb | hb <;> rw [hb] at hin <;> revert hin <;> decide
  by_cases hs : lib.computeShardID args.event.address args.numOfShards = args.selfShardID
  · obtain ⟨out, h1, hrun, _, hsup, _, _⟩ :=
      processEvent_frame encode unmarshal lib args h _ t0 t1 t2 rest hid htopics hnonce
        (by rw [if_pos hs]; exact hsender)
    refine ⟨out, h1, hrun, ?_, ?_⟩
    · rw [hsup]
      simp [hs]
    · intro hin
      rw [hsup]
      simp [hnot hin]
  · obtain ⟨out, h1, hrun, _, hsup, _, _⟩ :=
      processEvent_frame encode unmarshal lib args h h t0 t1 t2 rest hid htopics hnonce
        (by rw [if_neg hs])
    refine ⟨out, h1, hrun, ?_, fun _ => hsup⟩
    rw [hsup]
    simp [hs]

/-- Witness of C11: the sample burn of nonce 2 by an address of shard 0. -/
theorem processEvent_tokens_supply_witness :
    ∃ out h1,
      processEvent (newNFTsProcessor hexEncode fun _ => none) sampleLib
        (sampleArgs sampleBurnEvent) {} = some (out, h1) ∧
      h1.tokensSupply =
        [{ Token := "TKN-abcd", Identifier := "TKN-abcd-02", Timestamp := 5040, Nonce := 2 }] := by
  obtain ⟨_, ⟨out, h1, hrun, hsup, _⟩, _⟩ :=
    processEvent_tokens_supply hexEncode (fun _ => none) sampleLib (sampleArgs sampleBurnEvent)
      {} (toBytes "TKN-abcd") [2] [1] [] (by decide) (by decide) (by decide)
  refine ⟨out, h1, hrun, ?_⟩
  rw [hsup]
  decide

/-- C12: for an `ESDTNFTCreate` event from a sender of the self shard with nonzero nonce,
`processEvent` records the sender's altered account with `IsNFTCreate = true`; when the
event has a fourth topic that unmarshals to a token, exactly one `TokenInfo` is added to
the tokens list, with `Token = topic[0]`, `Identifier = ComputeTokenIdentifier(topic[0],
nonce)`, `Nonce = nonce`, `Timestamp` the block timestamp and `Data` the metadata
prepared from the decoded token; when the fourth topic is missing or does not unmarshal,
the tokens list is as it was. -/
theorem processEvent_nft_create (encode : Bytes → String)
    (unmarshal : Bytes → Option ESDigitalToken) (lib : Lib) (args : ArgsProcessEvent)
    (h : Handlers) (t0 t1 t2 : Bytes) (rest : List Bytes)
    (hcreate : goString args.event.identifier = "ESDTNFTCreate")
    (hself : lib.computeShardID args.event.address args.numOfShards = args.selfShardID)
    (htopics : args.event.topics = t0 :: t1 :: t2 :: rest)
    (hnonce : bigUint64 (bigFromBytes t1) ≠ 0) :
    ∃ out h1,
      processEvent (newNFTsProcessor encode unmarshal) lib args h = some (out, h1) ∧
      h1.accounts = h.accounts ++
        [(encode args.event.address,
          { IsNFTOperation := true, TokenIdentifier := goString t0,
            NFTNonce := bigUint64 (bigFromBytes t1), IsNFTCreate := true })] ∧
      (∀ esdtTokenBytes esdtToken, rest.head? = some esdtTokenBytes →
        unmarshal esdtTokenBytes = some esdtToken →
        h1.tokens = h.tokens ++
          [{ Token := goString t0
             Identifier := lib.computeTokenIdentifier (goString t0) (bigUint64 (bigFromBytes t1))
             Timestamp := toDuration args.timestamp
             Data := lib.prepareTokenMetaData encode esdtToken
             Nonce := bigUint64 (bigFromBytes t1) }]) ∧
      ((rest.head? = none ∨
          ∃ esdtTokenBytes, rest.head? = some esdtTokenBytes ∧
            unmarshal esdtTokenBytes = none) →
        h1.tokens = h.tokens) ∧
      (args.timestamp < 2 ^ 63 → toDuration args.timestamp = (args.timestamp : Int)) := by
  have hid : goString args.event.identifier ∈
      ["ESDTNFTTransfer", "ESDTNFTBurn", "ESDTNFTAddQuantity", "ESDTNFTCreate",
        "MultiESDTNFTTransfer", "ESDTWipe"] := by
    rw [hcreate]; decide
  have hnt : ¬ (goString args.event.identifier = "ESDTNFTTransfer" ∨
      goString args.event.identifier = "MultiESDTNFTTransfer") := by
    rw [hcreate]; decide
  have hsender := processNFTEventOnSender_eq (newNFTsProcessor encode unmarshal) lib args.event
    h args.timestamp t0 t1 (t2 :: rest) htopics
  obtain ⟨out, h1, hrun, htok, _, _, hacc⟩ :=
    processEvent_frame encode unmarshal lib args h _ t0 t1 t2 rest hid htopics hnonce
      (by rw [if_pos hself]; exact hsender)
  have h3 : args.event.topics[3]? = rest.head? := by
    rw [htopics]
    cases rest <;> simp
  refine ⟨out, h1, hrun, ?_, ?_, ?_, toDuration_of_lt args.timestamp⟩
  · rw [hacc hnt]
    simp [hcreate, newNFTsProcessor]
  · intro b tok hb hu
    rw [htok]
    simp only [hcreate, if_true, h3, hb]
    simp [newNFTsProcessor, hu]
  · intro hmiss
    rw [htok]
    rcases hmiss with hnone | ⟨b, hb, hu⟩
    · simp only [hcreate, if_true, h3, hnone]
      simp
    · simp only [hcreate, if_true, h3, hb]
      simp [newNFTsProcessor, hu]

/-- Witness of C12: the sample creation of nonce 2 with decodable token data. -/
theorem processEvent_nft_create_witness :
    ∃ out h1,
      processEvent (newNFTsProcessor hexEncode sampleUnmarshal) sampleLib
        (sampleArgs sampleCreateEvent) {} = some (out, h1) ∧
      h1.accounts.length = 1 ∧ h1.tokens.length = 1 := by
  obtain ⟨out, h1, hrun, hacc, htok, _, _⟩ :=
    processEvent_nft_create hexEncode sampleUnmarshal sampleLib (sampleArgs sampleCreateEvent)
      {} (toBytes "TKN-abcd") [2] [1] [toBytes "nft"] (by decide) (by decide) (by decide)
      (by decide)
  have hu : sampleUnmarshal (toBytes "nft") =
      some { creator := [7], name := toBytes "nft", royalties := 0, hash := [], uris := [],
             attributes := [], nonce := 2 } := by decide
  refine ⟨out, h1, hrun, ?_, ?_⟩
  · rw [hacc]; rfl
  · rw [htok (toBytes "nft") _ rfl hu]; rfl

/-- C13 (counterexample): an NFT transfer event with a single topic, and one with a
nonzero nonce and no value topic, make `processEvent` fail on an out-of-range topic
access instead of being skipped. -/
theorem processEvent_short_topics_counterexample :
    goString sampleShortEvent.identifier = "ESDTNFTTransfer" ∧
    sampleShortEvent.topics.length = 1 ∧
    processEvent (newNFTsProcessor hexEncode fun _ => none) sampleLib
      (sampleArgs sampleShortEvent) {} = none ∧
    sampleNoValueEvent.topics.length = 2 ∧
    processEvent (newNFTsProcessor hexEncode fun _ => none) sampleLib
      (sampleArgs sampleNoValueEvent) {} = none := by
  decide

/-- C13 (amended): the processor takes the first three topics of an NFT-operation event
for granted. `processEvent` fails on an out-of-range topic access exactly when the event
has no nonce topic, or has two topics and a nonzero nonce; an event with two topics whose
nonce decodes to 0 is returned unprocessed with the handlers untouched, and an event with
at least three topics never fails. -/
theorem processEvent_fails_iff (encode : Bytes → String)
    (unmarshal : Bytes → Option ESDigitalToken) (lib : Lib) (args : ArgsProcessEvent)
    (h : Handlers)
    (hid : goString args.event.identifier ∈
      ["ESDTNFTTransfer", "ESDTNFTBurn", "ESDTNFTAddQuantity", "ESDTNFTCreate",
        "MultiESDTNFTTransfer", "ESDTWipe"]) :
    (processEvent (newNFTsProcessor encode unmarshal) lib args h = none ↔
      (args.event.topics.length < 2 ∨
        (args.event.topics.length = 2 ∧
          ∃ t1, args.event.topics[1]? = some t1 ∧ bigUint64 (bigFromBytes t1) ≠ 0))) ∧
    (∀ t1, args.event.topics.length = 2 → args.event.topics[1]? = some t1 →
      bigUint64 (bigFromBytes t1) = 0 →
      processEvent (newNFTsProcessor encode unmarshal) lib args h =
        some ({ identifier := "", value := "", processed := false, receiver := "",
                receiverShardID := 0 }, h)) ∧
    (3 ≤ args.event.topics.length →
      processEvent (newNFTsProcessor encode unmarshal) lib args h ≠ none) := by
  have hmem : goString args.event.identifier ∈
      (newNFTsProcessor encode unmarshal).nftOperationsIdentifiers := hid
  have hzero : ∀ t1, args.event.topics[1]? = some t1 → bigUint64 (bigFromBytes t1) = 0 →
      processEvent (newNFTsProcessor encode unmarshal) lib args h =
        some ({ identifier := "", value := "", processed := false, receiver := "",
                receiverShardID := 0 }, h) := by
    intro t1 ht1 hz
    unfold processEvent
    simp only [hmem, not_true_eq_false, if_false, ht1, hz, if_true]
  have hlong : ∀ t0 t1 t2 rest, args.event.topics = t0 :: t1 :: t2 :: rest →
      processEvent (newNFTsProcessor encode unmarshal) lib args h ≠ none := by
    intro t0 t1 t2 rest htopics
    by_cases hz : bigUint64 (bigFromBytes t1) = 0
    · rw [hzero t1 (by rw [htopics]; rfl) hz]
      simp
    · obtain ⟨hmid, _, hrun⟩ :=
        processEvent_eq encode unmarshal lib args h t0 t1 t2 rest hid htopics hz
      rw [hrun]
      simp
  have hshort : ∀ t0 t1, args.event.topics = [t0, t1] → bigUint64 (bigFromBytes t1) ≠ 0 →
      processEvent (newNFTsProcessor encode unmarshal) lib args h = none := by
    intro t0 t1 htopics hz
    unfold processEvent
    simp only [hmem, not_true_eq_false, if_false, htopics, List.getElem?_cons_zero,
      List.getElem?_cons_succ, hz]
    split
    · rename_i heq
      simp at heq
    · rfl
  refine ⟨?_, fun t1 _ ht1 hz => hzero t1 ht1 hz, ?_⟩
  · rcases htop : args.event.topics with _ | ⟨t0, _ | ⟨t1, _ | ⟨t2, rest⟩⟩⟩
    · constructor
      · intro _; left; simp
      · intro _
        unfold processEvent
        simp [hmem, htop]
    · constructor
      · intro _; left; simp
      · intro _
        unfold processEvent
        simp [hmem, htop]
    · by_cases hz : bigUint64 (bigFromBytes t1) = 0
      · constructor
        · intro hnone
          rw [hzero t1 (by rw [htop]; rfl) hz] at hnone
          simp at hnone
        · rintro (hlt | ⟨_, t, ht, hne⟩)
          · simp at hlt
          · simp at ht
            subst ht
            exact absurd hz hne
      · constructor
        · intro _
          right
          exact ⟨by simp, t1, by simp, hz⟩
        · intro _
          exact hshort t0 t1 htop hz
    · constructor
      · intro hnone
        exact absurd hnone (hlong t0 t1 t2 rest htop)
      · rintro (hlt | ⟨hlen, _⟩)
        · exfalso; simp at hlt; omega
        · simp at hlen
  · intro hlen
    rcases htop : args.event.topics with _ | ⟨t0, _ | ⟨t1, _ | ⟨t2, rest⟩⟩⟩
    · rw [htop] at hlen; simp at hlen
    · rw [htop] at hlen; simp at hlen
    · rw [htop] at hlen; simp at hlen
    · exact hlong t0 t1 t2 rest htop

/-- Witness of C13 (amended): the sample transfer with its four topics does not fail. -/
theorem processEvent_fails_iff_witness :
    processEvent (newNFTsProcessor hexEncode fun _ => none) sampleLib
      (sampleArgs sampleTransferEvent) {} ≠ none :=
  (processEvent_fails_iff hexEncode (fun _ => none) sampleLib (sampleArgs sampleTransferEvent)
    {} (by decide)).2.2 (by decide)


end Elasticproc

/-! ## Token identifiers -/

theorem bigFromBytes_zero_cons (l : Bytes) : bigFromBytes ((0 : Fin 256) :: l) = bigFromBytes l := by
  simp [bigFromBytes]

theorem bigFromBytes_dropWhile_zero (l : Bytes) :
    bigFromBytes (l.dropWhile fun b => b = 0) = bigFromBytes l := by
  induction l with
  | nil => rfl
  | cons b rest ih =>
    by_cases hb : b = 0
    · subst hb
      simp only [List.dropWhile_cons, decide_True, if_true]
      rw [ih, bigFromBytes_zero_cons]
    · simp [List.dropWhile_cons, hb]

theorem bigFromBytes_uint64Bytes (n : Nat) : bigFromBytes (uint64Bytes n) = n % 2 ^ 64 := by
  unfold uint64Bytes
  rw [bigFromBytes_dropWhile_zero]
  simp only [bigFromBytes, List.map, List.foldl, Fin.ofNat]
  norm_num
  omega

theorem head_dropWhile_zero (l : Bytes) : (l.dropWhile fun b => b = 0).head? ≠ some 0 := by
  induction l with
  | nil => simp
  | cons b rest ih =>
    by_cases hb : b = 0
    · subst hb; simpa [List.dropWhile_cons] using ih
    · simp [List.dropWhile_cons, hb]

theorem hexChars_length (b : Bytes) : (hexChars b).length = 2 * b.length := by
  induction b with
  | nil => rfl
  | cons x rest ih => simp [hexChars, ih]; omega

/-- C14: `ComputeTokenIdentifier(token, nonce)` is `token` when the nonce is 0 and
otherwise `token`, a dash and the lowercase hex of the bytes of the nonce; these bytes
are the minimal big-endian encoding (they read back as the nonce and do not start with
a zero byte) and their hex has even length. In particular `("T",0)` gives `"T"`,
`("T",2)` gives `"T-02"`, `("T",255)` gives `"T-ff"` and `("T",256)` gives `"T-0100"`. -/
theorem ComputeTokenIdentifier_spec (token : String) (nonce : Nat) :
    ComputeTokenIdentifier token nonce =
      (if nonce = 0 then token else token ++ "-" ++ hexEncode (uint64Bytes nonce)) ∧
    bigFromBytes (uint64Bytes nonce) = nonce % 2 ^ 64 ∧
    (uint64Bytes nonce).head? ≠ some 0 ∧
    (hexEncode (uint64Bytes nonce)).length = 2 * (uint64Bytes nonce).length ∧
    ComputeTokenIdentifier "T" 0 = "T" ∧
    ComputeTokenIdentifier "T" 2 = "T-02" ∧
    ComputeTokenIdentifier "T" 255 = "T-ff" ∧
    ComputeTokenIdentifier "T" 256 = "T-0100" := by
  refine ⟨rfl, bigFromBytes_uint64Bytes nonce, head_dropWhile_zero _, ?_, by decide, by decide,
    by decide, by decide⟩
  simp [hexEncode, String.length, hexChars_length]

/-! ## Fungible ESDT events -/

namespace Fungible

/-- C16: for a fungible `ESDTTransfer` or `ESDTWipe` event with topics token, nonce,
value and receiver, the fungible processor appends the entry of the encoded sender exactly
when the sender's shard is the self shard, then the entry of the encoded receiver exactly
when the receiver's shard is the self shard; every entry is
`{IsESDTOperation: true, TokenIdentifier: token}`, and the output has the token as
identifier, the decimal string of `topic[2]` as value and `processed = true`. -/
theorem processEvent_attribution (encode : Bytes → String) (computeId : Bytes → Nat)
    (selfId : Nat) (event : Event) (h : Handlers) (t0 t1 t2 receiver : Bytes)
    (rest : List Bytes)
    (hid : goString event.identifier = "ESDTTransfer" ∨ goString event.identifier = "ESDTWipe")
    (htopics : event.topics = t0 :: t1 :: t2 :: receiver :: rest)
    (hnonce : bigUint64 (bigFromBytes t1) = 0) :
    (processEvent encode computeId selfId event h).2.accounts =
      h.accounts ++
        (if computeId event.address = selfId then
          [(encode event.address,
            ({ IsESDTOperation := true, TokenIdentifier := goString t0 } : AlteredAccount))]
        else []) ++
        (if computeId receiver = selfId then
          [(encode receiver,
            ({ IsESDTOperation := true, TokenIdentifier := goString t0 } : AlteredAccount))]
        else []) ∧
    (processEvent encode computeId selfId event h).1.identifier = goString t0 ∧
    (processEvent encode computeId selfId event h).1.value = Nat.repr (bigFromBytes t2) ∧
    (processEvent encode computeId selfId event h).1.processed = true := by
  have hid1 : ¬ (goString event.identifier ≠ BuiltInFunctionESDTTransfer ∧
      goString event.identifier ≠ BuiltInFunctionESDTWipe) := by
    rintro ⟨h1, h2⟩
    rcases hid with hid | hid
    · exact h1 hid
    · exact h2 hid
  unfold processEvent
  simp only [hid1, if_false, htopics, hnonce, ne_eq, not_true_eq_false, List.head?_cons]
  by_cases hs : computeId event.address = selfId <;>
    by_cases hr : computeId receiver = selfId <;> simp [hs, hr]

/-- Witness of C16: the intra-shard transfer of the unit test, with the hex pubkey
converter and a shard coordinator that puts every address in shard 0. -/
theorem processEvent_attribution_witness :
    (processEvent hexEncode (fun _ => 0) 0 sampleFungibleEvent {}).2.accounts =
      [("61646472", { IsESDTOperation := true, TokenIdentifier := "my-token" }),
       ("7265636569766572", { IsESDTOperation := true, TokenIdentifier := "my-token" })] ∧
    (processEvent hexEncode (fun _ => 0) 0 sampleFungibleEvent {}).1.identifier = "my-token" ∧
    (processEvent hexEncode (fun _ => 0) 0 sampleFungibleEvent {}).1.value = "100" ∧
    (processEvent hexEncode (fun _ => 0) 0 sampleFungibleEvent {}).1.processed = true := by
  obtain ⟨hacc, hident, hval, hproc⟩ :=
    processEvent_attribution hexEncode (fun _ => 0) 0 sampleFungibleEvent {}
      (toBytes "my-token") [] [100] (toBytes "receiver") [] (by decide) (by decide) (by decide)
  refine ⟨?_, ?_, ?_, hproc⟩
  · rw [hacc]; decide
  · rw [hident]; decide
  · rw [hval]; decide

/-- The model reproduces the expectations of the unit tests of the fungible processor:
cross-shard on the source, cross-shard on the destination, and the wipe. -/
theorem processEvent_unit_tests :
    processEvent hexEncode (fun a => if a = toBytes "receiver" then 1 else 0) 0
        sampleFungibleEvent {} =
      ({ identifier := "my-token", value := "100", processed := true,
         receiver := "7265636569766572", receiverShardID := 1 },
       { accounts :=
          [("61646472", { IsESDTOperation := true, TokenIdentifier := "my-token" })] }) ∧
    processEvent hexEncode (fun a => if a = toBytes "addr" then 1 else 0) 0
        sampleFungibleEvent {} =
      ({ identifier := "my-token", value := "100", processed := true },
       { accounts :=
          [("7265636569766572", { IsESDTOperation := true, TokenIdentifier := "my-token" })] }) ∧
    processEvent hexEncode (fun _ => 0) 0 sampleWipeEvent {} =
      ({ identifier := "esdt-0123", value := "0", processed := true },
       { accounts :=
          [("61646472", { IsESDTOperation := true, TokenIdentifier := "esdt-0123" }),
           ("7265636569766572",
             { IsESDTOperation := true, TokenIdentifier := "esdt-0123" })] }) := by
  decide

end Fungible

/-! ## Work items -/

namespace WorkItems

/-- C20: `Save` on a work item whose outport block is nil, or whose header is nil,
returns no error and makes no call of `SaveHeader`, `SaveMiniblocks` or
`SaveTransactions`. -/
theorem Save_nil_block_or_header (indexer : SaveBlockIndexer)
    (outportBlock : Option OutportBlock) :
    Save indexer none = SaveResult.returned none [] ∧
    Save indexer (some { OutportBlock := outportBlock, Header := none }) =
      SaveResult.returned none [] := by
  exact ⟨rfl, rfl⟩

end WorkItems

namespace WorkItems

/-- C21: `Save` on a work item with a header but no block data panics before any call,
and on block data without a body it panics after a successful `SaveHeader`: neither
shape is skipped. -/
theorem Save_nil_body_panics (indexer : SaveBlockIndexer) (hdr : HeaderHandler)
    (pool : Option TransactionPool) (accounts : List String) (hash : Bytes) :
    Save indexer (some
      { OutportBlock := some
          { BlockData := none, TransactionPool := pool, AlteredAccounts := accounts }
        Header := some hdr }) = SaveResult.panicked [] ∧
    Save { indexer with SaveHeader := fun _ => none } (some
      { OutportBlock := some
          { BlockData := some { HeaderHash := hash, Body := none }
            TransactionPool := pool, AlteredAccounts := accounts }
        Header := some hdr }) =
      SaveResult.panicked [Call.SaveHeader
        { OutportBlock := some
            { BlockData := some { HeaderHash := hash, Body := none }
              TransactionPool := some (pool.getD {}), AlteredAccounts := accounts }
          Header := some hdr }] := by
  constructor
  · rfl
  · cases pool <;> rfl

/-- C22: on a work item with a header, block data and a body of at least one miniblock,
`Save` calls `SaveHeader`, `SaveMiniblocks` and `SaveTransactions` in this order up to
the first that fails, returns that step's error wrapped, and returns nil exactly when
all three succeed. -/
theorem Save_steps (indexer : SaveBlockIndexer) (ob : OutportBlock) (hdr : HeaderHandler)
    (bd : BlockData) (body : Body) (wib1 : OutportBlockWithHeader)
    (hbd : ob.BlockData = some bd) (hbody : bd.Body = some body)
    (hmb : body.MiniBlocks ≠ [])
    (hwib1 : wib1 =
      { OutportBlock := some { ob with TransactionPool := some (ob.TransactionPool.getD {}) }
        Header := some hdr }) :
    (∀ e, indexer.SaveHeader wib1 = some e →
      Save indexer (some { OutportBlock := some ob, Header := some hdr }) =
        SaveResult.returned
          (some (wrapError e " when saving header block, hash " bd.HeaderHash hdr.nonce))
          [Call.SaveHeader wib1]) ∧
    (∀ e, indexer.SaveHeader wib1 = none → indexer.SaveMiniblocks hdr body = some e →
      Save indexer (some { OutportBlock := some ob, Header := some hdr }) =
        SaveResult.returned
          (some (wrapError e " when saving miniblocks, block hash " bd.HeaderHash hdr.nonce))
          [Call.SaveHeader wib1, Call.SaveMiniblocks hdr body]) ∧
    (∀ e, indexer.SaveHeader wib1 = none → indexer.SaveMiniblocks hdr body = none →
      indexer.SaveTransactions wib1 = some e →
      Save indexer (some { OutportBlock := some ob, Header := some hdr }) =
        SaveResult.returned
          (some (wrapError e " when saving transactions, block hash " bd.HeaderHash
            hdr.nonce))
          [Call.SaveHeader wib1, Call.SaveMiniblocks hdr body, Call.SaveTransactions wib1]) ∧
    (indexer.SaveHeader wib1 = none → indexer.SaveMiniblocks hdr body = none →
      indexer.SaveTransactions wib1 = none →
      Save indexer (some { OutportBlock := some ob, Header := some hdr }) =
        SaveResult.returned none
          [Call.SaveHeader wib1, Call.SaveMiniblocks hdr body, Call.SaveTransactions wib1]) ∧
    (∀ e context hash nonce, (wrapError e context hash nonce).wrapped = e) ∧
    ((∃ calls, Save indexer (some { OutportBlock := some ob, Header := some hdr }) =
        SaveResult.returned none calls) ↔
      (indexer.SaveHeader wib1 = none ∧ indexer.SaveMiniblocks hdr body = none ∧
        indexer.SaveTransactions wib1 = none)) := by
  obtain ⟨obd, otp, oaa⟩ := ob
  simp only at hbd
  subst hbd
  obtain ⟨hh, b⟩ := bd
  simp only at hbody
  subst hbody
  have hlen : ¬ (body.MiniBlocks.length = 0) := by
    intro h
    exact hmb (List.length_eq_zero.mp h)
  subst hwib1
  cases otp <;>
  · simp only [Option.getD_none, Option.getD_some]
    refine ⟨?_, ?_, ?_, ?_, ?_, ?_⟩
    · intro e h1
      simp only [Save, h1]
    · intro e h1 h2
      simp only [Save, h1, h2, if_neg hlen]
    · intro e h1 h2 h3
      simp only [Save, h1, h2, h3, if_neg hlen]
    · intro h1 h2 h3
      simp only [Save, h1, h2, h3, if_neg hlen]
    · intro e context hash nonce
      rfl
    · simp only [Save, if_neg hlen]
      split
      · simp [*]
      · split
        · simp [*]
        · split <;> simp [*]

/-- The steps of C22 on the sample work item, whose `SaveMiniblocks` fails: the error is
wrapped and `SaveTransactions` is not called. -/
theorem Save_steps_witness :
    Save sampleIndexerFailing (some sampleWorkItem) =
      SaveResult.returned
        (some (wrapError "bulk request failed" " when saving miniblocks, block hash " [1, 2] 7))
        [Call.SaveHeader
          { OutportBlock := some
              { BlockData := some { HeaderHash := [1, 2], Body := some sampleBody }
                TransactionPool := some {}, AlteredAccounts := [] }
            Header := some sampleHeaderHandler },
          Call.SaveMiniblocks sampleHeaderHandler sampleBody] :=
  (Save_steps sampleIndexerFailing
    { BlockData := some { HeaderHash := [1, 2], Body := some sampleBody }
      TransactionPool := none, AlteredAccounts := [] }
    sampleHeaderHandler { HeaderHash := [1, 2], Body := some sampleBody } sampleBody _
    rfl rfl (by decide) rfl).2.1 "bulk request failed" rfl rfl

end WorkItems

namespace Indexer

/-- C23: `NewDataIndexer` returns an error and no indexer exactly when one of the six
dependencies is nil, the error being that of the first nil one in the order data
dispatcher, elastic processor, nodes coordinator, epoch-start notifier, marshalizer,
shard coordinator; otherwise it returns no error and an indexer whose `IsNilIndexer`
is false. -/
theorem NewDataIndexer_spec (a : ArgDataIndexer) :
    (((NewDataIndexer a).err ≠ none ∧ (NewDataIndexer a).indexer = none) ↔
      (a.DataDispatcher = none ∨ a.ElasticProcessor = none ∨ a.NodesCoordinator = none ∨
        a.EpochStartNotifier = none ∨ a.Marshalizer = none ∨ a.ShardCoordinator = none)) ∧
    (NewDataIndexer a).err =
      (if a.DataDispatcher = none then some IndexerError.ErrNilDataDispatcher
       else if a.ElasticProcessor = none then some IndexerError.ErrNilElasticProcessor
       else if a.NodesCoordinator = none then some IndexerError.ErrNilNodesCoordinator
       else if a.EpochStartNotifier = none then some IndexerError.ErrNilEpochStartNotifier
       else if a.Marshalizer = none then some IndexerError.ErrNilMarshalizer
       else if a.ShardCoordinator = none then some IndexerError.ErrNilShardCoordinator
       else none) ∧
    ((∃ di, (NewDataIndexer a).indexer = some di ∧ di.IsNilIndexer = false ∧
        (NewDataIndexer a).err = none) ↔
      ¬ (a.DataDispatcher = none ∨ a.ElasticProcessor = none ∨ a.NodesCoordinator = none ∨
        a.EpochStartNotifier = none ∨ a.Marshalizer = none ∨ a.ShardCoordinator = none)) := by
  obtain ⟨sc, m, e, n, d, p⟩ := a
  cases sc <;> cases m <;> cases e <;> cases n <;> cases d <;> cases p <;>
    simp [NewDataIndexer, checkIndexerArgs, DataIndexer.IsNilIndexer]

/-- C25: every operation of `NilIndexer` returns nil on every input, and its
`IsNilIndexer` is true. -/
theorem NilIndexer_noop (ni : NilIndexer) (α β γ δ ε : Type) :
    (∀ args : α, ni.SaveBlock args = none) ∧
    (∀ (header : β) (body : γ), ni.RevertIndexedBlock header body = none) ∧
    (∀ roundsInfo : List δ, ni.SaveRoundsInfo roundsInfo = none) ∧
    (∀ (indexID : String) (infos : List ε), ni.SaveValidatorsRating indexID infos = none) ∧
    (∀ pubKeys epoch, ni.SaveValidatorsPubKeys pubKeys epoch = none) ∧
    (∀ (timestamp : Nat) (accounts : GoMap α), ni.SaveAccounts timestamp accounts = none) ∧
    (∀ headerHash, ni.FinalizedBlock headerHash = none) ∧
    ni.Close = none ∧
    ni.IsNilIndexer = true :=
  ⟨fun _ => rfl, fun _ _ => rfl, fun _ => rfl, fun _ _ => rfl, fun _ _ => rfl,
    fun _ _ => rfl, fun _ => rfl, rfl, rfl⟩

end Indexer

namespace Factory

/-- A write leaves a map non-empty. -/
theorem mapSet_length_pos {α : Type} (m : GoMap α) (k : String) (v : α) :
    0 < (mapSet m k v).length := by
  cases m with
  | nil => simp [mapSet]
  | cons kv rest =>
    obtain ⟨k0, v0⟩ := kv
    by_cases h : k0 = k <;> simp [mapSet, h]

/-- Writes into a non-empty map leave it non-empty. -/
theorem foldl_mapSet_length_pos (l : List String) (m : GoMap Unit) (h : 0 < m.length) :
    0 < (l.foldl (fun m index => mapSet m index ()) m).length := by
  induction l generalizing m with
  | nil => exact h
  | cons x rest ih => exact ih _ (mapSet_length_pos m x ())

/-- The map of enabled indexes is empty exactly when the list is. -/
theorem enabledIndexesMap_length (l : List String) :
    (enabledIndexesMap l).length = 0 ↔ l = [] := by
  cases l with
  | nil => simp [enabledIndexesMap]
  | cons x rest =>
    have h := foldl_mapSet_length_pos rest (mapSet [] x ()) (mapSet_length_pos [] x ())
    simp only [enabledIndexesMap, List.foldl_cons]
    constructor
    · intro h0
      omega
    · intro h0
      cases h0

/-- C24: with readable templates, `CreateElasticProcessor` on an empty list of enabled
indexes returns `ErrEmptyEnabledIndexes` whatever the other arguments and whatever the
balance converter says of the denomination; on a non-empty list it returns the error of
the balance converter when that rejects the denomination. -/
theorem CreateElasticProcessor_config_errors (c : Constructors)
    (a : ArgElasticProcessorFactory) (templates : Nat × Nat)
    (ht : c.getElasticTemplatesAndPolicies a.UseKibana = Except.ok templates) :
    (a.EnabledIndexes = [] →
      CreateElasticProcessor c a = FactoryResult.error FactoryError.ErrEmptyEnabledIndexes) ∧
    (a.EnabledIndexes ≠ [] → ∀ e, c.newBalanceConverter a.Denomination = Except.error e →
      CreateElasticProcessor c a = FactoryResult.error (FactoryError.fromConstructor e)) := by
  constructor
  · intro h
    have h0 : (enabledIndexesMap a.EnabledIndexes).length = 0 :=
      (enabledIndexesMap_length _).mpr h
    simp only [CreateElasticProcessor, ht, h0, if_true]
  · intro h e he
    have h0 : ¬ ((enabledIndexesMap a.EnabledIndexes).length = 0) := fun h1 =>
      h ((enabledIndexesMap_length _).mp h1)
    simp only [CreateElasticProcessor, ht, if_neg h0, he]

/-- The two errors of C24 on the sample arguments, whose denomination is negative: the
empty list gives `ErrEmptyEnabledIndexes`, a non-empty list the converter's error. -/
theorem CreateElasticProcessor_config_errors_witness :
    CreateElasticProcessor sampleConstructors (sampleFactoryArgs []) =
      FactoryResult.error FactoryError.ErrEmptyEnabledIndexes ∧
    CreateElasticProcessor sampleConstructors (sampleFactoryArgs ["transactions"]) =
      FactoryResult.error (FactoryError.fromConstructor "negative denomination value") :=
  ⟨(CreateElasticProcessor_config_errors sampleConstructors (sampleFactoryArgs []) (1, 2)
      rfl).1 rfl,
    (CreateElasticProcessor_config_errors sampleConstructors
      (sampleFactoryArgs ["transactions"]) (1, 2) rfl).2 (by decide) _ rfl⟩

end Factory

namespace Delegators

/-- C26: the document id is the standard base64 text of the hash of
`Address ++ Contract`; two delegators with the same concatenation have the same id
whatever their other fields; and the action line that `prepareSerializedDelegator`
writes, for a delete as for an update, carries this id. -/
theorem computeDelegatorID_spec (lep : LogsAndEventsProcessor) (d d' : Delegator)
    (index : String) :
    computeDelegatorID lep d = base64Encode (lep.hasher (d.Address ++ d.Contract)) ∧
    (d.Address ++ d.Contract = d'.Address ++ d'.Contract →
      computeDelegatorID lep d = computeDelegatorID lep d') ∧
    (∀ stake delete unDelegate ids,
      computeDelegatorID lep
        { d with ActiveStake := stake, ShouldDelete := delete, UnDelegateInfo := unDelegate,
                 WithdrawFundIDs := ids } = computeDelegatorID lep d) ∧
    (∀ line payload, prepareSerializedDelegator lep d index = some (line, payload) →
      line =
        if d.ShouldDelete then
          "\x7b \"delete\" : \x7b \"_index\": \"" ++ index ++ "\", \"_id\" : \"" ++
            lep.jsonEscape (base64Encode (lep.hasher (d.Address ++ d.Contract))) ++
            "\" \x7d \x7d" ++ "\n"
        else
          "\x7b \"update\" : \x7b \"_index\":\"" ++ index ++ "\", \"_id\" : \"" ++
            lep.jsonEscape (base64Encode (lep.hasher (d.Address ++ d.Contract))) ++
            "\" \x7d \x7d" ++ "\n") := by
  refine ⟨rfl, ?_, fun _ _ _ _ => rfl, ?_⟩
  · intro h
    simp only [computeDelegatorID, h]
  · intro line payload h
    unfold prepareSerializedDelegator at h
    by_cases hdel : d.ShouldDelete = true
    · simp only [hdel, if_true, Option.some.injEq, Prod.mk.injEq] at h
      simp only [hdel, if_true]
      exact h.1.symm
    · simp only [hdel, Bool.false_eq_true, if_false] at h ⊢
      cases hm : lep.marshalDelegator d with
      | none => simp [hm] at h
      | some ser =>
        simp only [hm] at h
        cases hu : d.UnDelegateInfo with
        | some u =>
          simp only [hu] at h
          cases hp : prepareSerializedDataForUnDelegate lep d ser with
          | none => simp [hp] at h
          | some data =>
            simp only [hp, Option.some.injEq, Prod.mk.injEq] at h
            exact h.1.symm
        | none =>
          simp only [hu] at h
          cases hw : d.WithdrawFundIDs with
          | some ids =>
            simp only [hw, Option.some.injEq, Prod.mk.injEq] at h
            exact h.1.symm
          | none =>
            simp only [hw, Option.some.injEq, Prod.mk.injEq] at h
            exact h.1.symm

/-- The id of C26 on two sample delegators that share `Address ++ Contract` and differ in
every other field: both get the base64 text of `abc`, and the delete line carries it. -/
theorem computeDelegatorID_spec_witness :
    computeDelegatorID sampleDelegatorsProcessor sampleDelegator = "YWJj" ∧
    computeDelegatorID sampleDelegatorsProcessor sampleDelegatorOther = "YWJj" ∧
    prepareSerializedDelegator sampleDelegatorsProcessor sampleDelegatorOther "delegators" =
      some ("\x7b \"delete\" : \x7b \"_index\": \"delegators\", \"_id\" : \"YWJj\" \x7d \x7d\n",
        none) :=
  ⟨by decide,
    ((computeDelegatorID_spec sampleDelegatorsProcessor sampleDelegator sampleDelegatorOther
      "delegators").2.1 (by decide)).symm.trans (by decide),
    by decide⟩

end Delegators

namespace Delegators

/-- The active-stake statements on a map of parameters. -/
theorem setActiveStake_obj (T source : Doc) :
    setActiveStake (Json.obj T) source =
      some (mapSet (mapSet source "activeStake" (docGet T "activeStake")) "activeStakeNum"
        (docGet T "activeStakeNum")) := rfl

/-- The active-stake statements write their two fields and no other. -/
theorem setActiveStake_frame (T source d1 : Doc) (h : setActiveStake (Json.obj T) source = some d1) :
    mapGet d1 "activeStake" = some (docGet T "activeStake") ∧
    mapGet d1 "activeStakeNum" = some (docGet T "activeStakeNum") ∧
    (∀ f, f ≠ "activeStake" → f ≠ "activeStakeNum" → mapGet d1 f = mapGet source f) := by
  rw [setActiveStake_obj] at h
  injection h with h
  subst h
  refine ⟨?_, mapGet_mapSet_same _ _ _, ?_⟩
  · rw [mapGet_mapSet_other _ _ _ _ (by decide), mapGet_mapSet_same]
  · intro f h1 h2
    rw [mapGet_mapSet_other _ _ _ _ (Ne.symm h2), mapGet_mapSet_other _ _ _ _ (Ne.symm h1)]

/-- The active-stake statements change nothing when run a second time. -/
theorem setActiveStake_twice (T source d1 : Doc)
    (h : setActiveStake (Json.obj T) source = some d1) :
    setActiveStake (Json.obj T) d1 = some d1 := by
  obtain ⟨h1, h2, _⟩ := setActiveStake_frame T source d1 h
  rw [setActiveStake_obj, mapSet_of_mapGet d1 _ _ h1, mapSet_of_mapGet d1 _ _ h2]

/-- C27: the removal loop of the withdraw script skips the entry that follows a removed
one and reads past the end of the list: on `[A, B]` with ids `[B, A]` it ends with `[B]`,
whose id is among the ids, and on `[A]` with ids `[A, X]` it throws on an index out of
range. -/
theorem removalLoop_skips_and_overruns :
    runRemovalLoop [Json.obj [("id", Json.str "A")], Json.obj [("id", Json.str "B")]]
        ["B", "A"] = LoopResult.done [Json.obj [("id", Json.str "B")]] ∧
    runRemovalLoop [Json.obj [("id", Json.str "A")]] ["A", "X"] = LoopResult.outOfRange := by
  constructor <;> rfl

/-- The text of the active-stake script compiles, as written and as formatted, to an
`if` on `ctx.op` with one assignment in its first block and two in its second. -/
theorem compile_delegatorCode :
    compileScript (FormatPainlessSource delegatorCodeToExecute) =
      Except.ok
        (Stmt.seq
          (Stmt.ifElse (Expr.eq (Expr.text "create") (Expr.path ["ctx", "op"]))
            (Stmt.seq (Stmt.assign ["ctx", "_source"] (Expr.path ["params", "delegator"]))
              Stmt.skip)
            (Stmt.seq
              (Stmt.assign ["ctx", "_source", "activeStake"]
                (Expr.path ["params", "delegator", "activeStake"]))
              (Stmt.seq
                (Stmt.assign ["ctx", "_source", "activeStakeNum"]
                  (Expr.path ["params", "delegator", "activeStakeNum"]))
                Stmt.skip)))
          Stmt.skip) ∧
    compileScript delegatorCodeToExecute =
      compileScript (FormatPainlessSource delegatorCodeToExecute) := by
  constructor <;> rfl

/-- The text of the undelegate script is refused, as written and as formatted, at its
27th token of 43, the `}` that follows `ctx._source.unDelegateInfo = [params.unDelegate]`
where a `;` is due. -/
theorem compile_unDelegateCode :
    compileScript (FormatPainlessSource unDelegateCodeToExecute) =
      Except.error (SyntaxError.unexpected 17) ∧
    compileScript unDelegateCodeToExecute = Except.error (SyntaxError.unexpected 17) ∧
    (tokenize (FormatPainlessSource unDelegateCodeToExecute)).length = 43 ∧
    (tokenize (FormatPainlessSource unDelegateCodeToExecute)).drop 21 =
      [Token.word "ctx._source.unDelegateInfo", Token.sym '=', Token.sym lbrackChar,
        Token.word "params.unDelegate", Token.sym rbrackChar, Token.sym rbraceChar] ++
        (tokenize (FormatPainlessSource unDelegateCodeToExecute)).drop 27 := by
  refine ⟨rfl, rfl, ?_, ?_⟩ <;> decide

/-- The text of the withdraw script is refused, as written and as formatted, at its 23rd
token of 89, the `}` that follows `return` where a `;` is due. -/
theorem compile_withdrawalCode :
    compileScript (FormatPainlessSource withdrawalCodeToExecute) =
      Except.error (SyntaxError.unexpected 67) ∧
    compileScript withdrawalCodeToExecute = Except.error (SyntaxError.unexpected 67) ∧
    (tokenize (FormatPainlessSource withdrawalCodeToExecute)).length = 89 ∧
    (tokenize (FormatPainlessSource withdrawalCodeToExecute)).drop 21 =
      [Token.word "return", Token.sym rbraceChar] ++
        (tokenize (FormatPainlessSource withdrawalCodeToExecute)).drop 23 := by
  refine ⟨rfl, rfl, ?_, ?_⟩ <;> decide

/-- The compiled active-stake script on the parameters of an event whose delegator is the
map `T`: on `create` the document becomes `T`, otherwise the two stake fields are
assigned. -/
theorem exec_delegatorProgram (T source : Doc) (op : CtxOp) :
    execStmt op [("delegator", Json.obj T)]
        (Stmt.seq
          (Stmt.ifElse (Expr.eq (Expr.text "create") (Expr.path ["ctx", "op"]))
            (Stmt.seq (Stmt.assign ["ctx", "_source"] (Expr.path ["params", "delegator"]))
              Stmt.skip)
            (Stmt.seq
              (Stmt.assign ["ctx", "_source", "activeStake"]
                (Expr.path ["params", "delegator", "activeStake"]))
              (Stmt.seq
                (Stmt.assign ["ctx", "_source", "activeStakeNum"]
                  (Expr.path ["params", "delegator", "activeStakeNum"]))
                Stmt.skip)))
          Stmt.skip) source =
      (match op with
      | CtxOp.create => some (T, false)
      | CtxOp.index => (setActiveStake (Json.obj T) source).map fun d => (d, false)) := by
  cases op <;>
    simp [execStmt, evalExpr, evalPath, jsonFields, jsonField, mapGet, CtxOp.text,
      setActiveStake, docGet]

/-- What Elasticsearch does with the active-stake request of an event whose delegator
denotes the map `T`. -/
theorem esScriptedUpsert_delegatorRequest (jsonOf : String → Json)
    (delegatorSerialized : String) (T : Doc) (hT : jsonOf delegatorSerialized = Json.obj T)
    (existing : Option Doc) :
    esScriptedUpsert jsonOf (delegatorRequest delegatorSerialized) existing =
      (match existing with
      | none => some T
      | some d => setActiveStake (Json.obj T) d) := by
  have hc := compile_delegatorCode.1
  unfold esScriptedUpsert
  simp only [delegatorRequest, hc, List.map, hT]
  cases existing with
  | none => simp only [exec_delegatorProgram, Option.map]
  | some d =>
    simp only [exec_delegatorProgram, setActiveStake_obj, Option.map]

/-- C28: the request that `prepareSerializedDataForWithdrawal` writes carries a script
that does not compile, so Elasticsearch refuses it and the stored document stays as it
was: on the stored list `[A, B]` with the withdraw id `A`, the list is still `[A, B]`
after the request, and not `[B]`. -/
theorem withdrawalRequest_refused (jsonOf : String → Json) (delegator : Delegator)
    (delegatorSerialized : String) :
    (withdrawalRequest delegator delegatorSerialized).body =
      prepareSerializedDataForWithdrawal delegator delegatorSerialized ∧
    compileScript (withdrawalRequest delegator delegatorSerialized).source =
      Except.error (SyntaxError.unexpected 67) ∧
    (∀ existing : Option Doc,
      applyScriptedUpsert jsonOf (withdrawalRequest delegator delegatorSerialized) existing =
        existing) ∧
    ((applyScriptedUpsert jsonOf
        (withdrawalRequest { delegator with WithdrawFundIDs := some ["A"] } delegatorSerialized)
        (some sampleTwoUnDelegations)).map fun d => docGet d "unDelegateInfo") =
      some (Json.arr [Json.obj [("id", Json.str "A")], Json.obj [("id", Json.str "B")]]) := by
  have hc : ∀ d : Delegator, compileScript (withdrawalRequest d delegatorSerialized).source =
      Except.error (SyntaxError.unexpected 67) := fun _ => compile_withdrawalCode.1
  have hrun : ∀ (d : Delegator) (existing : Option Doc),
      applyScriptedUpsert jsonOf (withdrawalRequest d delegatorSerialized) existing =
        existing := by
    intro d existing
    simp only [applyScriptedUpsert, esScriptedUpsert, hc d]
  refine ⟨?_, hc delegator, hrun delegator, ?_⟩
  · simp only [ScriptedUpsertRequest.body, withdrawalRequest, renderScriptParams,
      prepareSerializedDataForWithdrawal]
    apply String.ext
    simp [String.data_append]
  · rw [hrun]
    rfl

/-- C29: the request that `prepareSerializedDataForUnDelegate` writes carries a script
that does not compile, so Elasticsearch refuses it and leaves the stored document as it
was: the state after two applications is the state after one, the state before. -/
theorem unDelegateRequest_twice (jsonOf : String → Json) (lep : LogsAndEventsProcessor)
    (delegator : Delegator) (delegatorSerialized payload : String)
    (hpayload :
      prepareSerializedDataForUnDelegate lep delegator delegatorSerialized = some payload) :
    ∃ unDelegateInfoSerialized,
      lep.marshalUnDelegate delegator.UnDelegateInfo = some unDelegateInfoSerialized ∧
      payload = (unDelegateRequest delegatorSerialized unDelegateInfoSerialized).body ∧
      compileScript (unDelegateRequest delegatorSerialized unDelegateInfoSerialized).source =
        Except.error (SyntaxError.unexpected 17) ∧
      ∀ existing : Option Doc,
        applyScriptedUpsert jsonOf
            (unDelegateRequest delegatorSerialized unDelegateInfoSerialized)
            (applyScriptedUpsert jsonOf
              (unDelegateRequest delegatorSerialized unDelegateInfoSerialized) existing) =
          applyScriptedUpsert jsonOf
            (unDelegateRequest delegatorSerialized unDelegateInfoSerialized) existing ∧
        applyScriptedUpsert jsonOf
            (unDelegateRequest delegatorSerialized unDelegateInfoSerialized) existing =
          existing := by
  unfold prepareSerializedDataForUnDelegate at hpayload
  cases hm : lep.marshalUnDelegate delegator.UnDelegateInfo with
  | none => simp [hm] at hpayload
  | some u =>
    simp only [hm, Option.some.injEq] at hpayload
    have hc : compileScript (unDelegateRequest delegatorSerialized u).source =
        Except.error (SyntaxError.unexpected 17) := compile_unDelegateCode.1
    have hrun : ∀ existing : Option Doc,
        applyScriptedUpsert jsonOf (unDelegateRequest delegatorSerialized u) existing =
          existing := by
      intro existing
      simp only [applyScriptedUpsert, esScriptedUpsert, hc]
    refine ⟨u, rfl, ?_, hc, fun existing => ⟨by rw [hrun, hrun], hrun existing⟩⟩
    rw [← hpayload]
    simp only [ScriptedUpsertRequest.body, unDelegateRequest, renderScriptParams]
    apply String.ext
    simp [String.data_append]

/-- The refusal of C29 on the sample delegator with an undelegation on the sample stored
document: the document is the same after one and after two applications. -/
theorem unDelegateRequest_twice_witness :
    ∃ unDelegateInfoSerialized,
      applyScriptedUpsert sampleDelegatorJsonOf
          (unDelegateRequest "D" unDelegateInfoSerialized)
          (applyScriptedUpsert sampleDelegatorJsonOf
            (unDelegateRequest "D" unDelegateInfoSerialized) (some sampleStoredDelegator)) =
        applyScriptedUpsert sampleDelegatorJsonOf
          (unDelegateRequest "D" unDelegateInfoSerialized) (some sampleStoredDelegator) ∧
      applyScriptedUpsert sampleDelegatorJsonOf
          (unDelegateRequest "D" unDelegateInfoSerialized) (some sampleStoredDelegator) =
        some sampleStoredDelegator :=
  (unDelegateRequest_twice sampleDelegatorJsonOf sampleDelegatorsProcessor
    sampleUnDelegating "D" _ rfl).elim fun u h => ⟨u, h.2.2.2 (some sampleStoredDelegator)⟩

/-- C30: the request that `prepareSerializedDataForDelegator` writes, for an event whose
serialized delegator denotes the map `T`, carries a script that compiles; applied to a
stored document it sets `activeStake` and `activeStakeNum` to the values of `T` and leaves
every other field, among them `unDelegateInfo`, as it was, and a second application
changes nothing; with no stored document `T` is stored, and a second application changes
nothing when `T` carries both fields. -/
theorem delegatorRequest_frame (jsonOf : String → Json) (delegatorSerialized : String)
    (T existing : Doc) (hT : jsonOf delegatorSerialized = Json.obj T) :
    (delegatorRequest delegatorSerialized).body =
      prepareSerializedDataForDelegator delegatorSerialized ∧
    (∃ d1,
      applyScriptedUpsert jsonOf (delegatorRequest delegatorSerialized) (some existing) =
        some d1 ∧
      mapGet d1 "activeStake" = some (docGet T "activeStake") ∧
      mapGet d1 "activeStakeNum" = some (docGet T "activeStakeNum") ∧
      (∀ f, f ≠ "activeStake" → f ≠ "activeStakeNum" → mapGet d1 f = mapGet existing f) ∧
      mapGet d1 "unDelegateInfo" = mapGet existing "unDelegateInfo" ∧
      applyScriptedUpsert jsonOf (delegatorRequest delegatorSerialized) (some d1) = some d1) ∧
    applyScriptedUpsert jsonOf (delegatorRequest delegatorSerialized) none = some T ∧
    (mapGet T "activeStake" ≠ none → mapGet T "activeStakeNum" ≠ none →
      applyScriptedUpsert jsonOf (delegatorRequest delegatorSerialized)
        (applyScriptedUpsert jsonOf (delegatorRequest delegatorSerialized) none) =
      applyScriptedUpsert jsonOf (delegatorRequest delegatorSerialized) none) := by
  have hes := esScriptedUpsert_delegatorRequest jsonOf delegatorSerialized T hT
  have hnone : applyScriptedUpsert jsonOf (delegatorRequest delegatorSerialized) none =
      some T := by
    simp only [applyScriptedUpsert, hes]
  have hsome : ∀ d d1, setActiveStake (Json.obj T) d = some d1 →
      applyScriptedUpsert jsonOf (delegatorRequest delegatorSerialized) (some d) =
        some d1 := by
    intro d d1 h
    simp only [applyScriptedUpsert, hes, h]
  refine ⟨?_, ?_, hnone, ?_⟩
  · simp only [ScriptedUpsertRequest.body, delegatorRequest, renderScriptParams,
      prepareSerializedDataForDelegator]
    apply String.ext
    simp [String.data_append]
  · obtain ⟨d1, hd1⟩ : ∃ d1, setActiveStake (Json.obj T) existing = some d1 :=
      ⟨_, setActiveStake_obj _ _⟩
    obtain ⟨a1, n1, o1⟩ := setActiveStake_frame _ _ _ hd1
    exact ⟨d1, hsome _ _ hd1, a1, n1, o1, o1 _ (by decide) (by decide),
      hsome _ _ (setActiveStake_twice T existing d1 hd1)⟩
  · intro h1 h2
    obtain ⟨a, ha⟩ := Option.ne_none_iff_exists'.mp h1
    obtain ⟨n, hn⟩ := Option.ne_none_iff_exists'.mp h2
    have hset : setActiveStake (Json.obj T) T = some T := by
      have hn1 : mapGet (mapSet T "activeStake" a) "activeStakeNum" = some n := by
        rw [mapGet_mapSet_other _ _ _ _ (by decide), hn]
      rw [setActiveStake_obj]
      simp only [docGet, ha, hn, Option.getD_some]
      rw [mapSet_of_mapGet _ _ _ hn1, mapSet_of_mapGet _ _ _ ha]
    rw [hnone, hsome _ _ hset]

/-- The frame of C30 on the sample document and event: the stake fields take the event's
values, `unDelegateInfo` stays, and the event's delegator is stored when there is no
document, once and twice. -/
theorem delegatorRequest_frame_witness :
    (∃ d1,
      applyScriptedUpsert sampleDelegatorJsonOf (delegatorRequest "D")
        (some sampleStoredDelegator) = some d1 ∧
      mapGet d1 "activeStake" = some (Json.str "100") ∧
      mapGet d1 "unDelegateInfo" = mapGet sampleStoredDelegator "unDelegateInfo") ∧
    applyScriptedUpsert sampleDelegatorJsonOf (delegatorRequest "D")
        (applyScriptedUpsert sampleDelegatorJsonOf (delegatorRequest "D") none) =
      applyScriptedUpsert sampleDelegatorJsonOf (delegatorRequest "D") none :=
  ⟨(delegatorRequest_frame sampleDelegatorJsonOf "D" sampleDelegatorParams
      sampleStoredDelegator rfl).2.1.elim
      fun d1 h => ⟨d1, h.1, h.2.1, h.2.2.2.2.1⟩,
    (delegatorRequest_frame sampleDelegatorJsonOf "D" sampleDelegatorParams
      sampleStoredDelegator rfl).2.2.2
      (by simp [sampleDelegatorParams, mapGet]) (by simp [sampleDelegatorParams, mapGet])⟩

end Delegators

namespace Delegators

/-- The removal loop does not run out of fuel when given more than its bound. -/
theorem removalLoop_fuel (fuel : Nat) :
    ∀ (infos : List Json) (ids : List String) (i j : Nat) (inner : Bool),
      removalLoopSteps infos.length ids.length i j inner < fuel →
      removalLoop fuel infos ids i j inner ≠ LoopResult.outOfFuel := by
  induction fuel with
  | zero =>
    intro infos ids i j inner h
    omega
  | succ n ih =>
    intro infos ids i j inner h
    cases inner with
    | false =>
      rw [removalLoop]
      by_cases hi : i < infos.length
      · rw [if_pos hi]
        apply ih
        simp only [removalLoopSteps, Bool.false_eq_true, if_false] at h
        simp only [removalLoopSteps, if_true]
        have hsplit : infos.length - i = (infos.length - (i + 1)) + 1 := by omega
        rw [hsplit, Nat.add_mul] at h
        omega
      · rw [if_neg hi]
        simp
    | true =>
      rw [removalLoop]
      simp only [removalLoopSteps, if_true] at h
      cases hid : ids[j]? with
      | none =>
        simp only []
        apply ih
        simp only [removalLoopSteps, Bool.false_eq_true, if_false]
        omega
      | some id =>
        simp only []
        have hj : j < ids.length := by
          by_contra hc
          rw [List.getElem?_eq_none (by omega)] at hid
          cases hid
        cases hinfo : infos[i]? with
        | none => simp
        | some info =>
          simp only []
          cases hhas : infoHasId info id with
          | none => simp
          | some b =>
            cases b with
            | true =>
              simp only []
              apply ih
              simp only [removalLoopSteps, if_true]
              have hle : ((infos.eraseIdx i).length - (i + 1)) * (ids.length + 2) ≤
                  (infos.length - (i + 1)) * (ids.length + 2) :=
                Nat.mul_le_mul_right _
                  (Nat.sub_le_sub_right (List.length_eraseIdx_le infos i) _)
              omega
            | false =>
              simp only []
              apply ih
              simp only [removalLoopSteps, if_true]
              omega

/-- The removal loop, run with the fuel of `runRemovalLoop`, ends or throws: it does not
stop for lack of fuel. -/
theorem runRemovalLoop_ne_outOfFuel (infos : List Json) (ids : List String) :
    runRemovalLoop infos ids ≠ LoopResult.outOfFuel := by
  apply removalLoop_fuel
  simp only [removalLoopSteps, Bool.false_eq_true, if_false, Nat.sub_zero]
  rw [Nat.add_mul]
  omega

end Delegators

/-! ## `serialize.go`: the action of a transaction -/

/-- A second write under a key replaces the first. -/
theorem mapSet_mapSet_same {α : Type} (m : GoMap α) (k : String) (a b : α) :
    mapSet (mapSet m k a) k b = mapSet m k b := by
  induction m with
  | nil => simp [mapSet]
  | cons p rest ih =>
    obtain ⟨k0, v0⟩ := p
    by_cases h : k0 = k
    · simp [mapSet, h]
    · simp [mapSet, h, ih]

/-- C32: `isNFTTransferOrMultiTransfer` holds exactly when the sender and receiver shards
are equal, the data split on `@` has at least four parts and the first part is
`ESDTNFTTransfer` or `MultiESDTNFTTransfer`; it does not depend on the smart-contract
results of the transaction, whose length is never below zero. -/
theorem isNFTTransferOrMultiTransfer_iff (tx : DbTransaction) :
    (isNFTTransferOrMultiTransfer tx = true ↔
      tx.SenderShard = tx.ReceiverShard ∧
      4 ≤ (stringsSplit (goString tx.Data) '@').length ∧
      ((stringsSplit (goString tx.Data) '@').head? = some "ESDTNFTTransfer" ∨
        (stringsSplit (goString tx.Data) '@').head? = some "MultiESDTNFTTransfer")) ∧
    (∀ scrs, isNFTTransferOrMultiTransfer { tx with SmartContractResults := scrs } =
      isNFTTransferOrMultiTransfer tx) ∧
    ¬ (tx.SmartContractResults.length < 0) := by
  refine ⟨?_, fun scrs => ?_, Nat.not_lt_zero _⟩
  · unfold isNFTTransferOrMultiTransfer
    by_cases hs : tx.SenderShard = tx.ReceiverShard
    · by_cases hl : (stringsSplit (goString tx.Data) '@').length < 4
      · simp [hs, hl, atSeparator]
      · simp [hs, hl, atSeparator, BuiltInFunctionESDTNFTTransfer,
          BuiltInFunctionMultiESDTNFTTransfer]
        omega
    · simp [hs]
  · simp [isNFTTransferOrMultiTransfer]

/-- The `index` action line differs from the `update` action line. -/
theorem indexLine_ne_updateLine (hash : String) :
    "\x7b \"index\" : \x7b \"_id\" : \"" ++ hash ++ "\", \"_type\" : \"" ++ "_doc" ++
        "\" \x7d \x7d" ++ "\n" ≠
      "\x7b\"update\":\x7b\"_id\":\"" ++ hash ++ "\", \"_type\": \"_doc\"\x7d\x7d" ++ "\n" := by
  intro h
  have h1 := congrArg (fun s : String => s.data[1]?) h
  simp [String.data_append] at h1

/-- An NFT or multi transfer in the sense of `isNFTTransferOrMultiTransfer` has equal
sender and receiver shards. -/
theorem isNFTTransferOrMultiTransfer_shards (tx : DbTransaction) :
    isNFTTransferOrMultiTransfer tx = true → tx.SenderShard = tx.ReceiverShard := by
  intro h
  by_contra hs
  simp [isNFTTransferOrMultiTransfer, hs] at h

/-- C33: when the transaction marshals, `prepareSerializedDataForATransaction` returns
the `index` line with the marshalled transaction as payload exactly when the transaction
is neither cross-shard on its source shard nor an intra-shard NFT or multi transfer;
otherwise it returns the `update` line, with the `return` upsert when cross-shard on
the source (whether or not it is also an NFT transfer) and the NFT script otherwise. Both
lines carry the hash as `_id`, and a cross-shard transaction seen on its destination
shard gets the `index` line. -/
theorem prepareSerializedData_action (jsonMarshal : DbTransaction → Option String)
    (tx : DbTransaction) (selfShardID : Nat) (marshaledTx : String)
    (hm : jsonMarshal tx = some marshaledTx) :
    ∃ line payload,
      prepareSerializedDataForATransaction jsonMarshal tx selfShardID = some (line, payload) ∧
      (line = "\x7b \"index\" : \x7b \"_id\" : \"" ++ tx.Hash ++ "\", \"_type\" : \"" ++ "_doc" ++
          "\" \x7d \x7d" ++ "\n" ↔
        (isCrossShardOnSourceShard tx selfShardID = false ∧
          isNFTTransferOrMultiTransfer tx = false)) ∧
      (line ≠ "\x7b \"index\" : \x7b \"_id\" : \"" ++ tx.Hash ++ "\", \"_type\" : \"" ++ "_doc" ++
          "\" \x7d \x7d" ++ "\n" →
        line = "\x7b\"update\":\x7b\"_id\":\"" ++ tx.Hash ++ "\", \"_type\": \"_doc\"\x7d\x7d" ++
          "\n") ∧
      payload =
        (if isCrossShardOnSourceShard tx selfShardID then
          "\x7b\"script\":\x7b\"source\":\"return\"\x7d,\"upsert\":" ++ marshaledTx ++ "\x7d"
        else if isNFTTransferOrMultiTransfer tx then
          prepareNFTESDTTransferOrMultiESDTTransfer marshaledTx
        else marshaledTx) ∧
      (selfShardID = tx.ReceiverShard → tx.SenderShard ≠ tx.ReceiverShard →
        line = "\x7b \"index\" : \x7b \"_id\" : \"" ++ tx.Hash ++ "\", \"_type\" : \"" ++ "_doc" ++
          "\" \x7d \x7d" ++ "\n" ∧ payload = marshaledTx) := by
  have hne := indexLine_ne_updateLine tx.Hash
  by_cases hc : isCrossShardOnSourceShard tx selfShardID = true
  · have hrun : prepareSerializedDataForATransaction jsonMarshal tx selfShardID =
        some ("\x7b\"update\":\x7b\"_id\":\"" ++ tx.Hash ++ "\", \"_type\": \"_doc\"\x7d\x7d" ++
            "\n",
          "\x7b\"script\":\x7b\"source\":\"" ++ crossShardScript ++ "\"\x7d,\"upsert\":" ++
            marshaledTx ++ "\x7d") := by
      simp only [prepareSerializedDataForATransaction, hm, hc, if_true]
    refine ⟨_, _, hrun, ?_, ?_, ?_, ?_⟩
    · simp only [hc, Bool.true_eq_false, false_and, iff_false]
      exact fun h => hne h.symm
    · intro _
      rfl
    · simp only [hc, if_true, crossShardScript]
      apply String.ext
      simp [String.data_append]
    · intro h1 h2
      exfalso
      simp only [isCrossShardOnSourceShard, Bool.and_eq_true, decide_eq_true_eq] at hc
      exact h2 (h1 ▸ hc.1 ▸ rfl)
  · have hc0 : isCrossShardOnSourceShard tx selfShardID = false := by
      simpa using hc
    by_cases hn : isNFTTransferOrMultiTransfer tx = true
    · have hrun : prepareSerializedDataForATransaction jsonMarshal tx selfShardID =
          some ("\x7b\"update\":\x7b\"_id\":\"" ++ tx.Hash ++
              "\", \"_type\": \"_doc\"\x7d\x7d" ++ "\n",
            prepareNFTESDTTransferOrMultiESDTTransfer marshaledTx) := by
        simp only [prepareSerializedDataForATransaction, hm, hc0, hn, if_true,
          Bool.false_eq_true, if_false]
      refine ⟨_, _, hrun, ?_, ?_, ?_, ?_⟩
      · simp only [hn, Bool.true_eq_false, and_false, iff_false]
        exact fun h => hne h.symm
      · intro _
        rfl
      · simp only [hc0, hn, if_true, Bool.false_eq_true, if_false]
      · intro h1 h2
        exfalso
        have h3 := isNFTTransferOrMultiTransfer_shards tx hn
        exact h2 h3
    · have hn0 : isNFTTransferOrMultiTransfer tx = false := by
        simpa using hn
      have hrun : prepareSerializedDataForATransaction jsonMarshal tx selfShardID =
          some ("\x7b \"index\" : \x7b \"_id\" : \"" ++ tx.Hash ++ "\", \"_type\" : \"" ++
              "_doc" ++ "\" \x7d \x7d" ++ "\n", marshaledTx) := by
        simp only [prepareSerializedDataForATransaction, hm, hc0, hn0,
          Bool.false_eq_true, if_false]
      refine ⟨_, _, hrun, ?_, ?_, ?_, ?_⟩
      · simp only [hc0, hn0, and_self, iff_true]
      · intro h
        exact absurd rfl h
      · simp only [hc0, hn0, Bool.false_eq_true, if_false]
      · intro _ _
        exact ⟨rfl, rfl⟩

/-- The action of C33 on the sample cross-shard transaction seen on its destination
shard 1: the `index` line with the hash, and the marshalled transaction as payload. -/
theorem prepareSerializedData_action_witness :
    prepareSerializedDataForATransaction sampleMarshal sampleDbTx 1 =
      some ("\x7b \"index\" : \x7b \"_id\" : \"09\", \"_type\" : \"_doc\" \x7d \x7d\n",
        "\x7b\"status\":\"pending\"\x7d") := by
  obtain ⟨line, payload, hrun, _, _, _, hdest⟩ :=
    prepareSerializedData_action sampleMarshal sampleDbTx 1 _ rfl
  obtain ⟨h1, h2⟩ := hdest rfl (by decide)
  rw [hrun, h1, h2]
  rfl

/-! ## `txGrouper.go`: altered addresses -/

/-- C34: for a document whose status is `invalid`, `addToAlteredAddresses` writes the key
of the sender, with `IsSender = true`, when the self shard is the sender shard of the
miniblock and the transaction is no reward, and otherwise leaves the map as it was; in
both cases every key other than the sender, the receiver among them, keeps its value. -/
theorem addToAlteredAddresses_invalid (tx : DbTransaction)
    (alteredAddresses : GoMap AlteredAccount) (miniBlock : MiniBlock) (selfShardID : Nat)
    (isRewardTx : Bool) (hstatus : tx.Status = "invalid") :
    addToAlteredAddresses tx alteredAddresses miniBlock selfShardID isRewardTx =
      (if selfShardID = miniBlock.SenderShardID ∧ isRewardTx = false then
        mapSet alteredAddresses tx.Sender
          { IsSender := true
            IsESDTOperation := decide (tx.EsdtTokenIdentifier ≠ "") && decide (tx.EsdtValue ≠ "")
            TokenIdentifier := tx.EsdtTokenIdentifier }
      else alteredAddresses) ∧
    (∀ k, k ≠ tx.Sender →
      mapGet (addToAlteredAddresses tx alteredAddresses miniBlock selfShardID isRewardTx) k =
        mapGet alteredAddresses k) ∧
    (tx.Receiver ≠ tx.Sender →
      mapGet (addToAlteredAddresses tx alteredAddresses miniBlock selfShardID isRewardTx)
        tx.Receiver = mapGet alteredAddresses tx.Receiver) ∧
    (¬ (selfShardID = miniBlock.SenderShardID ∧ isRewardTx = false) →
      addToAlteredAddresses tx alteredAddresses miniBlock selfShardID isRewardTx =
        alteredAddresses) := by
  have heq : addToAlteredAddresses tx alteredAddresses miniBlock selfShardID isRewardTx =
      (if selfShardID = miniBlock.SenderShardID ∧ isRewardTx = false then
        mapSet alteredAddresses tx.Sender
          { IsSender := true
            IsESDTOperation := decide (tx.EsdtTokenIdentifier ≠ "") && decide (tx.EsdtValue ≠ "")
            TokenIdentifier := tx.EsdtTokenIdentifier }
      else alteredAddresses) := by
    simp only [addToAlteredAddresses, hstatus, TxStatusInvalid, if_true]
  have hframe : ∀ k, k ≠ tx.Sender →
      mapGet (addToAlteredAddresses tx alteredAddresses miniBlock selfShardID isRewardTx) k =
        mapGet alteredAddresses k := by
    intro k hk
    rw [heq]
    split_ifs
    · exact mapGet_mapSet_other _ _ _ _ (Ne.symm hk)
    · rfl
  refine ⟨heq, hframe, fun h => hframe _ h, ?_⟩
  intro hn
  rw [heq, if_neg hn]

/-- The frame of C34 on the sample invalid transaction in a miniblock sent by shard 0:
on shard 0 the only entry is the sender `alice`, on shard 1 there is none. -/
theorem addToAlteredAddresses_invalid_witness :
    addToAlteredAddresses sampleInvalidDbTx [] sampleMiniBlock 0 false =
      [("alice", { IsSender := true })] ∧
    addToAlteredAddresses sampleInvalidDbTx [] sampleMiniBlock 1 false = [] :=
  ⟨(addToAlteredAddresses_invalid sampleInvalidDbTx [] sampleMiniBlock 0 false rfl).1.trans
      (by decide),
    (addToAlteredAddresses_invalid sampleInvalidDbTx [] sampleMiniBlock 1 false rfl).2.2.2
      (by decide)⟩

/-- C39: for a transaction that is neither a reward nor invalid, in a miniblock whose
sender and receiver shards are the self shard, and whose sender is its receiver,
`addToAlteredAddresses` leaves the map it would leave with the receiver write alone:
the entry of that address has `IsSender = false`, and every other key keeps its
value. -/
theorem addToAlteredAddresses_self_transfer (tx : DbTransaction)
    (alteredAddresses : GoMap AlteredAccount) (miniBlock : MiniBlock) (selfShardID : Nat)
    (hstatus : tx.Status ≠ "invalid") (hsender : selfShardID = miniBlock.SenderShardID)
    (hreceiver : selfShardID = miniBlock.ReceiverShardID) (hsame : tx.Sender = tx.Receiver) :
    addToAlteredAddresses tx alteredAddresses miniBlock selfShardID false =
      mapSet alteredAddresses tx.Sender
        { IsSender := false
          IsESDTOperation := decide (tx.EsdtTokenIdentifier ≠ "") && decide (tx.EsdtValue ≠ "")
          TokenIdentifier := tx.EsdtTokenIdentifier } ∧
    mapGet (addToAlteredAddresses tx alteredAddresses miniBlock selfShardID false) tx.Sender =
      some
        { IsSender := false
          IsESDTOperation := decide (tx.EsdtTokenIdentifier ≠ "") && decide (tx.EsdtValue ≠ "")
          TokenIdentifier := tx.EsdtTokenIdentifier } ∧
    (∀ k, k ≠ tx.Sender →
      mapGet (addToAlteredAddresses tx alteredAddresses miniBlock selfShardID false) k =
        mapGet alteredAddresses k) := by
  have heq : addToAlteredAddresses tx alteredAddresses miniBlock selfShardID false =
      mapSet alteredAddresses tx.Sender
        { IsSender := false
          IsESDTOperation := decide (tx.EsdtTokenIdentifier ≠ "") && decide (tx.EsdtValue ≠ "")
          TokenIdentifier := tx.EsdtTokenIdentifier } := by
    have hs : ¬ (tx.Status = TxStatusInvalid) := hstatus
    simp only [addToAlteredAddresses, ← hsender, ← hreceiver, true_and, true_or, if_true,
      if_neg hs, ← hsame]
    exact mapSet_mapSet_same _ _ _ _
  refine ⟨heq, ?_, ?_⟩
  · rw [heq, mapGet_mapSet_same]
  · intro k hk
    rw [heq, mapGet_mapSet_other _ _ _ _ (Ne.symm hk)]

/-- The overwrite of C39 on the sample transaction that `alice` sends to herself inside
shard 0: one entry, with `IsSender = false`. -/
theorem addToAlteredAddresses_self_transfer_witness :
    addToAlteredAddresses sampleSelfDbTx [] sampleMiniBlockIntra 0 false =
      [("alice", { IsSender := false })] :=
  (addToAlteredAddresses_self_transfer sampleSelfDbTx [] sampleMiniBlockIntra 0 (by decide)
    rfl rfl rfl).1.trans (by decide)

namespace WorkItems

/-- C37: on a work item with a header and a body without miniblocks, `Save` calls
`SaveHeader` and nothing else, on the work item whose nil pool is replaced by the empty
pool: it returns nil when `SaveHeader` succeeds and the wrapped error otherwise, whatever
the pool and the altered accounts of the block. -/
theorem Save_empty_miniblocks (indexer : SaveBlockIndexer) (ob : OutportBlock)
    (hdr : HeaderHandler) (bd : BlockData) (body : Body) (wib1 : OutportBlockWithHeader)
    (hbd : ob.BlockData = some bd) (hbody : bd.Body = some body)
    (hmb : body.MiniBlocks = [])
    (hwib1 : wib1 =
      { OutportBlock := some { ob with TransactionPool := some (ob.TransactionPool.getD {}) }
        Header := some hdr }) :
    Save indexer (some { OutportBlock := some ob, Header := some hdr }) =
      (match indexer.SaveHeader wib1 with
      | none => SaveResult.returned none [Call.SaveHeader wib1]
      | some err =>
        SaveResult.returned
          (some (wrapError err " when saving header block, hash " bd.HeaderHash hdr.nonce))
          [Call.SaveHeader wib1]) ∧
    (ob.TransactionPool = none →
      wib1.OutportBlock.map (fun o => o.TransactionPool) =
        some (some { Transactions := [], Logs := [] })) := by
  obtain ⟨obd, otp, oaa⟩ := ob
  simp only at hbd
  subst hbd
  obtain ⟨hh, b⟩ := bd
  simp only at hbody
  subst hbody
  obtain ⟨mbs⟩ := body
  simp only at hmb
  subst hmb
  subst hwib1
  constructor
  · cases otp <;>
    · simp only [Option.getD_none, Option.getD_some, Save, List.length_nil, if_true]
      split <;> simp [*]
  · intro h
    simp only at h
    subst h
    rfl

/-- The single call of C37 on the sample block without miniblocks and with a nil pool:
`SaveHeader` receives the empty pool and `Save` returns nil. -/
theorem Save_empty_miniblocks_witness :
    Save sampleIndexerOk
        (some { OutportBlock := some sampleEmptyOutportBlock, Header := some sampleHeaderHandler }) =
      SaveResult.returned none
        [Call.SaveHeader
          { OutportBlock := some
              { BlockData := some { HeaderHash := [1, 2], Body := some { MiniBlocks := [] } }
                TransactionPool := some { Transactions := [], Logs := [] }
                AlteredAccounts := ["erd1"] }
            Header := some sampleHeaderHandler }] :=
  (Save_empty_miniblocks sampleIndexerOk sampleEmptyOutportBlock sampleHeaderHandler
    { HeaderHash := [1, 2], Body := some { MiniBlocks := [] } } { MiniBlocks := [] } _
    rfl rfl rfl rfl).1

end WorkItems

namespace Elasticproc

/-- What the sender step of `processEvent` appends, for an event with two topics at
least: entries that carry the nonce reduced by `Uint64`. -/
theorem senderStep_lists (encode : Bytes → String) (unmarshal : Bytes → Option ESDigitalToken)
    (lib : Lib) (args : ArgsProcessEvent) (h : Handlers) (t0 t1 : Bytes) (rest : List Bytes)
    (htopics : args.event.topics = t0 :: t1 :: rest) :
    ∃ (hmid : Handlers) (newAccounts : List (String × AlteredAccount))
        (newTokens newSupply : List TokenInfo),
      (if lib.computeShardID args.event.address args.numOfShards = args.selfShardID then
          processNFTEventOnSender (newNFTsProcessor encode unmarshal) lib args.event h
            args.timestamp
        else some h) = some hmid ∧
      hmid.accounts = h.accounts ++ newAccounts ∧
      hmid.tokens = h.tokens ++ newTokens ∧
      hmid.tokensSupply = h.tokensSupply ++ newSupply ∧
      (∀ e ∈ newAccounts, e.2.NFTNonce = bigUint64 (bigFromBytes t1) ∧
        e.2.TokenIdentifier = goString t0) ∧
      (∀ t ∈ newTokens ++ newSupply, t.Nonce = bigUint64 (bigFromBytes t1) ∧
        t.Identifier =
          lib.computeTokenIdentifier (goString t0) (bigUint64 (bigFromBytes t1))) := by
  by_cases hs : lib.computeShardID args.event.address args.numOfShards = args.selfShardID
  · have hrun := processNFTEventOnSender_eq (newNFTsProcessor encode unmarshal) lib args.event
      h args.timestamp t0 t1 rest htopics
    refine ⟨_, _, _, _, by rw [if_pos hs]; exact hrun, rfl, rfl, rfl, ?_, ?_⟩
    · intro e he
      simp only [List.mem_singleton] at he
      subst he
      exact ⟨rfl, rfl⟩
    · intro t ht
      rw [List.mem_append] at ht
      rcases ht with ht | ht
      · split_ifs at ht
        · split at ht
          · split at ht
            · simp only [List.mem_singleton] at ht
              subst ht
              exact ⟨rfl, rfl⟩
            · simp at ht
          · simp at ht
        · simp at ht
      · split_ifs at ht
        · simp only [List.mem_singleton] at ht
          subst ht
          exact ⟨rfl, rfl⟩
        · simp at ht
  · refine ⟨h, [], [], [], by rw [if_neg hs], by simp, by simp, by simp, ?_, ?_⟩
    · intro e he
      simp at he
    · intro t ht
      simp at ht

/-- C38: for an event with one of the six NFT identifiers and a nonce topic, `processEvent`
returns the empty output with the handlers untouched exactly when the big-endian value of
the nonce topic is 0 modulo 2^64; it fails exactly when that value is not 0 modulo 2^64
and there is no third topic; and whenever it returns for a value that is not 0 modulo
2^64, the identifier it returns and every entry it appends to the altered accounts, the
tokens and the tokens supply carry the value reduced modulo 2^64. -/
theorem processEvent_nonce_mod (encode : Bytes → String)
    (unmarshal : Bytes → Option ESDigitalToken) (lib : Lib) (args : ArgsProcessEvent)
    (h : Handlers) (t0 t1 : Bytes) (rest : List Bytes)
    (hid : goString args.event.identifier ∈
      ["ESDTNFTTransfer", "ESDTNFTBurn", "ESDTNFTAddQuantity", "ESDTNFTCreate",
        "MultiESDTNFTTransfer", "ESDTWipe"])
    (htopics : args.event.topics = t0 :: t1 :: rest) :
    (processEvent (newNFTsProcessor encode unmarshal) lib args h = some ({}, h) ↔
      bigFromBytes t1 % 2 ^ 64 = 0) ∧
    (processEvent (newNFTsProcessor encode unmarshal) lib args h = none ↔
      bigFromBytes t1 % 2 ^ 64 ≠ 0 ∧ rest = []) ∧
    (bigFromBytes t1 % 2 ^ 64 ≠ 0 → rest ≠ [] →
      ∃ (out : ArgOutputProcessEvent) (h1 : Handlers)
          (newAccounts : List (String × AlteredAccount)) (newTokens newSupply : List TokenInfo),
        processEvent (newNFTsProcessor encode unmarshal) lib args h = some (out, h1) ∧
        out.processed = true ∧
        out.identifier =
          lib.computeTokenIdentifier (goString t0) (bigFromBytes t1 % 2 ^ 64) ∧
        h1.accounts = h.accounts ++ newAccounts ∧
        h1.tokens = h.tokens ++ newTokens ∧
        h1.tokensSupply = h.tokensSupply ++ newSupply ∧
        (∀ e ∈ newAccounts, e.2.NFTNonce = bigFromBytes t1 % 2 ^ 64 ∧
          e.2.TokenIdentifier = goString t0) ∧
        (∀ t ∈ newTokens ++ newSupply, t.Nonce = bigFromBytes t1 % 2 ^ 64 ∧
          t.Identifier =
            lib.computeTokenIdentifier (goString t0) (bigFromBytes t1 % 2 ^ 64))) := by
  have hmem : goString args.event.identifier ∈
      (newNFTsProcessor encode unmarshal).nftOperationsIdentifiers := hid
  have hmod : bigUint64 (bigFromBytes t1) = bigFromBytes t1 % 2 ^ 64 := rfl
  rw [← hmod]
  by_cases hz : bigUint64 (bigFromBytes t1) = 0
  · have hrun : processEvent (newNFTsProcessor encode unmarshal) lib args h = some ({}, h) := by
      unfold processEvent
      simp only [hmem, not_true_eq_false, if_false, htopics, List.getElem?_cons_zero,
        List.getElem?_cons_succ, hz, if_true]
    refine ⟨⟨fun _ => hz, fun _ => hrun⟩, ?_, fun hn => absurd hz hn⟩
    rw [hrun]
    simp [hz]
  · obtain ⟨hmid, newAccounts, newTokens, newSupply, hstep, hacc, htok, hsup, hA, hT⟩ :=
      senderStep_lists encode unmarshal lib args h t0 t1 rest htopics
    cases rest with
    | nil =>
      have hrun : processEvent (newNFTsProcessor encode unmarshal) lib args h = none := by
        unfold processEvent
        simp only [hmem, not_true_eq_false, if_false, htopics, List.getElem?_cons_zero,
          List.getElem?_cons_succ, hz]
        rw [hstep]
        rfl
      refine ⟨?_, ?_, fun _ hr => absurd rfl hr⟩
      · rw [hrun]
        simp [hz]
      · rw [hrun]
        simp [hz]
    | cons t2 rest1 =>
      have hev := processEvent_of_step encode unmarshal lib args h hmid t0 t1 t2 rest1 hid
        htopics hz hstep
      have hex : ∃ (out : ArgOutputProcessEvent) (h1 : Handlers)
          (accR : List (String × AlteredAccount)),
          processEvent (newNFTsProcessor encode unmarshal) lib args h = some (out, h1) ∧
          out.processed = true ∧
          out.identifier =
            lib.computeTokenIdentifier (goString t0) (bigUint64 (bigFromBytes t1)) ∧
          h1.accounts = hmid.accounts ++ accR ∧ h1.tokens = hmid.tokens ∧
          h1.tokensSupply = hmid.tokensSupply ∧
          (∀ e ∈ accR, e.2.NFTNonce = bigUint64 (bigFromBytes t1) ∧
            e.2.TokenIdentifier = goString t0) := by
        cases hrest : rest1.head? with
        | none =>
          simp only [hrest] at hev
          exact ⟨_, _, [], hev, rfl, rfl, by simp, rfl, rfl, by simp⟩
        | some r =>
          by_cases ht : goString args.event.identifier = "ESDTNFTTransfer" ∨
              goString args.event.identifier = "MultiESDTNFTTransfer"
          · by_cases hr : lib.computeShardID r args.numOfShards = args.selfShardID
            · simp only [hrest, ht, hr, if_true] at hev
              refine ⟨_, _,
                [(encode r,
                  { IsNFTOperation := true
                    TokenIdentifier := goString t0
                    NFTNonce := bigUint64 (bigFromBytes t1) })],
                hev, rfl, rfl, rfl, rfl, rfl, ?_⟩
              intro e he
              simp only [List.mem_singleton] at he
              subst he
              exact ⟨rfl, rfl⟩
            · simp only [hrest, ht, hr, if_true, if_false] at hev
              exact ⟨_, _, [], hev, rfl, rfl, by simp, rfl, rfl, by simp⟩
          · simp only [hrest, ht, if_false] at hev
            exact ⟨_, _, [], hev, rfl, rfl, by simp, rfl, rfl, by simp⟩
      obtain ⟨out, h1, accR, hrun, hproc, hident, hacc1, htok1, hsup1, hR⟩ := hex
      refine ⟨?_, ?_, fun _ _ => ?_⟩
      · rw [hrun]
        constructor
        · intro heq
          exfalso
          have hp := congrArg (fun o : Option (ArgOutputProcessEvent × Handlers) =>
            o.map fun x => x.1.processed) heq
          simp [hproc] at hp
        · intro h0
          exact absurd h0 hz
      · rw [hrun]
        simp
      · refine ⟨out, h1, newAccounts ++ accR, newTokens, newSupply, hrun, hproc, hident, ?_, ?_,
          ?_, ?_, hT⟩
        · rw [hacc1, hacc, List.append_assoc]
        · rw [htok1, htok]
        · rw [hsup1, hsup]
        · intro e he
          rw [List.mem_append] at he
          rcases he with he | he
          · exact hA e he
          · exact hR e he

end Elasticproc

namespace Elasticproc

/-- The reduction of C38 on the sample transfer whose nonce topic encodes 2^64 on nine
bytes: the event is ignored. -/
theorem processEvent_nonce_mod_witness :
    processEvent (newNFTsProcessor hexEncode fun _ => none) sampleLib
        (sampleArgs sampleWideNonceEvent) {} = some ({}, {}) :=
  (processEvent_nonce_mod hexEncode (fun _ => none) sampleLib (sampleArgs sampleWideNonceEvent)
    {} (toBytes "TKN-abcd") [1, 0, 0, 0, 0, 0, 0, 0, 0] [[100], [4]] (by decide) rfl).1.mpr
    (by decide)

end Elasticproc

namespace Logsevents

/-- The loop over a log followed by one more event. -/
theorem processNFTOperationLogLoop_append (np : NftsProcessor) (lib : Lib) (key : String)
    (timestamp : Nat) (init : List Event) (last : Event) :
    ∀ st : Handlers × GoMap DbTransaction × GoMap ScResult,
      processNFTOperationLogLoop np lib key timestamp (init ++ [last]) st =
        match processNFTOperationLogLoop np lib key timestamp init st with
        | none => none
        | some st1 => processNFTOperationLogLoop np lib key timestamp [last] st1 := by
  induction init with
  | nil =>
    intro st
    simp only [List.nil_append, processNFTOperationLogLoop]
  | cons e rest ih =>
    intro st
    obtain ⟨h, txs, scrs⟩ := st
    rw [List.cons_append, processNFTOperationLogLoop, processNFTOperationLogLoop]
    cases processEvent np lib e h timestamp with
    | none => rfl
    | some r =>
      obtain ⟨tokenIdentifier, h1⟩ := r
      simp only []
      cases mapGet txs key with
      | some tx => exact ih _
      | none =>
        simp only []
        cases mapGet scrs key with
        | some scr => exact ih _
        | none => exact ih _

/-- While the key of the log is in the transactions map, the loop writes that key of the
transactions map only, and leaves the smart-contract results alone. -/
theorem processNFTOperationLogLoop_tx (np : NftsProcessor) (lib : Lib) (key : String)
    (timestamp : Nat) (txsMap : GoMap DbTransaction) (scrsMap : GoMap ScResult)
    (tx : DbTransaction) (htx : mapGet txsMap key = some tx) (events : List Event) :
    ∀ (h : Handlers) (txs : GoMap DbTransaction),
      (txs = txsMap ∨ ∃ id0, txs = mapSet txsMap key { tx with EsdtTokenIdentifier := id0 }) →
      ∀ h1 txs1 scrs1,
        processNFTOperationLogLoop np lib key timestamp events (h, txs, scrsMap) =
          some (h1, txs1, scrs1) →
        (txs1 = txsMap ∨
          ∃ id0, txs1 = mapSet txsMap key { tx with EsdtTokenIdentifier := id0 }) ∧
        scrs1 = scrsMap := by
  induction events with
  | nil =>
    intro h txs hP h1 txs1 scrs1 hrun
    simp only [processNFTOperationLogLoop, Option.some.injEq, Prod.mk.injEq] at hrun
    obtain ⟨_, h2, h3⟩ := hrun
    subst h2 h3
    exact ⟨hP, rfl⟩
  | cons e rest ih =>
    intro h txs hP h1 txs1 scrs1 hrun
    rw [processNFTOperationLogLoop] at hrun
    cases hev : processEvent np lib e h timestamp with
    | none => simp [hev] at hrun
    | some r =>
      obtain ⟨tokenIdentifier, h2⟩ := r
      simp only [hev] at hrun
      rcases hP with hP | ⟨id0, hP⟩
      · subst hP
        simp only [htx] at hrun
        exact ih _ _ (Or.inr ⟨tokenIdentifier, rfl⟩) _ _ _ hrun
      · subst hP
        simp only [mapGet_mapSet_same, mapSet_mapSet_same] at hrun
        exact ih _ _ (Or.inr ⟨tokenIdentifier, rfl⟩) _ _ _ hrun

/-- C40: for a log whose hex-encoded hash keys a transaction, `processNFTOperationLog` on
events ending with `last` leaves, when no event fails, the transactions map with that
transaction's `EsdtTokenIdentifier` set to what `processEvent` returns for `last`, and the
smart-contract results as they were; whatever the events, a run that keys a transaction
leaves the smart-contract results and every other transaction untouched; and a log with
no events changes nothing. -/
theorem processNFTOperationLog_tx (np : NftsProcessor) (lib : Lib) (logHash : String)
    (init : List Event) (last : Event) (h : Handlers) (timestamp : Nat)
    (txsMap : GoMap DbTransaction) (scrsMap : GoMap ScResult) (tx : DbTransaction)
    (htx : mapGet txsMap (hexEncode (toBytes logHash)) = some tx) :
    processNFTOperationLog np lib logHash (init ++ [last]) h timestamp txsMap scrsMap =
      (match processNFTOperationLog np lib logHash init h timestamp txsMap scrsMap with
      | none => none
      | some (h1, _, _) =>
        match processEvent np lib last h1 timestamp with
        | none => none
        | some (tokenIdentifier, h2) =>
          some (h2,
            mapSet txsMap (hexEncode (toBytes logHash))
              { tx with EsdtTokenIdentifier := tokenIdentifier },
            scrsMap)) ∧
    (∀ events h1 txs1 scrs1,
      processNFTOperationLog np lib logHash events h timestamp txsMap scrsMap =
        some (h1, txs1, scrs1) →
      scrs1 = scrsMap ∧
        ∀ k, k ≠ hexEncode (toBytes logHash) → mapGet txs1 k = mapGet txsMap k) ∧
    processNFTOperationLog np lib logHash [] h timestamp txsMap scrsMap =
      some (h, txsMap, scrsMap) := by
  have hloop : ∀ events : List Event,
      processNFTOperationLog np lib logHash events h timestamp txsMap scrsMap =
        processNFTOperationLogLoop np lib (hexEncode (toBytes logHash)) timestamp events
          (h, txsMap, scrsMap) := by
    intro events
    cases events with
    | nil => rfl
    | cons e rest => simp [processNFTOperationLog]
  refine ⟨?_, ?_, rfl⟩
  · rw [hloop, hloop, processNFTOperationLogLoop_append]
    cases hinit : processNFTOperationLogLoop np lib (hexEncode (toBytes logHash)) timestamp init
        (h, txsMap, scrsMap) with
    | none => rfl
    | some st1 =>
      obtain ⟨h1, txs1, scrs1⟩ := st1
      obtain ⟨hP, hS⟩ := processNFTOperationLogLoop_tx np lib _ timestamp txsMap scrsMap tx htx
        init h txsMap (Or.inl rfl) h1 txs1 scrs1 hinit
      subst hS
      simp only [processNFTOperationLogLoop]
      cases processEvent np lib last h1 timestamp with
      | none => rfl
      | some r =>
        obtain ⟨tokenIdentifier, h2⟩ := r
        rcases hP with hP | ⟨id0, hP⟩
        · subst hP
          simp only [htx]
        · subst hP
          simp only [mapGet_mapSet_same, mapSet_mapSet_same]
  · intro events h1 txs1 scrs1 hrun
    rw [hloop] at hrun
    obtain ⟨hP, hS⟩ := processNFTOperationLogLoop_tx np lib _ timestamp txsMap scrsMap tx htx
      events h txsMap (Or.inl rfl) h1 txs1 scrs1 hrun
    refine ⟨hS, fun k hk => ?_⟩
    rcases hP with hP | ⟨id0, hP⟩
    · rw [hP]
    · rw [hP, mapGet_mapSet_other _ _ _ _ (Ne.symm hk)]

/-- The log of C40 on the samples: a burn of `TKN-abcd` nonce 2 followed by an event that
is no NFT operation, under the log hash `h1` that keys a transaction. The burn alone sets
the identifier `TKN-abcd-02`; with the trailing event the identifier is reset to the
empty string, and the smart-contract result under the same key is not written. -/
theorem processNFTOperationLog_tx_witness :
    processNFTOperationLog sampleOldProcessor sampleLib "h1"
        ([sampleOldBurnEvent] ++ [sampleOtherEvent]) {} 5040 sampleTxsMap sampleScrsMap =
      some
        ({ accounts := [("02", { IsNFTOperation := true, TokenIdentifier := "TKN-abcd",
                                 NFTNonce := 2 })] },
          [("6831", { Hash := "6831", Sender := "alice", EsdtTokenIdentifier := "" })],
          sampleScrsMap) ∧
    (processNFTOperationLog sampleOldProcessor sampleLib "h1" [sampleOldBurnEvent] {} 5040
        sampleTxsMap sampleScrsMap).map (fun r => r.2.1) =
      some [("6831", { Hash := "6831", Sender := "alice",
                       EsdtTokenIdentifier := "TKN-abcd-02" })] ∧
    (processNFTOperationLog sampleOldProcessor sampleLib "h2" [sampleOldBurnEvent] {} 5040
        sampleTxsMap sampleScrsMap).map (fun r => r.2.2) =
      some [("6831", { Hash := "6831" }),
            ("6832", { Hash := "6832", EsdtTokenIdentifier := "TKN-abcd-02" })] :=
  ⟨(processNFTOperationLog_tx sampleOldProcessor sampleLib "h1" [sampleOldBurnEvent]
      sampleOtherEvent {} 5040 sampleTxsMap sampleScrsMap
      { Hash := "6831", Sender := "alice" } (by decide)).1.trans (by decide),
    by decide, by decide⟩

end Logsevents

/-! ## `serialize.go`: the ids of token documents -/

/-- The action lines that `SerializeTokens` writes carry the `Token` field of each record
as `_id`. -/
theorem SerializeTokensLoop_lines (jsonMarshal : TokenInfo → Except String String)
    (putDataError : String → String → Option String) (tokens : List TokenInfo) :
    ∀ buffSlice result : BufferSlice,
      SerializeTokensLoop jsonMarshal putDataError tokens buffSlice = Except.ok result →
      result.map Prod.fst = buffSlice.map Prod.fst ++
        tokens.map fun t => "\x7b \"index\" : \x7b \"_id\" : \"" ++ t.Token ++ "\" \x7d \x7d" ++ "\n" := by
  induction tokens with
  | nil =>
    intro buffSlice result h
    simp only [SerializeTokensLoop, Except.ok.injEq] at h
    simp [h]
  | cons t rest ih =>
    intro buffSlice result h
    rw [SerializeTokensLoop] at h
    cases hm : jsonMarshal t with
    | error e => simp [hm] at h
    | ok serializedData =>
      simp only [hm] at h
      cases hp : putDataError
          ("\x7b \"index\" : \x7b \"_id\" : \"" ++ t.Token ++ "\" \x7d \x7d" ++ "\n") serializedData with
      | some e => simp [hp] at h
      | none =>
        simp only [hp] at h
        rw [ih _ _ h]
        simp

/-- C31 (counterexample): the records of the NFTs of nonce 2 and 3 of the collection
`TKN-abcd`, whose identifiers are `TKN-abcd-02` and `TKN-abcd-03`, are both written by
`SerializeTokens` under the `_id` `TKN-abcd`: the two action lines are the same, and
neither carries the identifier of its record. -/
theorem SerializeTokens_nft_id_counterexample :
    SerializeTokens sampleMarshalToken (fun _ _ => none)
        [{ Token := "TKN-abcd", Identifier := "TKN-abcd-02", Nonce := 2 },
         { Token := "TKN-abcd", Identifier := "TKN-abcd-03", Nonce := 3 }] =
      Except.ok
        [("\x7b \"index\" : \x7b \"_id\" : \"TKN-abcd\" \x7d \x7d\n",
            "\x7b\"identifier\":\"TKN-abcd-02\"\x7d"),
         ("\x7b \"index\" : \x7b \"_id\" : \"TKN-abcd\" \x7d \x7d\n",
            "\x7b\"identifier\":\"TKN-abcd-03\"\x7d")] ∧
    "\x7b \"index\" : \x7b \"_id\" : \"TKN-abcd\" \x7d \x7d\n" ≠
      "\x7b \"index\" : \x7b \"_id\" : \"TKN-abcd-02\" \x7d \x7d\n" ∧
    "\x7b \"index\" : \x7b \"_id\" : \"TKN-abcd\" \x7d \x7d\n" ≠
      "\x7b \"index\" : \x7b \"_id\" : \"TKN-abcd-03\" \x7d \x7d\n" := by
  refine ⟨rfl, by decide, by decide⟩

/-- C31 (amended): the action line of every record that `SerializeTokens` writes carries
the `Token` field of the record as `_id`, whatever its identifier and nonce; when every
record marshals and `PutData` accepts it, the buffers hold, in order, that line and the
marshalled record of each token. -/
theorem SerializeTokens_id_is_token (jsonMarshal : TokenInfo → Except String String)
    (putDataError : String → String → Option String) (tokens : List TokenInfo)
    (serialized : TokenInfo → String)
    (hmarshal : ∀ t ∈ tokens, jsonMarshal t = Except.ok (serialized t))
    (hput : ∀ t ∈ tokens,
      putDataError ("\x7b \"index\" : \x7b \"_id\" : \"" ++ t.Token ++ "\" \x7d \x7d" ++ "\n")
        (serialized t) = none) :
    SerializeTokens jsonMarshal putDataError tokens =
      Except.ok (tokens.map fun t =>
        ("\x7b \"index\" : \x7b \"_id\" : \"" ++ t.Token ++ "\" \x7d \x7d" ++ "\n", serialized t)) ∧
    ∀ result, SerializeTokens jsonMarshal putDataError tokens = Except.ok result →
      result.map Prod.fst =
        tokens.map fun t => "\x7b \"index\" : \x7b \"_id\" : \"" ++ t.Token ++ "\" \x7d \x7d" ++ "\n" := by
  have hloop : ∀ (l : List TokenInfo) (buffSlice : BufferSlice),
      (∀ t ∈ l, jsonMarshal t = Except.ok (serialized t)) →
      (∀ t ∈ l,
        putDataError ("\x7b \"index\" : \x7b \"_id\" : \"" ++ t.Token ++ "\" \x7d \x7d" ++ "\n")
          (serialized t) = none) →
      SerializeTokensLoop jsonMarshal putDataError l buffSlice =
        Except.ok (buffSlice ++ l.map fun t =>
          ("\x7b \"index\" : \x7b \"_id\" : \"" ++ t.Token ++ "\" \x7d \x7d" ++ "\n",
            serialized t)) := by
    intro l
    induction l with
    | nil =>
      intro buffSlice _ _
      simp [SerializeTokensLoop]
    | cons t rest ih =>
      intro buffSlice hm hp
      rw [SerializeTokensLoop]
      simp only [hm t (List.mem_cons_self _ _), hp t (List.mem_cons_self _ _)]
      rw [ih _ (fun x hx => hm x (List.mem_cons_of_mem _ hx))
        (fun x hx => hp x (List.mem_cons_of_mem _ hx))]
      simp
  constructor
  · have h := hloop tokens [] hmarshal hput
    simpa [SerializeTokens] using h
  · intro result h
    have h1 := SerializeTokensLoop_lines jsonMarshal putDataError tokens [] result h
    simpa using h1

/-- The ids of C31 on a fungible record and an NFT record: the first is written under
its ticker, the second under the ticker of its collection. -/
theorem SerializeTokens_id_is_token_witness :
    SerializeTokens sampleMarshalToken (fun _ _ => none)
        [{ Token := "FNG-1234", Identifier := "FNG-1234" },
         { Token := "TKN-abcd", Identifier := "TKN-abcd-02", Nonce := 2 }] =
      Except.ok
        [("\x7b \"index\" : \x7b \"_id\" : \"FNG-1234\" \x7d \x7d\n",
            "\x7b\"identifier\":\"FNG-1234\"\x7d"),
         ("\x7b \"index\" : \x7b \"_id\" : \"TKN-abcd\" \x7d \x7d\n",
            "\x7b\"identifier\":\"TKN-abcd-02\"\x7d")] :=
  (SerializeTokens_id_is_token sampleMarshalToken (fun _ _ => none)
    [{ Token := "FNG-1234", Identifier := "FNG-1234" },
     { Token := "TKN-abcd", Identifier := "TKN-abcd-02", Nonce := 2 }]
    (fun t => "\x7b\"identifier\":\"" ++ t.Identifier ++ "\"\x7d")
    (fun _ _ => rfl) (fun _ _ => rfl)).1.trans rfl

namespace Delegators

/-- C35: for a delegator whose withdraw ids are `A` and `B`, the payload of
`prepareSerializedDataForWithdrawal` carries `"withdrawIds": [A B]`, the ids without
quotes and separated by a blank, where the JSON array of the two strings is
`["A","B"]`. -/
theorem prepareSerializedDataForWithdrawal_ids_unquoted (d : Delegator)
    (delegatorSerialized : String) :
    prepareSerializedDataForWithdrawal
        { d with WithdrawFundIDs := some ["A", "B"], UnDelegateInfo := none }
        delegatorSerialized =
      "\x7b\"scripted_upsert\": true, \"script\": \x7b\"source\": \"" ++
        FormatPainlessSource withdrawalCodeToExecute ++
        "\",\"lang\": \"painless\",\"params\": \x7b \"delegator\": " ++ delegatorSerialized ++
        ", \"withdrawIds\": [A B] \x7d\x7d,\"upsert\": \x7b\x7d\x7d" ∧
    sprintStrings (some ["A", "B"]) = "[A B]" ∧
    withdrawIdsAsJsonArray ["A", "B"] = "[\"A\",\"B\"]" ∧
    sprintStrings (some ["A", "B"]) ≠ withdrawIdsAsJsonArray ["A", "B"] := by
  have h1 : sprintStrings (some ["A", "B"]) = "[A B]" := by decide
  refine ⟨?_, h1, by decide, by decide⟩
  simp only [prepareSerializedDataForWithdrawal, h1]
  apply String.ext
  simp [String.data_append]

set_option maxRecDepth 100000

/-- C36: the text of the active-stake script is well-bracketed, with two `{` and two `}`;
the text of the undelegate script has three `{` and four `}` and the text of the withdraw
script six `{` and seven `}`, so neither of the two is well-bracketed. -/
theorem delegator_scripts_bracketing :
    wellBracketed delegatorCodeToExecute = true ∧
    countChar (Char.ofNat 123) delegatorCodeToExecute = 2 ∧
    countChar (Char.ofNat 125) delegatorCodeToExecute = 2 ∧
    countChar (Char.ofNat 123) unDelegateCodeToExecute = 3 ∧
    countChar (Char.ofNat 125) unDelegateCodeToExecute = 4 ∧
    wellBracketed unDelegateCodeToExecute = false ∧
    countChar (Char.ofNat 123) withdrawalCodeToExecute = 6 ∧
    countChar (Char.ofNat 125) withdrawalCodeToExecute = 7 ∧
    wellBracketed withdrawalCodeToExecute = false := by
  refine ⟨?_, ?_, ?_, ?_, ?_, ?_, ?_, ?_, ?_⟩ <;> decide

/-- The formatting of the three script texts keeps their bracketing: the active-stake
script stays well-bracketed, the two others stay with one `}` too many. -/
theorem FormatPainlessSource_bracketing :
    wellBracketed (FormatPainlessSource delegatorCodeToExecute) = true ∧
    wellBracketed (FormatPainlessSource unDelegateCodeToExecute) = false ∧
    wellBracketed (FormatPainlessSource withdrawalCodeToExecute) = false := by
  refine ⟨?_, ?_, ?_⟩ <;> decide

end Delegators

end EsIndexer
